import Mathlib

/-!
# TwoBottle feeding device: event, schedule and logging core

A shallow embedding of `src/TwoBottle.cpp` / `src/TwoBottle.h` (class `FED3`).

Conventions of the embedding

* The member variables of `FED3` that the modelled functions read or write are the
  fields of the structure `FED3`, under the names of the source.
* Everything a function reads from the hardware (pin levels, `millis()`, `now()`,
  the touch bitmask, the random draw, sensor readings) is an explicit argument, in
  the order in which the source reads it.
* `int` members are integers reduced with `wrapInt32` after each arithmetic step,
  `unsigned long` / `uint32_t` values are reduced modulo `2^32` (`u32`), `uint16_t`
  values modulo `2^16`.
* Calls that only drive the display, the buzzer, the LEDs or the motor pins
  (`UpdateDisplay`, `DisplayLeftInt`, `tone`, `colorWipe`, `ReleaseMotor`, `BNC`, ...)
  change no member variable and are left out.
* `logdata` prints one line to `logfile`; the line is kept as the list of its
  comma-separated fields and appended to the field `log`.
-/

namespace TwoBottle

/-! ## Machine arithmetic -/

/-- Conversion of an integer to a 32-bit two's-complement `int`. -/
def wrapInt32 (x : Int) : Int := (x + 2147483648) % 4294967296 - 2147483648

/-- Conversion of an integer to `unsigned long` / `uint32_t` (32 bits on the Teensy 4.1). -/
def u32 (x : Int) : Int := x % 4294967296

/-- Level of a digital input pin, as returned by `digitalRead`. -/
inductive Level where
  | LOW
  | HIGH
deriving DecidableEq

/-! ## Log records -/

/-- What one `logfile.print` of a field writes. -/
inductive Value where
  /-- Date and time `M/D/YYYY h:mm:ss:mmm` of `now()` and `millis() % 1000`. -/
  | dateTime (nowTime : Int) (msPart : Int)
  /-- A floating-point sensor reading, kept as the reading itself. -/
  | reading (raw : Int)
  /-- The battery voltage `analogRead(VBATPIN) * 3.3 / 4096.0 * 2.0`, kept as the ADC sample. -/
  | voltage (adc : Int)
  /-- An integer printed in decimal. -/
  | int (i : Int)
  /-- A string printed as it is. -/
  | text (s : String)
  /-- A number of milliseconds printed as seconds, `x / 1000.000`. -/
  | seconds (ms : Int)
  /-- The not-a-number sentinel, `sqrt(-1)`. -/
  | nan
deriving DecidableEq

/-- The places of a log line, one per field that `logdata` prints. -/
inductive Column where
  | timestamp
  | temp
  | humidity
  | libraryVersion
  | sessionType
  | deviceNumber
  | batteryVoltage
  | leftMotorTurns
  | rightMotorTurns
  | pelletsToSwitch
  | probLeft
  | probRight
  | FR
  | event
  | highProbPoke
  | activePoke
  | leftPokeCount
  | rightPokeCount
  | leftLickCount
  | rightLickCount
  | leftDeliverCount
  | rightDeliverCount
  | blockPelletCount
  | retrievalTime
  | interPelletInterval
  | pokeTime
deriving DecidableEq

/-- Title of a column in the header line of the data file. -/
def Column.title : Column → String
  | .timestamp => "MM:DD:YYYY hh:mm:ss:ms"
  | .temp => "Temp"
  | .humidity => "Humidity"
  | .libraryVersion => "Library_Version"
  | .sessionType => "Session_type"
  | .deviceNumber => "Device_Number"
  | .batteryVoltage => "Battery_Voltage"
  | .leftMotorTurns => "Left_Motor_Turns"
  | .rightMotorTurns => "Right_Motor_Turns"
  | .pelletsToSwitch => "PelletsToSwitch"
  | .probLeft => "Prob_left"
  | .probRight => "Prob_right"
  | .FR => "FR"
  | .event => "Event"
  | .highProbPoke => "High_prob_poke"
  | .activePoke => "Active_Poke"
  | .leftPokeCount => "Left_Poke_Count"
  | .rightPokeCount => "Right_Poke_Count"
  | .leftLickCount => "Left_Lick_Count"
  | .rightLickCount => "Right_Lick_Count"
  | .leftDeliverCount => "Left_Deliver_Count"
  | .rightDeliverCount => "Right_Deliver_Count"
  | .blockPelletCount => "Block_Pellet_Count"
  | .retrievalTime => "Retrieval_Time"
  | .interPelletInterval => "InterPelletInterval"
  | .pokeTime => "Poke_Time"

/-- One comma-separated field of a log line: its place and what is printed there. -/
structure Cell where
  col : Column
  val : Value
deriving DecidableEq

/-- One line of the data file. -/
abbrev Record := List Cell

/-- Value printed at a place of a record, if the record has that place. -/
def Record.field (r : Record) (c : Column) : Option Value :=
  (r.find? (fun x => x.col == c)).map Cell.val

/-- What `logdata` reads from the clock and the sensors while it prints one line. -/
structure LogEnv where
  /-- Result of `now()`. -/
  nowTime : Int
  /-- Result of `millis()`. -/
  millis : Int
  /-- Temperature reported by `aht.getEvent`. -/
  temperature : Int
  /-- Relative humidity reported by `aht.getEvent`. -/
  humidity : Int
  /-- Result of `analogRead(VBATPIN)` in `ReadBatteryLevel`. -/
  vbat : Int
deriving DecidableEq

/-! ## Device state -/

/-- The library version string `VER`. -/
def VER : String := "1.17.0"

/-- Bit of the touch bitmask of the left lick sensor. -/
def LEFT_LICK : Nat := 0

/-- Bit of the touch bitmask of the right lick sensor. -/
def RIGHT_LICK : Nat := 1

/-- Member variables of class `FED3`, with the `static` locals of its functions. -/
structure FED3 where
  sessiontype : String := "undef"
  /-- Battery voltage, kept as the ADC sample it was computed from. -/
  measuredvbat : Int := 0
  numMotorTurnsLeft : Int := 0
  numMotorTurnsRight : Int := 0
  doseLeftSteps : Int := 1000
  doseRightSteps : Int := 1000
  minPokeTime : Int := 0
  consecutive : Int := 0
  timedStart : Int := 0
  timedEnd : Int := 0
  FED : Int := 0
  FR : Int := 1
  FEDmode : Nat := 1
  previousFEDmode : Nat := 1
  previousFED : Int := 0
  LeftCount : Int := 0
  RightCount : Int := 0
  TotalDeliverCount : Int := 0
  LeftDeliverCount : Int := 0
  RightDeliverCount : Int := 0
  BlockPelletCount : Int := 0
  countAllPokes : Bool := true
  /-- Active side: `false` (0) for right, `true` (1) for left. -/
  activePoke : Bool := true
  Left : Bool := false
  Right : Bool := false
  LeftDropAvailable : Bool := false
  RightDropAvailable : Bool := false
  currentHour : Int := 0
  currentMinute : Int := 0
  currentSecond : Int := 0
  Event : String := "None"
  prob_left : Int := 0
  prob_right : Int := 0
  pelletsToSwitch : Int := 0
  retInterval : Int := 0
  leftInterval : Int := 0
  rightInterval : Int := 0
  leftPokeTime : Int := 0
  rightPokeTime : Int := 0
  LeftDropTime : Int := 0
  RightDropTime : Int := 0
  lastPellet : Int := 0
  unixtime : Int := 0
  interPelletInterval : Int := 0
  EnableSleep : Bool := true
  ClassicFED3 : Bool := false
  FED3Menu : Bool := false
  psygene : Bool := false
  tempSensor : Bool := false
  lickLeftFlag : Bool := false
  lickRightFlag : Bool := false
  leftHeld : Bool := false
  rightHeld : Bool := false
  EndTime : Int := 0
  SetFED : Bool := false
  setTimed : Bool := false
  lickIRQ : Bool := false
  LeftLickCount : Int := 0
  RightLickCount : Int := 0
  /-- The `static uint16_t lastLick` of `serviceLicks`. -/
  lastLick : Nat := 0
  /-- The `static uint32_t bothLowSince` of `DisplayMouse`. -/
  bothLowSince : Int := 0
  /-- The lines printed to `logfile` so far, oldest first. -/
  log : List Record := []

/-! ## SD logging -/

/-- The test `sessiontype == "Bandit" or "Bandit80" or "Bandit100"` of `writeHeader` and `logdata`. -/
def isBandit (s : FED3) : Bool :=
  s.sessiontype == "Bandit" || s.sessiontype == "Bandit80" || s.sessiontype == "Bandit100"

/-- The header line that `writeHeader` prints to the data file. -/
def writeHeader (s : FED3) : String :=
  if isBandit s then
    if s.tempSensor == false then
      "MM:DD:YYYY hh:mm:ss:ms,Library_Version,Session_type,Device_Number,Battery_Voltage,Left_Motor_Turns,Right_Motor_Turns,PelletsToSwitch,Prob_left,Prob_right,Event,High_prob_poke,Left_Poke_Count,Right_Poke_Count,Left_Lick_Count,Right_Lick_Count,Left_Deliver_Count,Right_Deliver_Count,Block_Pellet_Count,Retrieval_Time,InterPelletInterval,Poke_Time"
    else
      "MM:DD:YYYY hh:mm:ss:ms,Temp,Humidity,Library_Version,Session_type,Device_Number,Battery_Voltage,Left_Motor_Turns,Right_Motor_Turns,PelletsToSwitch,Prob_left,Prob_right,Event,High_prob_poke,Left_Poke_Count,Right_Poke_Count,Left_Lick_Count,Right_Lick_Count,Left_Deliver_Count,Right_Deliver_Count,Block_Pellet_Count,Retrieval_Time,InterPelletInterval,Poke_Time"
  else
    if s.tempSensor == false then
      "MM:DD:YYYY hh:mm:ss:ms,Library_Version,Session_type,Device_Number,Battery_Voltage,Left_Motor_Turns,Right_Motor_Turns,FR,Event,Active_Poke,Left_Poke_Count,Right_Poke_Count,Left_Lick_Count,Right_Lick_Count,Left_Deliver_Count,Right_Deliver_Count,Block_Pellet_Count,Retrieval_Time,InterPelletInterval,Poke_Time"
    else
      "MM:DD:YYYY hh:mm:ss:ms,Temp,Humidity,Library_Version,Session_type,Device_Number,Battery_Voltage,Left_Motor_Turns,Right_Motor_Turns,FR,Event,Active_Poke,Left_Poke_Count,Right_Poke_Count,Left_Lick_Count,Right_Lick_Count,Left_Deliver_Count,Right_Deliver_Count,Block_Pellet_Count,Retrieval_Time,InterPelletInterval,Poke_Time"

/-- The local `isDeliver` of `logdata`. -/
def isDeliver (s : FED3) : Bool :=
  s.Event == "LeftDeliver" || s.Event == "RightDeliver"

/-- The fields of the line that `logdata` prints, in the order of its `print` calls; each
`logfile.print(",")` of the source ends a field and the final `println` ends the last one. -/
def logdataFields (s : FED3) (env : LogEnv) : Record :=
  -- Log data and time
  [⟨.timestamp, .dateTime env.nowTime (u32 env.millis % 1000)⟩]
  -- Log temp and humidity
  ++ (if s.tempSensor == true then
        [⟨.temp, .reading env.temperature⟩, ⟨.humidity, .reading env.humidity⟩]
      else [])
  -- Log library version, session type, device number, battery voltage
  ++ [⟨.libraryVersion, .text VER⟩,
      ⟨.sessionType, .text s.sessiontype⟩,
      ⟨.deviceNumber, .int s.FED⟩,
      ⟨.batteryVoltage, .voltage env.vbat⟩]
  -- Log motor turns
  ++ (if !isDeliver s then
        [⟨.leftMotorTurns, .nan⟩, ⟨.rightMotorTurns, .nan⟩]
      else
        [⟨.leftMotorTurns, .int (wrapInt32 (s.numMotorTurnsLeft + 1))⟩,
         ⟨.rightMotorTurns, .int (wrapInt32 (s.numMotorTurnsRight + 1))⟩])
  -- Log FR ratio (or pellets to switch block in bandit task)
  ++ (if isBandit s then
        [⟨.pelletsToSwitch, .int s.pelletsToSwitch⟩,
         ⟨.probLeft, .int s.prob_left⟩,
         ⟨.probRight, .int s.prob_right⟩]
      else
        [⟨.FR, .int s.FR⟩])
  -- Log event type
  ++ [⟨.event, .text s.Event⟩]
  -- Log active poke side
  ++ (if isBandit s then
        [⟨.highProbPoke,
          if s.prob_left > s.prob_right then .text "Left"
          else if s.prob_left < s.prob_right then .text "Right"
          else .text "nan"⟩]
      else
        [⟨.activePoke, if s.activePoke == false then .text "Right" else .text "Left"⟩])
  -- Log data (LeftCount, RightCount, licks, drops, block pellet count)
  ++ [⟨.leftPokeCount, .int s.LeftCount⟩,
      ⟨.rightPokeCount, .int s.RightCount⟩,
      ⟨.leftLickCount, .int s.LeftLickCount⟩,
      ⟨.rightLickCount, .int s.RightLickCount⟩,
      ⟨.leftDeliverCount, .int s.LeftDeliverCount⟩,
      ⟨.rightDeliverCount, .int s.RightDeliverCount⟩,
      ⟨.blockPelletCount, .int s.BlockPelletCount⟩]
  -- Log pellet retrieval interval
  ++ [⟨.retrievalTime,
        if !isDeliver s then .nan
        else if s.retInterval < 60000 then .seconds s.retInterval
        else if s.retInterval ≥ 60000 then .text "Timed_out"
        else .text "Error"⟩]
  -- Inter-Pellet-Interval
  ++ [⟨.interPelletInterval,
        if !isDeliver s || decide (s.TotalDeliverCount < 2) then .nan
        else .int s.interPelletInterval⟩]
  -- Poke duration
  ++ [⟨.pokeTime,
        if isDeliver s then .nan
        else if s.Event == "Left" || s.Event == "LeftShort" || s.Event == "LeftWithPellet"
            || s.Event == "LeftinTimeout" || s.Event == "LeftDuringDispense" then
          .seconds s.leftInterval
        else if s.Event == "Right" || s.Event == "RightShort" || s.Event == "RightWithPellet"
            || s.Event == "RightinTimeout" || s.Event == "RightDuringDispense" then
          .seconds s.rightInterval
        else .nan⟩]

/-- The function `FED3::logdata`: prints one line for the current `Event` and, through
`ReadBatteryLevel`, refreshes `measuredvbat`. -/
def logdata (s : FED3) (env : LogEnv) : FED3 :=
  { s with measuredvbat := env.vbat, log := s.log ++ [logdataFields s env] }

/-! ## Poke functions -/

/-- The statement `if (leftInterval < minPokeTime) Event = "LeftShort"; else Event = "LeftPoke";`
of `logLeftPoke`. -/
def logLeftPoke.classify (s : FED3) : FED3 :=
  if s.leftInterval < s.minPokeTime then { s with Event := "LeftShort" }
  else { s with Event := "LeftPoke" }

/-- The function `FED3::logLeftPoke`. `t0` is the first `millis()`, `pin` the level read
from `LEFT_POKE`, `t1` the second `millis()` (read only when the pin is not `LOW`). -/
def logLeftPoke (s : FED3) (t0 : Int) (pin : Level) (t1 : Int) (env : LogEnv) : FED3 :=
  let s := { s with Left := false }
  let s := { s with leftPokeTime := wrapInt32 t0 }
  let s := { s with LeftCount := wrapInt32 (s.LeftCount + 1) }
  let s := { s with leftInterval := 0 }
  if pin = Level.LOW then s
  else
    let s := { s with leftInterval := wrapInt32 (u32 (u32 t1 - u32 s.leftPokeTime)) }
    let s := logLeftPoke.classify s
    let s := logdata s env
    { s with LeftDropAvailable := false }

/-- The statement `if (rightInterval < minPokeTime) Event = "RightShort"; else Event = "RightPoke";`
of `logRightPoke`. -/
def logRightPoke.classify (s : FED3) : FED3 :=
  if s.rightInterval < s.minPokeTime then { s with Event := "RightShort" }
  else { s with Event := "RightPoke" }

/-- The function `FED3::logRightPoke`, with the readings of `logLeftPoke` taken on
`RIGHT_POKE`. -/
def logRightPoke (s : FED3) (t0 : Int) (pin : Level) (t1 : Int) (env : LogEnv) : FED3 :=
  let s := { s with Right := false }
  let s := { s with rightPokeTime := wrapInt32 t0 }
  let s := { s with RightCount := wrapInt32 (s.RightCount + 1) }
  let s := { s with rightInterval := 0 }
  if pin = Level.LOW then s
  else
    let s := { s with rightInterval := wrapInt32 (u32 (u32 t1 - u32 s.rightPokeTime)) }
    let s := logRightPoke.classify s
    let s := logdata s env
    { s with RightDropAvailable := false }

/-- The function `FED3::logLeftLick`. -/
def logLeftLick (s : FED3) (env : LogEnv) : FED3 :=
  logdata { s with Event := "LeftLick" } env

/-- The function `FED3::logRightLick`. -/
def logRightLick (s : FED3) (env : LogEnv) : FED3 :=
  logdata { s with Event := "RightLick" } env

/-- The function `FED3::randomizeActivePoke`; `draw` is the result of `random(0, 2)`,
converted to the `bool` member `activePoke` on assignment. -/
def randomizeActivePoke (s : FED3) (max : Int) (draw : Int) : FED3 :=
  -- Store last active side and randomize
  let lastActive := s.activePoke
  let s := { s with activePoke := decide (draw ≠ 0) }
  -- Increment consecutive active pokes, or reset consecutive to zero
  let s := if s.activePoke = lastActive then { s with consecutive := wrapInt32 (s.consecutive + 1) }
           else { s with consecutive := 0 }
  -- if consecutive pokes are too many, swap pokes
  if s.consecutive ≥ max then
    let s := if s.activePoke = false then { s with activePoke := true }
             else if s.activePoke = true then { s with activePoke := false }
             else s
    { s with consecutive := 0 }
  else s

/-! ## Feeding functions -/

/-- The function `FED3::RotateDiskLeft`: steps the left motor and reports success. -/
def RotateDiskLeft (_steps : Int) : Bool := true

/-- The function `FED3::RotateDiskRight`: steps the right motor and reports success. -/
def RotateDiskRight (_steps : Int) : Bool := true

/-- The function `FED3::FeedLeft`; `t0` and `t1` are the two `millis()` readings taken
after the motor is released. -/
def FeedLeft (s : FED3) (steps _pulse : Int) (_pixelsoff : Bool) (t0 t1 : Int)
    (env : LogEnv) : FED3 :=
  let steps := if steps = 0 then s.doseLeftSteps else steps
  let s := { s with numMotorTurnsLeft := 0 }
  let pelletDispensed := false
  let pelletDispensed := if pelletDispensed = false then RotateDiskLeft steps else pelletDispensed
  if pelletDispensed = true then
    let s := { s with LeftDropTime := u32 t0 }
    let s := { s with retInterval := wrapInt32 (u32 (u32 t1 - s.LeftDropTime)) }
    let s := { s with LeftDeliverCount := wrapInt32 (s.LeftDeliverCount + 1) }
    let s := { s with TotalDeliverCount := wrapInt32 (s.TotalDeliverCount + 1) }
    -- if (pulse > 0) BNC(pulse, 1): drives the BNC port only
    let s := { s with Event := "LeftDeliver" }
    let s := { s with LeftDropAvailable := true }
    logdata s env
  else s

/-- The function `FED3::FeedRight`; `t0` and `t1` are the two `millis()` readings and
`nowTime` the `now()` reading taken after the motor is released. -/
def FeedRight (s : FED3) (steps _pulse : Int) (_pixelsoff : Bool) (t0 t1 : Int)
    (nowTime : Int) (env : LogEnv) : FED3 :=
  let steps := if steps = 0 then s.doseRightSteps else steps
  let s := { s with numMotorTurnsRight := 0 }
  let pelletDispensed := false
  let pelletDispensed := if pelletDispensed = false then RotateDiskRight steps else pelletDispensed
  if pelletDispensed = true then
    let s := { s with RightDropTime := u32 t0 }
    let s := { s with retInterval := wrapInt32 (u32 (u32 t1 - s.RightDropTime)) }
    let s := { s with RightDeliverCount := wrapInt32 (s.RightDeliverCount + 1) }
    let s := { s with TotalDeliverCount := wrapInt32 (s.TotalDeliverCount + 1) }
    -- if (pulse > 0) BNC(pulse, 1): drives the BNC port only
    let s := { s with Event := "RightDeliver" }
    -- calculate InterPelletInterval
    let s := { s with interPelletInterval := wrapInt32 (nowTime - s.lastPellet) }
    let s := { s with lastPellet := u32 nowTime }
    let s := logdata s env
    { s with RightDropAvailable := true }
  else s

/-! ## Lick sensing -/

/-- The function `FED3::serviceLicks`; `touched` is the bitmask returned by the first
`cap.touched()` (the second call only clears the interrupt line), `envL` and `envR` are what
`logdata` reads when the left and the right lick are logged. -/
def serviceLicks (s : FED3) (touched : Nat) (envL envR : LogEnv) : FED3 :=
  let currentLick := touched % 65536
  let rise := (currentLick &&& (65535 ^^^ s.lastLick)) % 65536
  let s := if rise &&& (1 <<< LEFT_LICK) ≠ 0 then
      let s := { s with LeftLickCount := u32 (s.LeftLickCount + 1) }
      let s := { s with lickLeftFlag := true }
      let s := { s with LeftDropAvailable := false }
      logLeftLick s envL
    else s
  let s := if rise &&& (1 <<< RIGHT_LICK) ≠ 0 then
      let s := { s with RightLickCount := u32 (s.RightLickCount + 1) }
      let s := { s with lickRightFlag := true }
      let s := { s with RightDropAvailable := false }
      logRightLick s envR
    else s
  let s := { s with lastLick := currentLick }
  { s with lickIRQ := false }

/-- The value of `consecutive` in `randomizeActivePoke` after the counting step, before the
test `consecutive >= max` that forces a flip. -/
def randomizeActivePoke.counted (s : FED3) (draw : Int) : Int :=
  if decide (draw ≠ 0) = s.activePoke then wrapInt32 (s.consecutive + 1) else 0

/-! ## Series of calls -/

/-- The values of `activePoke` after each of a series of calls `randomizeActivePoke(max)`,
one call per random draw, oldest first. -/
def assignedSides (max : Int) : FED3 → List Int → List Bool
  | _, [] => []
  | s, d :: ds =>
    (randomizeActivePoke s max d).activePoke :: assignedSides max (randomizeActivePoke s max d) ds

/-- What one call of `serviceLicks` reads. -/
structure LickPoll where
  touched : Nat
  envL : LogEnv
  envR : LogEnv

/-- A series of `serviceLicks` polls, one per element of `polls`. -/
def serviceLicksAll (s : FED3) (polls : List LickPoll) : FED3 :=
  polls.foldl (fun s p => serviceLicks s p.touched p.envL p.envR) s

/-- Number of bitmasks of a series in which bit `bit` is set while it is clear in the
bitmask before (`prev` for the first one): the 0→1 transitions seen between polls. -/
def lickRises (bit : Nat) : Nat → List Nat → Nat
  | _, [] => 0
  | prev, b :: bs =>
    (if b.testBit bit = true ∧ prev.testBit bit = false then 1 else 0) + lickRises bit b bs

/-- Number of lines of a log whose `Event` field is `kind`. -/
def countEvent (kind : String) (log : List Record) : Nat :=
  (log.filter (fun r => r.field Column.event == some (Value.text kind))).length

/-! ## Change device number -/

/-- What one pass of the device-number loop of `SetDeviceNumber` reads: the level of
`RIGHT_POKE` and the `millis()` taken when it is `LOW`, the same for `LEFT_POKE`, and the
`millis()` of the confirm test. -/
structure DeviceNumberPoll where
  right : Level
  tRight : Int
  left : Level
  tLeft : Int
  tCheck : Int

/-- The statement `if (FED > 700) FED = 700;` of `SetDeviceNumber`. -/
def SetDeviceNumber.capFED (s : FED3) : FED3 :=
  if s.FED > 700 then { s with FED := 700 } else s

/-- The statement `if (FED < 1) FED = 0;` of `SetDeviceNumber`. -/
def SetDeviceNumber.floorFED (s : FED3) : FED3 :=
  if s.FED < 1 then { s with FED := 0 } else s

/-- The two poke tests in the body of `while (SetFED == true)` in `SetDeviceNumber`. -/
def SetDeviceNumber.adjust (s : FED3) (p : DeviceNumberPoll) : FED3 :=
  let s := if p.right = Level.LOW then
      let s := { s with FED := wrapInt32 (s.FED + 1) }
      let s := { s with EndTime := wrapInt32 p.tRight }
      SetDeviceNumber.capFED s
    else s
  if p.left = Level.LOW then
    let s := { s with FED := wrapInt32 (s.FED - 1) }
    let s := { s with EndTime := wrapInt32 p.tLeft }
    SetDeviceNumber.floorFED s
  else s

/-- The device-number phase of `SetDeviceNumber`: the loop `while (SetFED == true)` up to the
pass in which `millis() - EndTime > 3000` confirms the number and clears `SetFED`; one
element of `polls` is read per pass. -/
def SetDeviceNumber.numberPhase : FED3 → List DeviceNumberPoll → FED3
  | s, [] => s
  | s, p :: ps =>
    if s.SetFED = true then
      let s := SetDeviceNumber.adjust s p
      if u32 (u32 p.tCheck - u32 s.EndTime) > 3000 then { s with SetFED := false }
      else SetDeviceNumber.numberPhase s ps
    else s

/-! ## Start screen -/

/-- What one pass of the loop of `DisplayMouse` reads: the poke levels of the mode-menu
test, the poke levels of the both-poke test, the `millis()` that starts the hold timer and
the `millis()` compared with it. -/
structure MousePoll where
  menuLeft : Level
  menuRight : Level
  left : Level
  right : Level
  tStart : Int
  tCheck : Int
deriving DecidableEq

/-- How a pass of the loop of `DisplayMouse` ends. -/
inductive MouseExit where
  /-- The loop goes on. -/
  | none
  /-- `SelectMode()` is called (it ends in a processor reset). -/
  | selectMode
  /-- `SetDeviceNumber()` is called and `DisplayMouse` returns. -/
  | setDeviceNumber
deriving DecidableEq

/-- One pass of the `for` loop of `DisplayMouse`, after the mouse is drawn. -/
def DisplayMouse.poll (s : FED3) (p : MousePoll) : FED3 × MouseExit :=
  let s := { s with previousFEDmode := s.FEDmode }
  let s := { s with previousFED := s.FED }
  -- If one poke is pushed change mode
  if (s.FED3Menu == true || s.ClassicFED3 == true || s.psygene)
      && (p.menuLeft == Level.LOW || p.menuRight == Level.LOW) then
    (s, MouseExit.selectMode)
  -- If both pokes are pushed edit device number
  else if p.left = Level.LOW ∧ p.right = Level.LOW then
    let s := if s.bothLowSince = 0 then { s with bothLowSince := u32 p.tStart } else s
    if u32 (u32 p.tCheck - s.bothLowSince) > 1500 then
      ({ s with SetFED := true }, MouseExit.setDeviceNumber)
    else (s, MouseExit.none)
  else
    ({ s with bothLowSince := 0 }, MouseExit.none)

/-- The loop of `DisplayMouse` over a series of passes: the state it ends in, how it ends
and the number of passes made. -/
def DisplayMouse.loop : FED3 → List MousePoll → FED3 × MouseExit × Nat
  | s, [] => (s, MouseExit.none, 0)
  | s, p :: ps =>
    match DisplayMouse.poll s p with
    | (s1, MouseExit.none) =>
      let r := DisplayMouse.loop s1 ps
      (r.1, r.2.1, r.2.2 + 1)
    | (s1, e) => (s1, e, 1)

/-- The function `FED3::DisplayMouse`: `for (int i = -50; i < 200; i += 15)` makes 17
passes at most. -/
def DisplayMouse (s : FED3) (polls : List MousePoll) : FED3 × MouseExit × Nat :=
  DisplayMouse.loop s (polls.take 17)

/-! ## Interrupts and main loop -/

/-- The function `FED3::leftTrigger`, the handler of the falling-edge interrupt of
`LEFT_POKE`; `pin` is the level it reads. -/
def leftTrigger (s : FED3) (pin : Level) : FED3 :=
  if s.leftHeld = false ∧ pin = Level.LOW then { s with Left := true, leftHeld := true }
  else s

/-- The function `FED3::rightTrigger`, the handler of the falling-edge interrupt of
`RIGHT_POKE`; `pin` is the level it reads. -/
def rightTrigger (s : FED3) (pin : Level) : FED3 :=
  if s.rightHeld = false ∧ pin = Level.LOW then { s with Right := true, rightHeld := true }
  else s

/-- The hour of a timestamp, as `hour()` of the time library gives it. -/
def hour (t : Int) : Int := t / 3600 % 24

/-- The minute of a timestamp, as `minute()` of the time library gives it. -/
def minute (t : Int) : Int := t / 60 % 60

/-- The second of a timestamp, as `second()` of the time library gives it. -/
def second (t : Int) : Int := t % 60

/-- What one call of `run` reads: the touch bitmask and the readings of `logdata` for
`serviceLicks` (used when `lickIRQ` is set), the levels of the two pokes, `now()` and the
battery ADC sample. -/
structure RunPoll where
  touched : Nat
  envL : LogEnv
  envR : LogEnv
  left : Level
  right : Level
  nowTime : Int
  vbat : Int

/-- The statement `if (leftHeld && digitalRead(LEFT_POKE) == HIGH) leftHeld = false;` of
`run`. -/
def run.releaseLeft (s : FED3) (pin : Level) : FED3 :=
  if s.leftHeld = true ∧ pin = Level.HIGH then { s with leftHeld := false } else s

/-- The statement `if (rightHeld && digitalRead(RIGHT_POKE) == HIGH) rightHeld = false;` of
`run`. -/
def run.releaseRight (s : FED3) (pin : Level) : FED3 :=
  if s.rightHeld = true ∧ pin = Level.HIGH then { s with rightHeld := false } else s

/-- The function `FED3::run`. -/
def run (s : FED3) (r : RunPoll) : FED3 :=
  let s := if s.lickIRQ = true then serviceLicks s r.touched r.envL r.envR else s
  let s := run.releaseLeft s r.left
  let s := run.releaseRight s r.right
  let s := { s with currentHour := hour r.nowTime }
  let s := { s with currentMinute := minute r.nowTime }
  let s := { s with currentSecond := second r.nowTime }
  let s := { s with unixtime := u32 r.nowTime }
  -- ReadBatteryLevel
  { s with measuredvbat := r.vbat }

/-- A step of the poke edge detector: an interrupt on one of the pokes, or a pass of the
main loop through `run`. -/
inductive EdgeStep where
  | leftTrigger (pin : Level)
  | rightTrigger (pin : Level)
  | run (r : RunPoll)

/-- The state after a step of the poke edge detector. -/
def EdgeStep.apply (s : FED3) : EdgeStep → FED3
  | EdgeStep.leftTrigger pin => TwoBottle.leftTrigger s pin
  | EdgeStep.rightTrigger pin => TwoBottle.rightTrigger s pin
  | EdgeStep.run r => TwoBottle.run s r

/-- The state after a series of steps of the poke edge detector. -/
def EdgeStep.applyAll (s : FED3) (steps : List EdgeStep) : FED3 :=
  steps.foldl EdgeStep.apply s

/-- What one pass of the `while` loop of `Timeout` reads, in the order of the source. The
fields of a poke branch are read only when its poke reads `LOW`. `leftWait` and `rightWait`
count the `LOW` readings of the wait loops before the reading that ends them; both wait
loops read `LEFT_POKE` (`while (digitalRead (LEFT_POKE) == LOW)`). -/
structure TimeoutPass where
  tLoop : Int
  left : Level
  tLeftReset : Int
  tLeftPoke : Int
  leftWait : Nat
  tLeftRelease : Int
  envLeft : LogEnv
  right : Level
  tRightReset : Int
  tRightPoke : Int
  rightWait : Nat
  tRightRelease : Int
  envRight : LogEnv

/-- The statement `if (countAllPokes) LeftCount ++;` of `Timeout`. -/
def Timeout.countLeft (s : FED3) : FED3 :=
  if s.countAllPokes = true then { s with LeftCount := wrapInt32 (s.LeftCount + 1) } else s

/-- The statement `if (countAllPokes) RightCount ++;` of `Timeout`. -/
def Timeout.countRight (s : FED3) : FED3 :=
  if s.countAllPokes = true then { s with RightCount := wrapInt32 (s.RightCount + 1) } else s

/-- The wait loop `while (digitalRead (LEFT_POKE) == LOW) { ... }` of `Timeout` over `n`
readings of `LOW`: its body only sounds the buzzer. -/
def Timeout.wait : Nat → FED3 → FED3
  | 0, s => s
  | n + 1, s => Timeout.wait n s

/-- The body of `if (digitalRead(LEFT_POKE) == LOW)` in `Timeout`, on the state and the
local `timeoutStart`. -/
def Timeout.leftPoke (s : FED3) (reset : Bool) (timeoutStart : Int) (p : TimeoutPass) :
    FED3 × Int :=
  let timeoutStart := if reset = true then wrapInt32 p.tLeftReset else timeoutStart
  let s := { s with leftPokeTime := wrapInt32 p.tLeftPoke }
  let s := Timeout.countLeft s
  let s := { s with leftInterval := 0 }
  let s := Timeout.wait p.leftWait s
  let s := { s with leftInterval := wrapInt32 (u32 (u32 p.tLeftRelease - u32 s.leftPokeTime)) }
  let s := { s with Event := "LeftinTimeOut" }
  (logdata s p.envLeft, timeoutStart)

/-- The body of `if (digitalRead(RIGHT_POKE) == LOW)` in `Timeout`, on the state and the
local `timeoutStart`. -/
def Timeout.rightPoke (s : FED3) (reset : Bool) (timeoutStart : Int) (p : TimeoutPass) :
    FED3 × Int :=
  let timeoutStart := if reset = true then wrapInt32 p.tRightReset else timeoutStart
  let s := Timeout.countRight s
  let s := { s with rightPokeTime := wrapInt32 p.tRightPoke }
  let s := { s with rightInterval := 0 }
  let s := Timeout.wait p.rightWait s
  let s := { s with rightInterval := wrapInt32 (u32 (u32 p.tRightRelease - u32 s.rightPokeTime)) }
  let s := { s with Event := "RightinTimeout" }
  (logdata s p.envRight, timeoutStart)

/-- One pass of the body of the `while` loop of `Timeout`. -/
def Timeout.pass (reset : Bool) (r : FED3 × Int) (p : TimeoutPass) : FED3 × Int :=
  let r := if p.left = Level.LOW then Timeout.leftPoke r.1 reset r.2 p else r
  if p.right = Level.LOW then Timeout.rightPoke r.1 reset r.2 p else r

/-- The loop `while ((millis() - timeoutStart) < seconds * 1000UL)` of `Timeout`, one element
of `passes` per test of the loop condition. -/
def Timeout.loop (seconds : Int) (reset : Bool) : FED3 × Int → List TimeoutPass → FED3 × Int
  | r, [] => r
  | r, p :: ps =>
    if u32 (u32 p.tLoop - u32 r.2) < u32 (u32 seconds * 1000) then
      Timeout.loop seconds reset (Timeout.pass reset r p) ps
    else r

/-- The function `FED3::Timeout`; `t0` is the `millis()` stored in `timeoutStart`. -/
def Timeout (s : FED3) (seconds : Int) (reset _whitenoise : Bool) (t0 : Int)
    (passes : List TimeoutPass) : FED3 :=
  let r := Timeout.loop seconds reset (s, wrapInt32 t0) passes
  let s := r.1
  let s := { s with Left := false }
  { s with Right := false }

/-! ## Mode selection -/

/-- What one call of `SelectMode` reads before it updates the screen: the two pokes for the
both-poke test, `LEFT_POKE` again, `RIGHT_POKE` again, and the `millis()` stored in
`EndTime` by the branch taken. -/
structure SelectPoll where
  left1 : Level
  right1 : Level
  left2 : Level
  right2 : Level
  t : Int

/-- The statements `if (FEDmode == -1) FEDmode = 3;` (with `psygene`) and
`if (FEDmode == -1) FEDmode = 11;` of `SelectMode`; `FEDmode` is a `byte`, compared as an
`int`. -/
def SelectMode.wrapBelow (s : FED3) : FED3 :=
  if s.psygene = true then
    if (s.FEDmode : Int) = -1 then { s with FEDmode := 3 } else s
  else
    if (s.FEDmode : Int) = -1 then { s with FEDmode := 11 } else s

/-- The statements `if (FEDmode == 4) FEDmode = 0;` (with `psygene`) and
`if (FEDmode == 12) FEDmode = 0;` of `SelectMode`. -/
def SelectMode.wrapAbove (s : FED3) : FED3 :=
  if s.psygene = true then
    if s.FEDmode = 4 then { s with FEDmode := 0 } else s
  else
    if s.FEDmode = 12 then { s with FEDmode := 0 } else s

/-- The statement `if (FEDmode < 0) FEDmode = 0;` of `SelectMode`. -/
def SelectMode.floorMode (s : FED3) : FED3 :=
  if (s.FEDmode : Int) < 0 then { s with FEDmode := 0 } else s

/-- The statement `if (FEDmode > n) FEDmode = n;` of `SelectMode`, for `n = 3` and `n = 11`. -/
def SelectMode.capMode (n : Nat) (s : FED3) : FED3 :=
  if s.FEDmode > n then { s with FEDmode := n } else s

/-- The block "Double check that modes never go over" of `SelectMode`. -/
def SelectMode.doubleCheck (s : FED3) : FED3 :=
  if s.psygene = true then SelectMode.capMode 3 (SelectMode.floorMode s)
  else SelectMode.capMode 11 (SelectMode.floorMode s)

/-- One call of `SelectMode` up to the update of the screen: the state, and whether
`SetDeviceNumber()` is called (from which the device restarts). -/
def SelectMode.step (s : FED3) (p : SelectPoll) : FED3 × Bool :=
  -- If both pokes are activated
  if p.left1 = Level.LOW ∧ p.right1 = Level.LOW then
    let s := { s with EndTime := wrapInt32 p.t }
    let s := { s with SetFED := true }
    ({ s with setTimed := true }, true)
  -- If Left Poke is activated
  else if p.left2 = Level.LOW then
    let s := { s with EndTime := wrapInt32 p.t }
    let s := { s with FEDmode := (s.FEDmode + 255) % 256 }
    (SelectMode.doubleCheck (SelectMode.wrapBelow s), false)
  -- If Right Poke is activated
  else if p.right2 = Level.LOW then
    let s := { s with EndTime := wrapInt32 p.t }
    let s := { s with FEDmode := (s.FEDmode + 1) % 256 }
    (SelectMode.doubleCheck (SelectMode.wrapAbove s), false)
  else (SelectMode.doubleCheck s, false)

/-- The configured number of modes: 4 with `psygene`, 12 otherwise. -/
def modeCount (s : FED3) : Nat := if s.psygene = true then 4 else 12

/-! ## Timed feeding window -/

/-- What one pass of the loop `while (setTimed == true)` of `SetDeviceNumber` reads: the
level of `LEFT_POKE` and the `millis()` taken when it is `LOW`, the same for `RIGHT_POKE`, and
the `millis()` of the confirm test. -/
structure TimedPoll where
  left : Level
  tLeft : Int
  right : Level
  tRight : Int
  tCheck : Int

/-- The statement `if (timedStart > 24) timedStart = 0;` of `SetDeviceNumber`. -/
def SetDeviceNumber.wrapStart (s : FED3) : FED3 :=
  if s.timedStart > 24 then { s with timedStart := 0 } else s

/-- The statement `if (timedStart > timedEnd) timedEnd = timedStart + 1;` of
`SetDeviceNumber`. -/
def SetDeviceNumber.pushEnd (s : FED3) : FED3 :=
  if s.timedStart > s.timedEnd then { s with timedEnd := wrapInt32 (s.timedStart + 1) } else s

/-- The statement `if (timedEnd > 24) timedEnd = 0;` of `SetDeviceNumber`. -/
def SetDeviceNumber.wrapEnd (s : FED3) : FED3 :=
  if s.timedEnd > 24 then { s with timedEnd := 0 } else s

/-- The statement `if (timedStart > timedEnd) timedStart = timedEnd - 1;` of
`SetDeviceNumber`. -/
def SetDeviceNumber.pushStart (s : FED3) : FED3 :=
  if s.timedStart > s.timedEnd then { s with timedStart := wrapInt32 (s.timedEnd - 1) } else s

/-- The body of `if (digitalRead(LEFT_POKE) == LOW)` in the loop `while (setTimed == true)` of
`SetDeviceNumber`; `t` is the `millis()` stored in `EndTime`. -/
def SetDeviceNumber.timedLeft (s : FED3) (t : Int) : FED3 :=
  let s := { s with timedStart := wrapInt32 (s.timedStart + 1) }
  let s := { s with EndTime := wrapInt32 t }
  SetDeviceNumber.pushEnd (SetDeviceNumber.wrapStart s)

/-- The body of `if (digitalRead(RIGHT_POKE) == LOW)` in the loop `while (setTimed == true)`
of `SetDeviceNumber`; `t` is the `millis()` stored in `EndTime`. -/
def SetDeviceNumber.timedRight (s : FED3) (t : Int) : FED3 :=
  let s := { s with timedEnd := wrapInt32 (s.timedEnd + 1) }
  let s := { s with EndTime := wrapInt32 t }
  SetDeviceNumber.pushStart (SetDeviceNumber.wrapEnd s)

/-- The two poke tests in the body of `while (setTimed == true)` in `SetDeviceNumber`. -/
def SetDeviceNumber.timedAdjust (s : FED3) (p : TimedPoll) : FED3 :=
  let s := if p.left = Level.LOW then SetDeviceNumber.timedLeft s p.tLeft else s
  if p.right = Level.LOW then SetDeviceNumber.timedRight s p.tRight else s

/-- The timed-window phase of `SetDeviceNumber`: the loop `while (setTimed == true)` up to
the pass in which `millis() - EndTime > 3000` confirms the window and clears `setTimed`; one
element of `polls` is read per pass. -/
def SetDeviceNumber.timedPhase : FED3 → List TimedPoll → FED3
  | s, [] => s
  | s, p :: ps =>
    if s.setTimed = true then
      let s := SetDeviceNumber.timedAdjust s p
      if u32 (u32 p.tCheck - u32 s.EndTime) > 3000 then { s with setTimed := false }
      else SetDeviceNumber.timedPhase s ps
    else s

/-! ## Clock setting -/

/-- The clock source of the device: `time` is the time the time library keeps (what `now()`
returns, in seconds), `rtc` the time last written to the hardware clock. -/
structure Clock where
  time : Int
  rtc : Int
deriving DecidableEq

/-- What one call of `SetClock` reads: the levels of the two pokes, the `millis()` stored in
`EndTime` when a poke is `LOW`, and the seconds by which the running clock advances before
the call (`tick0`) and before each of the three later places that read `now()`. -/
structure ClockPoll where
  tick0 : Int
  tick1 : Int
  left : Level
  tLeft : Int
  tick2 : Int
  right : Level
  tRight : Int
  tick3 : Int
deriving DecidableEq

/-- The seconds by which the running clock advances over one call of `SetClock`, the time
since the call before included. -/
def ClockPoll.elapsed (p : ClockPoll) : Int := p.tick0 + p.tick1 + p.tick2 + p.tick3

/-- The function `FED3::SetClock`, on the device state and the clock. -/
def SetClock (s : FED3) (c : Clock) (p : ClockPoll) : FED3 × Clock :=
  let c := { c with time := c.time + p.tick0 }
  -- time_t nowTime = now(); unixtime = nowTime; setTime(unixtime);
  let s := { s with unixtime := u32 c.time }
  let c := { c with time := s.unixtime }
  let c := { c with time := c.time + p.tick1 }
  -- setTime(now() - 60)
  let r : FED3 × Clock := if p.left = Level.LOW then
      ({ s with EndTime := wrapInt32 p.tLeft }, { c with time := c.time - 60 })
    else (s, c)
  let r : FED3 × Clock := (r.1, { r.2 with time := r.2.time + p.tick2 })
  -- setTime(now() + 60)
  let r : FED3 × Clock := if p.right = Level.LOW then
      ({ r.1 with EndTime := wrapInt32 p.tRight }, { r.2 with time := r.2.time + 60 })
    else r
  let r : FED3 × Clock := (r.1, { r.2 with time := r.2.time + p.tick3 })
  -- Teensy3Clock.set(now())
  (r.1, { r.2 with rtc := r.2.time })

/-- A series of calls of `SetClock`, one per element of `polls`. -/
def SetClock.calls : FED3 × Clock → List ClockPoll → FED3 × Clock
  | r, [] => r
  | r, p :: ps => SetClock.calls (SetClock r.1 r.2 p) ps

/-- The seconds by which the running clock advances over a series of calls of `SetClock`. -/
def totalElapsed (polls : List ClockPoll) : Int := (polls.map ClockPoll.elapsed).sum

/-! ## Clock window and timed window of the device-number flow -/

/-- What one test of the loop `while (millis() - EndTime < 3000)` of `SetDeviceNumber` reads:
the `millis()` of the test and, when the loop goes on, the readings of the call of
`SetClock`. -/
structure ClockWindowPoll where
  tCheck : Int
  clock : ClockPoll

/-- The clock-adjust loop `while (millis() - EndTime < 3000) { SetClock(); delay (10); }` of
`SetDeviceNumber`, one element of `polls` per test of the loop condition: the state and the
clock when the loop ends, and the number of calls of `SetClock` made. -/
def SetDeviceNumber.clockPhase :
    FED3 × Clock → List ClockWindowPoll → (FED3 × Clock) × Nat
  | r, [] => (r, 0)
  | r, p :: ps =>
    if u32 (u32 p.tCheck - u32 r.1.EndTime) < 3000 then
      ((SetDeviceNumber.clockPhase (SetClock r.1 r.2 p.clock) ps).1,
       (SetDeviceNumber.clockPhase (SetClock r.1 r.2 p.clock) ps).2 + 1)
    else (r, 0)

/-- Number of passes that the loop `while (setTimed == true)` of `SetDeviceNumber` makes
over `polls`; no pass is made when `setTimed` is false at the first test. -/
def SetDeviceNumber.timedPasses : FED3 → List TimedPoll → Nat
  | _, [] => 0
  | s, p :: ps =>
    if s.setTimed = true then
      if u32 (u32 p.tCheck - u32 (SetDeviceNumber.timedAdjust s p).EndTime) > 3000 then 1
      else SetDeviceNumber.timedPasses (SetDeviceNumber.timedAdjust s p) ps + 1
    else 0

/-- The first part of the branch `if (millis() - EndTime > 3000)` of `SetDeviceNumber`,
taken when the device number is confirmed: `SetFED` is cleared, `EndTime` is set to the
`millis()` reading `tEnd`, and the clock-adjust loop runs. -/
def SetDeviceNumber.clockWindow (s : FED3) (c : Clock) (tEnd : Int)
    (clockPolls : List ClockWindowPoll) : FED3 × Clock :=
  let s := { s with SetFED := false }
  let s := { s with EndTime := wrapInt32 tEnd }
  (SetDeviceNumber.clockPhase (s, c) clockPolls).1

/-- The branch `if (millis() - EndTime > 3000)` of `SetDeviceNumber` up to the write of the
configuration and the restart: the clock window, then the loop `while (setTimed == true)`. -/
def SetDeviceNumber.confirm (s : FED3) (c : Clock) (tEnd : Int)
    (clockPolls : List ClockWindowPoll) (timedPolls : List TimedPoll) : FED3 × Clock :=
  let r := SetDeviceNumber.clockWindow s c tEnd clockPolls
  (SetDeviceNumber.timedPhase r.1 timedPolls, r.2)

/-! ## Sessions -/

/-- An operation of the library on the session state, with what it reads. -/
inductive Op where
  | logLeftPoke (t0 : Int) (pin : Level) (t1 : Int) (env : LogEnv)
  | logRightPoke (t0 : Int) (pin : Level) (t1 : Int) (env : LogEnv)
  | serviceLicks (touched : Nat) (envL envR : LogEnv)
  | Timeout (seconds : Int) (reset whitenoise : Bool) (t0 : Int) (passes : List TimeoutPass)
  | randomizeActivePoke (max draw : Int)
  | run (r : RunPoll)
  | leftTrigger (pin : Level)
  | rightTrigger (pin : Level)
  | FeedLeft (steps pulse : Int) (pixelsoff : Bool) (t0 t1 : Int) (env : LogEnv)
  | FeedRight (steps pulse : Int) (pixelsoff : Bool) (t0 t1 nowTime : Int) (env : LogEnv)
  | logdata (env : LogEnv)
  | logLeftLick (env : LogEnv)
  | logRightLick (env : LogEnv)

/-- The session state after an operation. -/
def Op.apply (s : FED3) : Op → FED3
  | Op.logLeftPoke t0 pin t1 env => TwoBottle.logLeftPoke s t0 pin t1 env
  | Op.logRightPoke t0 pin t1 env => TwoBottle.logRightPoke s t0 pin t1 env
  | Op.serviceLicks touched envL envR => TwoBottle.serviceLicks s touched envL envR
  | Op.Timeout seconds reset whitenoise t0 passes =>
    TwoBottle.Timeout s seconds reset whitenoise t0 passes
  | Op.randomizeActivePoke max draw => TwoBottle.randomizeActivePoke s max draw
  | Op.run r => TwoBottle.run s r
  | Op.leftTrigger pin => TwoBottle.leftTrigger s pin
  | Op.rightTrigger pin => TwoBottle.rightTrigger s pin
  | Op.FeedLeft steps pulse pixelsoff t0 t1 env =>
    TwoBottle.FeedLeft s steps pulse pixelsoff t0 t1 env
  | Op.FeedRight steps pulse pixelsoff t0 t1 nowTime env =>
    TwoBottle.FeedRight s steps pulse pixelsoff t0 t1 nowTime env
  | Op.logdata env => TwoBottle.logdata s env
  | Op.logLeftLick env => TwoBottle.logLeftLick s env
  | Op.logRightLick env => TwoBottle.logRightLick s env

/-- Whether an operation is a delivery, `FeedLeft` or `FeedRight`. -/
def Op.isDelivery : Op → Bool
  | Op.FeedLeft _ _ _ _ _ _ => true
  | Op.FeedRight _ _ _ _ _ _ _ => true
  | _ => false

/-- The session state after a series of operations. -/
def Op.applyAll (s : FED3) (ops : List Op) : FED3 :=
  ops.foldl Op.apply s

/-! ## Data file name -/

/-- Conversion of an `int` to the 8-bit `char` stored in `filename`. -/
def toChar (x : Int) : Nat := (x % 256).toNat

/-- The function `FED3::getFilename` on the array `filename`, kept as the list of its
character codes (`'0'` is 48, `'.'` 46, `'C'` 67, `'S'` 83, `'V'` 86). `month`, `day` and
`year` are the calendar fields of `now()`; `i` is the value of the loop variable with which
the `for` loop over the file numbers ends. `/` and `%` of the source are the truncating
division and remainder of `int`. -/
def getFilename (s : FED3) (month day year : Int) (i : Nat) (filename : List Nat) : List Nat :=
  let filename := filename.set 3 (toChar (s.FED.tdiv 100 + 48))
  let filename := filename.set 4 (toChar (s.FED.tdiv 10 + 48))
  let filename := filename.set 5 (toChar (s.FED.tmod 10 + 48))
  let filename := filename.set 7 (toChar (month.tdiv 10 + 48))
  let filename := filename.set 8 (toChar (month.tmod 10 + 48))
  let filename := filename.set 9 (toChar (day.tdiv 10 + 48))
  let filename := filename.set 10 (toChar (day.tmod 10 + 48))
  let filename := filename.set 11 (toChar ((year - 2000).tdiv 10 + 48))
  let filename := filename.set 12 (toChar ((year - 2000).tmod 10 + 48))
  let filename := filename.set 16 46
  let filename := filename.set 17 67
  let filename := filename.set 18 83
  let filename := filename.set 19 86
  -- for (uint8_t i = 0; i < 100; i++): the last pass writes the two digits of `i`
  let filename := filename.set 14 (48 + i % 256 / 10)
  filename.set 15 (48 + i % 256 % 10)

/-- Whether a character code is one of `'0'` .. `'9'`. -/
def isDigit (c : Nat) : Bool := decide (48 ≤ c ∧ c ≤ 57)

/-- The placeholder `"FED_____________.CSV"` that `CreateFile` copies into `filename`
before it calls `getFilename`, with its terminating zero. -/
def placeholderName : List Nat :=
  [70, 69, 68, 95, 95, 95, 95, 95, 95, 95, 95, 95, 95, 95, 95, 95, 46, 67, 83, 86, 0]

/-! ## Event counters -/

/-- The event counters of the session: the poke counts, the lick counts and the delivery
counts of `TwoBottle.h`. -/
inductive Counter where
  | LeftCount
  | RightCount
  | LeftLickCount
  | RightLickCount
  | LeftDeliverCount
  | RightDeliverCount
  | TotalDeliverCount
deriving DecidableEq

/-- The value of an event counter in a state. -/
def FED3.counter (s : FED3) : Counter → Int
  | Counter.LeftCount => s.LeftCount
  | Counter.RightCount => s.RightCount
  | Counter.LeftLickCount => s.LeftLickCount
  | Counter.RightLickCount => s.RightLickCount
  | Counter.LeftDeliverCount => s.LeftDeliverCount
  | Counter.RightDeliverCount => s.RightDeliverCount
  | Counter.TotalDeliverCount => s.TotalDeliverCount

/-- The largest number of times an operation adds one to the same counter: once per pass of
its loop for `Timeout`, once for every other operation. -/
def Op.increments : Op → Nat
  | Op.Timeout _ _ _ _ passes => passes.length
  | _ => 1

/-- The sum of `Op.increments` over a series of operations. -/
def Op.incrementsAll (ops : List Op) : Nat := (ops.map Op.increments).sum

/-! ## Logging when the data file does not open -/

/-- The function `FED3::logdata` with the result of `logfile = SD.open(filename, FILE_WRITE)`
as an input. When the file is not open (`opened = false`) the branch `if ( ! logfile )` draws
the SD card icon and every `logfile.print` writes nothing, so no line is added;
`ReadBatteryLevel` refreshes `measuredvbat` as before. -/
def Card.logdata (opened : Bool) (s : FED3) (env : LogEnv) : FED3 :=
  if opened = true then TwoBottle.logdata s env else { s with measuredvbat := env.vbat }

/-- The function `FED3::logLeftPoke`, the file of its call of `logdata` opening or not. -/
def Card.logLeftPoke (opened : Bool) (s : FED3) (t0 : Int) (pin : Level) (t1 : Int)
    (env : LogEnv) : FED3 :=
  let s := { s with Left := false }
  let s := { s with leftPokeTime := wrapInt32 t0 }
  let s := { s with LeftCount := wrapInt32 (s.LeftCount + 1) }
  let s := { s with leftInterval := 0 }
  if pin = Level.LOW then s
  else
    let s := { s with leftInterval := wrapInt32 (u32 (u32 t1 - u32 s.leftPokeTime)) }
    let s := logLeftPoke.classify s
    let s := Card.logdata opened s env
    { s with LeftDropAvailable := false }

/-- The function `FED3::logRightPoke`, the file of its call of `logdata` opening or not. -/
def Card.logRightPoke (opened : Bool) (s : FED3) (t0 : Int) (pin : Level) (t1 : Int)
    (env : LogEnv) : FED3 :=
  let s := { s with Right := false }
  let s := { s with rightPokeTime := wrapInt32 t0 }
  let s := { s with RightCount := wrapInt32 (s.RightCount + 1) }
  let s := { s with rightInterval := 0 }
  if pin = Level.LOW then s
  else
    let s := { s with rightInterval := wrapInt32 (u32 (u32 t1 - u32 s.rightPokeTime)) }
    let s := logRightPoke.classify s
    let s := Card.logdata opened s env
    { s with RightDropAvailable := false }

/-- The function `FED3::logLeftLick`, the file of its call of `logdata` opening or not. -/
def Card.logLeftLick (opened : Bool) (s : FED3) (env : LogEnv) : FED3 :=
  Card.logdata opened { s with Event := "LeftLick" } env

/-- The function `FED3::logRightLick`, the file of its call of `logdata` opening or not. -/
def Card.logRightLick (opened : Bool) (s : FED3) (env : LogEnv) : FED3 :=
  Card.logdata opened { s with Event := "RightLick" } env

/-- The function `FED3::serviceLicks`, the file of its calls of `logdata` opening or not. -/
def Card.serviceLicks (opened : Bool) (s : FED3) (touched : Nat) (envL envR : LogEnv) : FED3 :=
  let currentLick := touched % 65536
  let rise := (currentLick &&& (65535 ^^^ s.lastLick)) % 65536
  let s := if rise &&& (1 <<< LEFT_LICK) ≠ 0 then
      let s := { s with LeftLickCount := u32 (s.LeftLickCount + 1) }
      let s := { s with lickLeftFlag := true }
      let s := { s with LeftDropAvailable := false }
      Card.logLeftLick opened s envL
    else s
  let s := if rise &&& (1 <<< RIGHT_LICK) ≠ 0 then
      let s := { s with RightLickCount := u32 (s.RightLickCount + 1) }
      let s := { s with lickRightFlag := true }
      let s := { s with RightDropAvailable := false }
      Card.logRightLick opened s envR
    else s
  let s := { s with lastLick := currentLick }
  { s with lickIRQ := false }

/-- The function `FED3::FeedLeft`, the file of its call of `logdata` opening or not. -/
def Card.FeedLeft (opened : Bool) (s : FED3) (steps _pulse : Int) (_pixelsoff : Bool)
    (t0 t1 : Int) (env : LogEnv) : FED3 :=
  let steps := if steps = 0 then s.doseLeftSteps else steps
  let s := { s with numMotorTurnsLeft := 0 }
  let pelletDispensed := false
  let pelletDispensed := if pelletDispensed = false then RotateDiskLeft steps else pelletDispensed
  if pelletDispensed = true then
    let s := { s with LeftDropTime := u32 t0 }
    let s := { s with retInterval := wrapInt32 (u32 (u32 t1 - s.LeftDropTime)) }
    let s := { s with LeftDeliverCount := wrapInt32 (s.LeftDeliverCount + 1) }
    let s := { s with TotalDeliverCount := wrapInt32 (s.TotalDeliverCount + 1) }
    let s := { s with Event := "LeftDeliver" }
    let s := { s with LeftDropAvailable := true }
    Card.logdata opened s env
  else s

/-- The function `FED3::FeedRight`, the file of its call of `logdata` opening or not. -/
def Card.FeedRight (opened : Bool) (s : FED3) (steps _pulse : Int) (_pixelsoff : Bool)
    (t0 t1 : Int) (nowTime : Int) (env : LogEnv) : FED3 :=
  let steps := if steps = 0 then s.doseRightSteps else steps
  let s := { s with numMotorTurnsRight := 0 }
  let pelletDispensed := false
  let pelletDispensed := if pelletDispensed = false then RotateDiskRight steps else pelletDispensed
  if pelletDispensed = true then
    let s := { s with RightDropTime := u32 t0 }
    let s := { s with retInterval := wrapInt32 (u32 (u32 t1 - s.RightDropTime)) }
    let s := { s with RightDeliverCount := wrapInt32 (s.RightDeliverCount + 1) }
    let s := { s with TotalDeliverCount := wrapInt32 (s.TotalDeliverCount + 1) }
    let s := { s with Event := "RightDeliver" }
    let s := { s with interPelletInterval := wrapInt32 (nowTime - s.lastPellet) }
    let s := { s with lastPellet := u32 nowTime }
    let s := Card.logdata opened s env
    { s with RightDropAvailable := true }
  else s

/-- The body of `if (digitalRead(LEFT_POKE) == LOW)` in `Timeout`, the file of its call of
`logdata` opening or not. -/
def Card.Timeout.leftPoke (opened : Bool) (s : FED3) (reset : Bool) (timeoutStart : Int)
    (p : TimeoutPass) : FED3 × Int :=
  let timeoutStart := if reset = true then wrapInt32 p.tLeftReset else timeoutStart
  let s := { s with leftPokeTime := wrapInt32 p.tLeftPoke }
  let s := Timeout.countLeft s
  let s := { s with leftInterval := 0 }
  let s := Timeout.wait p.leftWait s
  let s := { s with leftInterval := wrapInt32 (u32 (u32 p.tLeftRelease - u32 s.leftPokeTime)) }
  let s := { s with Event := "LeftinTimeOut" }
  (Card.logdata opened s p.envLeft, timeoutStart)

/-- The body of `if (digitalRead(RIGHT_POKE) == LOW)` in `Timeout`, the file of its call of
`logdata` opening or not. -/
def Card.Timeout.rightPoke (opened : Bool) (s : FED3) (reset : Bool) (timeoutStart : Int)
    (p : TimeoutPass) : FED3 × Int :=
  let timeoutStart := if reset = true then wrapInt32 p.tRightReset else timeoutStart
  let s := Timeout.countRight s
  let s := { s with rightPokeTime := wrapInt32 p.tRightPoke }
  let s := { s with rightInterval := 0 }
  let s := Timeout.wait p.rightWait s
  let s := { s with rightInterval := wrapInt32 (u32 (u32 p.tRightRelease - u32 s.rightPokeTime)) }
  let s := { s with Event := "RightinTimeout" }
  (Card.logdata opened s p.envRight, timeoutStart)

/-- One pass of the body of the `while` loop of `Timeout`, the file opening or not. -/
def Card.Timeout.pass (opened : Bool) (reset : Bool) (r : FED3 × Int) (p : TimeoutPass) :
    FED3 × Int :=
  let r := if p.left = Level.LOW then Card.Timeout.leftPoke opened r.1 reset r.2 p else r
  if p.right = Level.LOW then Card.Timeout.rightPoke opened r.1 reset r.2 p else r

/-- The loop of `Timeout`, the file opening or not. -/
def Card.Timeout.loop (opened : Bool) (seconds : Int) (reset : Bool) :
    FED3 × Int → List TimeoutPass → FED3 × Int
  | r, [] => r
  | r, p :: ps =>
    if u32 (u32 p.tLoop - u32 r.2) < u32 (u32 seconds * 1000) then
      Card.Timeout.loop opened seconds reset (Card.Timeout.pass opened reset r p) ps
    else r

/-- The function `FED3::Timeout`, the file of its calls of `logdata` opening or not. -/
def Card.Timeout (opened : Bool) (s : FED3) (seconds : Int) (reset _whitenoise : Bool)
    (t0 : Int) (passes : List TimeoutPass) : FED3 :=
  let r := Card.Timeout.loop opened seconds reset (s, wrapInt32 t0) passes
  let s := r.1
  let s := { s with Left := false }
  { s with Right := false }

/-! ## Printed text of a log line -/

/-- Number of commas in a text. -/
def commas (t : String) : Nat := t.toList.count ','

/-- The year, month and day of a timestamp (seconds since 1970-01-01), as `year()`, `month()`
and `day()` of the time library give them. -/
def civil (t : Int) : Int × Int × Int :=
  let z := t / 86400 + 719468
  let era := z / 146097
  let doe := z - era * 146097
  let yoe := (doe - doe / 1460 + doe / 36524 - doe / 146096) / 365
  let doy := doe - (365 * yoe + yoe / 4 - yoe / 100)
  let mp := (5 * doy + 2) / 153
  let d := doy - (153 * mp + 2) / 5 + 1
  let m := if mp < 10 then mp + 3 else mp - 9
  (if m ≤ 2 then yoe + era * 400 + 1 else yoe + era * 400, m, d)

/-- The year of a timestamp. -/
def year (t : Int) : Int := (civil t).1

/-- The month of a timestamp. -/
def month (t : Int) : Int := (civil t).2.1

/-- The day of the month of a timestamp. -/
def day (t : Int) : Int := (civil t).2.2

/-- The text of `if (x < 10) logfile.print('0'); logfile.print(x);`. -/
def pad2 (x : Int) : String := (if x < 10 then "0" else "") ++ toString x

/-- The text of `if (x < 100) logfile.print('0'); if (x < 10) logfile.print('0');
logfile.print(x);`. -/
def pad3 (x : Int) : String :=
  (if x < 100 then "0" else "") ++ (if x < 10 then "0" else "") ++ toString x

/-- The text that `Print::print` writes for a floating-point value, with its two decimals:
a minus sign when the value is negative, the whole part, a point and the two decimals of
`hundredths`, the magnitude rounded to hundredths. -/
def printFloat (negative : Bool) (hundredths : Nat) : String :=
  (if negative then "-" else "") ++ toString (hundredths / 100) ++ "." ++
    toString (hundredths % 100 / 10) ++ toString (hundredths % 10)

/-- The text that `logfile.print` writes for a value. Strings (`VER`, `sessiontype`, `Event`
and the literals) are written as they are; integers in decimal; floating-point values with
two decimals (a sensor reading is a whole number in this model, the battery voltage is
`adc * 3.3 / 4096.0 * 2.0`, an interval is `ms / 1000.000`); `sqrt(-1)` as `nan`. -/
def Value.print : Value → String
  | Value.dateTime nowTime msPart =>
    toString (month nowTime) ++ "/" ++ toString (day nowTime) ++ "/" ++
      toString (year nowTime) ++ " " ++ toString (hour nowTime) ++ ":" ++
      pad2 (minute nowTime) ++ ":" ++ pad2 (second nowTime) ++ ":" ++ pad3 msPart
  | Value.reading raw => printFloat (decide (raw < 0)) (raw.natAbs * 100)
  | Value.voltage adc => printFloat (decide (adc < 0)) ((adc.natAbs * 1320 + 4096) / 8192)
  | Value.int i => toString i
  | Value.text s => s
  | Value.seconds ms => printFloat (decide (ms < 0)) ((ms.natAbs + 5) / 10)
  | Value.nan => "nan"

/-- The text of a line of the data file: what is printed for its fields, with the commas
that `logfile.print(",")` writes between them (the line end of the final `println` left
out). -/
def Record.print (r : Record) : String :=
  String.intercalate "," (r.map (fun c => c.val.print))

/-! ## Example states and readings -/

/-- A state in which a left lick has just been classified, with motor turns and a retrieval
interval left over from earlier deliveries. -/
def lickState : FED3 :=
  { Event := "LeftLick", numMotorTurnsLeft := 3, numMotorTurnsRight := 4, retInterval := 250 }

/-- Field `c` of the line logged last, if there is one. -/
def lastField (s : FED3) (c : Column) : Option Value :=
  s.log.getLast?.bind (fun r => r.field c)

/-- Start of a session with `minPokeTime = 200`: counters at zero, nothing logged. -/
def sessionStart : FED3 := { minPokeTime := 200 }

/-- The session after a left poke whose hold is measured as 50 ms. -/
def afterShortPoke : FED3 := logLeftPoke sessionStart 1000 Level.HIGH 1050 ⟨0, 1050, 0, 0, 0⟩

/-- The session after a following left poke whose hold is measured as 300 ms. -/
def afterLongPoke : FED3 := logLeftPoke afterShortPoke 2000 Level.HIGH 2300 ⟨0, 2300, 0, 0, 0⟩

/-- The session after the following `FeedLeft()`. -/
def afterFeedLeft : FED3 := FeedLeft afterLongPoke 0 0 true 2400 2400 ⟨0, 2400, 0, 0, 0⟩

/-- The session after a following `serviceLicks` poll that reads a rise of the left lick bit. -/
def afterLeftLick : FED3 := serviceLicks afterFeedLeft 1 ⟨0, 3000, 0, 0, 0⟩ ⟨0, 3000, 0, 0, 0⟩

/-- The device-number screen entered with device number 5, the last press at 1000 ms. -/
def deviceFive : FED3 := { FED := 5, SetFED := true, EndTime := 1000 }

/-- Four passes with only the right poke pressed, then three passes with no poke pressed, the
last one more than 3 s after the last press. -/
def fourRightPresses : List DeviceNumberPoll :=
  [⟨Level.LOW, 1200, Level.HIGH, 0, 1200⟩, ⟨Level.LOW, 1400, Level.HIGH, 0, 1400⟩,
   ⟨Level.LOW, 1600, Level.HIGH, 0, 1600⟩, ⟨Level.LOW, 1800, Level.HIGH, 0, 1800⟩,
   ⟨Level.HIGH, 0, Level.HIGH, 0, 3000⟩, ⟨Level.HIGH, 0, Level.HIGH, 0, 4000⟩,
   ⟨Level.HIGH, 0, Level.HIGH, 0, 4900⟩]

/-- A pass of `DisplayMouse` at time `t` that reads both pokes at the levels `l` and `r`. -/
def mousePollAt (l r : Level) (t : Int) : MousePoll := ⟨l, r, l, r, t, t⟩

/-- Passes 250 ms apart: both pokes held from 250 ms to 1250 ms (1.0 s), released at 1500 ms,
held again from 1750 ms to 3750 ms (2.0 s). -/
def holdReleaseHold : List MousePoll :=
  [mousePollAt Level.LOW Level.LOW 250, mousePollAt Level.LOW Level.LOW 500,
   mousePollAt Level.LOW Level.LOW 750, mousePollAt Level.LOW Level.LOW 1000,
   mousePollAt Level.LOW Level.LOW 1250, mousePollAt Level.HIGH Level.HIGH 1500,
   mousePollAt Level.LOW Level.LOW 1750, mousePollAt Level.LOW Level.LOW 2000,
   mousePollAt Level.LOW Level.LOW 2250, mousePollAt Level.LOW Level.LOW 2500,
   mousePollAt Level.LOW Level.LOW 2750, mousePollAt Level.LOW Level.LOW 3000,
   mousePollAt Level.LOW Level.LOW 3250, mousePollAt Level.LOW Level.LOW 3500,
   mousePollAt Level.LOW Level.LOW 3750]

/-- A pass of the timed-window loop with only the left poke pressed, at time `t`. -/
def timedLeftPress (t : Int) : TimedPoll := ⟨Level.LOW, t, Level.HIGH, 0, t⟩

/-- A pass of the timed-window loop with only the right poke pressed, at time `t`. -/
def timedRightPress (t : Int) : TimedPoll := ⟨Level.HIGH, 0, Level.LOW, t, t⟩

/-- A call of `SelectMode` that reads only the left poke pressed, at time `t`. -/
def selectLeftPress (t : Int) : SelectPoll := ⟨Level.LOW, Level.HIGH, Level.LOW, Level.HIGH, t⟩

/-- A call of `SelectMode` that reads only the right poke pressed, at time `t`. -/
def selectRightPress (t : Int) : SelectPoll := ⟨Level.HIGH, Level.LOW, Level.HIGH, Level.LOW, t⟩

/-- The device with mode index `m`, the `psygene` menu off. -/
def modeState (m : Nat) : FED3 := { FEDmode := m }

/-- The timed-window screen with start hour `a` and end hour `b`. -/
def timedState (a b : Int) : FED3 := { timedStart := a, timedEnd := b, setTimed := true }

/-- A left poke with a hold of 50 ms followed by a poll that reads a rise of the left lick
bit. -/
def pokeThenLick : List Op :=
  [Op.logLeftPoke 1000 Level.HIGH 1050 ⟨0, 1050, 0, 0, 0⟩,
   Op.serviceLicks 1 ⟨0, 2000, 0, 0, 0⟩ ⟨0, 2000, 0, 0, 0⟩]

/-- A call `FeedLeft()` at 3000 ms. -/
def firstFeedLeft : Op := Op.FeedLeft 0 0 true 3000 3000 ⟨0, 3000, 0, 0, 0⟩

/-- A session that counts every poke (`countAllPokes` set), all counts at zero. -/
def countingStart : FED3 := { countAllPokes := true }

/-- A pass of the loop of `Timeout` at 100 ms that finds the left poke `LOW` (released at
400 ms) and then the right poke `LOW` (wait ended at 700 ms). -/
def bothPokesPass : TimeoutPass :=
  ⟨100, Level.LOW, 100, 100, 3, 400, ⟨0, 400, 0, 0, 0⟩,
   Level.LOW, 400, 400, 0, 700, ⟨0, 700, 0, 0, 0⟩⟩

/-- A clock that reads 1 700 000 000 s, the hardware clock agreeing. -/
def clockStart : Clock := ⟨1700000000, 1700000000⟩

/-- A call of `SetClock` one second after the call before, with only the right poke
pressed. -/
def rightNudge : ClockPoll := ⟨1, 0, Level.HIGH, 0, 0, Level.LOW, 500, 0⟩

/-- A call of `SetClock` one second after the call before, with only the left poke
pressed. -/
def leftNudge : ClockPoll := ⟨1, 0, Level.LOW, 500, 0, Level.HIGH, 0, 0⟩

/-- A call of `SelectMode` that reads no poke pressed, at time `t`. -/
def selectNoPress (t : Int) : SelectPoll := ⟨Level.HIGH, Level.HIGH, Level.HIGH, Level.HIGH, t⟩

/-- A call of `SelectMode` that reads both pokes pressed, at time `t`. -/
def selectBothPress (t : Int) : SelectPoll := ⟨Level.LOW, Level.LOW, Level.LOW, Level.LOW, t⟩

/-- The power-on state of a device with the `psygene` menu. -/
def psygeneStart : FED3 := { psygene := true }

/-- A device with device number `n`. -/
def deviceNumbered (n : Int) : FED3 := { FED := n }

/-- A pass of the loop of `Timeout` at time `t` during a hold of the right poke, the left
poke released: `LEFT_POKE` reads `HIGH`, `RIGHT_POKE` reads `LOW`, the wait loop (which reads
`LEFT_POKE`) makes no pass, and the two `millis()` of the right branch both read `t`. -/
def rightHeldPass (t : Int) : TimeoutPass :=
  ⟨t, Level.HIGH, 0, 0, 0, 0, ⟨0, 0, 0, 0, 0⟩, Level.LOW, t, t, 0, t, ⟨0, t, 0, 0, 0⟩⟩

/-- A pass of the loop of `Timeout` at time `t` that finds both pokes released. -/
def releasedPass (t : Int) : TimeoutPass :=
  ⟨t, Level.HIGH, 0, 0, 0, 0, ⟨0, 0, 0, 0, 0⟩, Level.HIGH, 0, 0, 0, 0, ⟨0, 0, 0, 0, 0⟩⟩

/-- One hold of the right poke from 100 ms to 400 ms inside a timeout, the loop passing every
100 ms. -/
def rightHoldPasses : List TimeoutPass :=
  [rightHeldPass 100, rightHeldPass 200, rightHeldPass 300, releasedPass 400]

/-- A test of the clock-adjust loop at `t` ms whose call of `SetClock` reads no poke
pressed. -/
def clockIdle (t : Int) : ClockWindowPoll :=
  ⟨t, ⟨0, 0, Level.HIGH, 0, 0, Level.HIGH, 0, 0⟩⟩

/-- A test of the clock-adjust loop at `t` ms whose call of `SetClock` reads only the right
poke pressed, at `t` ms. -/
def clockRightPress (t : Int) : ClockWindowPoll :=
  ⟨t, ⟨0, 0, Level.HIGH, 0, 0, Level.LOW, t, 0⟩⟩

/-- The state in which `DisplayMouse` enters `SetDeviceNumber` from the power-on state after
the second hold of `holdReleaseHold`. -/
def entryByHold : FED3 := (DisplayMouse {} holdReleaseHold).1

/-- The state in which `SelectMode` enters `SetDeviceNumber` on a device with the `psygene`
menu. -/
def entryBySelectMode : FED3 := (SelectMode.step psygeneStart (selectBothPress 100)).1

/-- A pass of the device-number loop at `t` ms that reads no poke pressed. -/
def numberIdle (t : Int) : DeviceNumberPoll := ⟨Level.HIGH, 0, Level.HIGH, 0, t⟩

/-- A pass of the timed-window loop at `t` ms that reads no poke pressed. -/
def timedIdle (t : Int) : TimedPoll := ⟨Level.HIGH, 0, Level.HIGH, 0, t⟩

/-- The state after the device-number loop, entered from the start screen by a hold, has
confirmed the number at 9000 ms. -/
def confirmedByHold : FED3 := SetDeviceNumber.numberPhase entryByHold [numberIdle 9000]

/-- The state after the device-number loop, entered from `SelectMode`, has confirmed the
number at 9000 ms. -/
def confirmedBySelectMode : FED3 :=
  SetDeviceNumber.numberPhase entryBySelectMode [numberIdle 9000]

/-- A session whose left poke count is one below the largest `int`, 2147483646. -/
def nearFull : FED3 := { LeftCount := 2147483646 }

/-- A pass of the loop of `Timeout` at time `t` that finds only the left poke pressed; the
poke is released 200 ms later. -/
def leftPokePass (t : Int) : TimeoutPass :=
  ⟨t, Level.LOW, t, t, 2, t + 200, ⟨0, t + 200, 0, 0, 0⟩,
   Level.HIGH, 0, 0, 0, 0, ⟨0, 0, 0, 0, 0⟩⟩

/-- A left poke with a hold of 300 ms, read at `t` ms. -/
def leftPokeAt (t : Int) : Op := Op.logLeftPoke t Level.HIGH (t + 300) ⟨0, t + 300, 0, 0, 0⟩

/-- A short session: a left poke, a delivery on the left, a lick, a right poke, a delivery on
the right and a timeout with a poke on each side. -/
def shortSession : List Op :=
  [leftPokeAt 1000, firstFeedLeft, Op.serviceLicks 1 ⟨0, 4000, 0, 0, 0⟩ ⟨0, 4000, 0, 0, 0⟩,
   Op.logRightPoke 5000 Level.HIGH 5300 ⟨0, 5300, 0, 0, 0⟩,
   Op.FeedRight 0 0 true 6000 6000 60 ⟨60, 6000, 0, 0, 0⟩,
   Op.Timeout 1 false false 7000 [⟨7100, Level.LOW, 7100, 7100, 3, 7400, ⟨0, 7400, 0, 0, 0⟩,
     Level.LOW, 7400, 7400, 0, 7700, ⟨0, 7700, 0, 0, 0⟩⟩]]

/-- A session whose sketch name holds a comma. -/
def commaSession : FED3 := { sessiontype := "FR1,test" }

/-- The readings of `logdata` at 14 November 2023, 22:13:20 and 250 ms. -/
def logEnvExample : LogEnv := ⟨1700000000, 5250, 0, 0, 2048⟩

/-- A pass of the timed-window loop with both pokes pressed, at time `t`. -/
def timedBothPress (t : Int) : TimedPoll := ⟨Level.LOW, t, Level.LOW, t, t⟩

/-! # Theorems -/

/-! ## Machine arithmetic and records -/

theorem wrapInt32_of_range (x : Int) (h0 : -2147483648 ≤ x) (h1 : x ≤ 2147483647) :
    wrapInt32 x = x := by
  unfold wrapInt32; omega

theorem logdataFields_event (s : FED3) (env : LogEnv) :
    (logdataFields s env).field Column.event = some (Value.text s.Event) := by
  unfold logdataFields Record.field
  cases s.tempSensor <;> cases isBandit s <;> cases isDeliver s <;> rfl

theorem logdata_log (s : FED3) (env : LogEnv) :
    (logdata s env).log = s.log ++ [logdataFields s env] := rfl

/-! ## Active-side scheduler -/

theorem randomizeActivePoke_streak (s : FED3) (max d : Int) (h1 : 1 ≤ max)
    (h2 : max ≤ 2147483647) (hc0 : 0 ≤ s.consecutive) (hc : s.consecutive < max) :
    0 ≤ (randomizeActivePoke s max d).consecutive ∧
    (randomizeActivePoke s max d).consecutive < max ∧
    ((randomizeActivePoke s max d).activePoke = s.activePoke →
      (randomizeActivePoke s max d).consecutive = s.consecutive + 1) := by
  unfold randomizeActivePoke wrapInt32
  cases hA : s.activePoke <;> by_cases hd : d = 0 <;> simp [hA, hd] <;> split_ifs <;>
    simp <;> omega

theorem replicate_initial_nil {α : Type} (k : Nat) (a : α) (h : List.replicate k a <+: []) :
    k = 0 := by
  cases k with
  | zero => rfl
  | succ n => simp [List.replicate_succ] at h

theorem assignedSides_run_at_head (max : Int) (h1 : 1 ≤ max) (h2 : max ≤ 2147483647) :
    ∀ (ds : List Int) (s : FED3), 0 ≤ s.consecutive → s.consecutive < max →
      ∀ (k : Nat) (side : Bool), List.replicate k side <+: assignedSides max s ds →
        (k : Int) ≤ max ∧ (side = s.activePoke → (k : Int) + s.consecutive + 1 ≤ max) := by
  intro ds
  induction ds with
  | nil =>
    intro s hc0 hc k side hp
    have hk : k = 0 := replicate_initial_nil k side hp
    subst hk
    constructor
    · simpa using (by omega : (0 : Int) ≤ max)
    · intro _; simp; omega
  | cons d ds ih =>
    intro s hc0 hc k side hp
    obtain ⟨g0, g1, g2⟩ := randomizeActivePoke_streak s max d h1 h2 hc0 hc
    cases k with
    | zero =>
      constructor
      · simpa using (by omega : (0 : Int) ≤ max)
      · intro _; simp; omega
    | succ n =>
      rw [assignedSides, List.replicate_succ, List.cons_prefix_cons] at hp
      obtain ⟨hside, hrest⟩ := hp
      obtain ⟨_, i2⟩ := ih (randomizeActivePoke s max d) g0 g1 n side hrest
      have i3 := i2 hside
      constructor
      · push_cast; omega
      · intro hs
        have := g2 (hside ▸ hs)
        push_cast; omega

theorem assignedSides_run_anywhere (max : Int) (h1 : 1 ≤ max) (h2 : max ≤ 2147483647) :
    ∀ (ds : List Int) (s : FED3), 0 ≤ s.consecutive → s.consecutive < max →
      ∀ (k : Nat) (side : Bool), List.replicate k side <:+: assignedSides max s ds →
        (k : Int) ≤ max := by
  intro ds
  induction ds with
  | nil =>
    intro s hc0 hc k side hp
    have hk : k = 0 := replicate_initial_nil k side (by simpa [assignedSides] using hp)
    subst hk
    simpa using (by omega : (0 : Int) ≤ max)
  | cons d ds ih =>
    intro s hc0 hc k side hp
    rw [assignedSides, List.infix_cons_iff] at hp
    rcases hp with hp | hp
    · exact (assignedSides_run_at_head max h1 h2 (d :: ds) s hc0 hc k side
        (by rw [assignedSides]; exact hp)).1
    · obtain ⟨g0, g1, _⟩ := randomizeActivePoke_streak s max d h1 h2 hc0 hc
      exact ih _ g0 g1 k side hp

/-- C1. For every `max` with `1 ≤ max` (an `int`, so at most `2147483647`), every state
with `consecutive = 0` and every series of random draws, the values of `activePoke` assigned
by the successive calls `randomizeActivePoke(max)` contain no run of one side longer than
`max`: whenever `k` equal sides stand next to each other in the series, `k ≤ max`. -/
theorem randomizeActivePoke_run_le_max (max : Int) (h1 : 1 ≤ max) (h2 : max ≤ 2147483647)
    (s : FED3) (hc : s.consecutive = 0) (draws : List Int) (side : Bool) (k : Nat)
    (hrun : List.replicate k side <:+: assignedSides max s draws) : (k : Int) ≤ max :=
  assignedSides_run_anywhere max h1 h2 draws s (by omega) (by omega) k side hrun

/-- Witness of C1: with `max = 2`, from the initial state, the draws `1, 1, 1, 1` assign
left, right, left, left; the run of two lefts at the end is within the bound. -/
theorem randomizeActivePoke_run_le_max_witness :
    assignedSides 2 {} [1, 1, 1, 1] = [true, false, true, true] ∧ ((2 : Nat) : Int) ≤ 2 :=
  ⟨by decide,
   randomizeActivePoke_run_le_max 2 (by decide) (by decide) {} rfl [1, 1, 1, 1] true 2
     (by decide)⟩

/-! ## Poke classification -/

theorem logLeftPoke_high (s : FED3) (t0 t1 : Int) (env : LogEnv) :
    logLeftPoke s t0 Level.HIGH t1 env =
      { logdata { s with
            Left := false
            leftPokeTime := wrapInt32 t0
            LeftCount := wrapInt32 (s.LeftCount + 1)
            leftInterval := wrapInt32 (u32 (u32 t1 - u32 (wrapInt32 t0)))
            Event := if wrapInt32 (u32 (u32 t1 - u32 (wrapInt32 t0))) < s.minPokeTime
              then "LeftShort" else "LeftPoke" } env
        with LeftDropAvailable := false } := by
  unfold logLeftPoke logLeftPoke.classify
  by_cases h : wrapInt32 (u32 (u32 t1 - u32 (wrapInt32 t0))) < s.minPokeTime <;> simp [h]

theorem logRightPoke_high (s : FED3) (t0 t1 : Int) (env : LogEnv) :
    logRightPoke s t0 Level.HIGH t1 env =
      { logdata { s with
            Right := false
            rightPokeTime := wrapInt32 t0
            RightCount := wrapInt32 (s.RightCount + 1)
            rightInterval := wrapInt32 (u32 (u32 t1 - u32 (wrapInt32 t0)))
            Event := if wrapInt32 (u32 (u32 t1 - u32 (wrapInt32 t0))) < s.minPokeTime
              then "RightShort" else "RightPoke" } env
        with RightDropAvailable := false } := by
  unfold logRightPoke logRightPoke.classify
  by_cases h : wrapInt32 (u32 (u32 t1 - u32 (wrapInt32 t0))) < s.minPokeTime <;> simp [h]

/-- C2. Whenever `logLeftPoke` gets past its pin test (the pin reads `HIGH`), the event is
`"LeftShort"` if the measured hold `leftInterval` is below `minPokeTime` and `"LeftPoke"`
otherwise, so a hold below `minPokeTime` is never a `"LeftPoke"`; the line logged by the call
carries that event. The same holds for `logRightPoke` with `"RightShort"`, `"RightPoke"` and
`rightInterval`. -/
theorem logPoke_classification (s : FED3) (t0 t1 : Int) (env : LogEnv) :
    ((logLeftPoke s t0 Level.HIGH t1 env).Event =
        if (logLeftPoke s t0 Level.HIGH t1 env).leftInterval < s.minPokeTime then "LeftShort"
        else "LeftPoke") ∧
    ((logLeftPoke s t0 Level.HIGH t1 env).leftInterval < s.minPokeTime →
        (logLeftPoke s t0 Level.HIGH t1 env).Event ≠ "LeftPoke") ∧
    (logLeftPoke s t0 Level.HIGH t1 env).leftInterval
        = wrapInt32 (u32 (u32 t1 - u32 (wrapInt32 t0))) ∧
    (logLeftPoke s t0 Level.HIGH t1 env).minPokeTime = s.minPokeTime ∧
    (∃ r, (logLeftPoke s t0 Level.HIGH t1 env).log = s.log ++ [r] ∧
        r.field Column.event = some (Value.text (logLeftPoke s t0 Level.HIGH t1 env).Event)) ∧
    ((logRightPoke s t0 Level.HIGH t1 env).Event =
        if (logRightPoke s t0 Level.HIGH t1 env).rightInterval < s.minPokeTime then "RightShort"
        else "RightPoke") ∧
    ((logRightPoke s t0 Level.HIGH t1 env).rightInterval < s.minPokeTime →
        (logRightPoke s t0 Level.HIGH t1 env).Event ≠ "RightPoke") ∧
    (logRightPoke s t0 Level.HIGH t1 env).rightInterval
        = wrapInt32 (u32 (u32 t1 - u32 (wrapInt32 t0))) ∧
    (logRightPoke s t0 Level.HIGH t1 env).minPokeTime = s.minPokeTime ∧
    (∃ r, (logRightPoke s t0 Level.HIGH t1 env).log = s.log ++ [r] ∧
        r.field Column.event = some (Value.text (logRightPoke s t0 Level.HIGH t1 env).Event)) := by
  rw [logLeftPoke_high, logRightPoke_high]
  refine ⟨rfl, ?_, rfl, rfl, ⟨_, rfl, logdataFields_event _ _⟩,
    rfl, ?_, rfl, rfl, ⟨_, rfl, logdataFields_event _ _⟩⟩
  · intro h
    have h2 : wrapInt32 (u32 (u32 t1 - u32 (wrapInt32 t0))) < s.minPokeTime := h
    show (if wrapInt32 (u32 (u32 t1 - u32 (wrapInt32 t0))) < s.minPokeTime
      then "LeftShort" else "LeftPoke") ≠ "LeftPoke"
    rw [if_pos h2]; decide
  · intro h
    have h2 : wrapInt32 (u32 (u32 t1 - u32 (wrapInt32 t0))) < s.minPokeTime := h
    show (if wrapInt32 (u32 (u32 t1 - u32 (wrapInt32 t0))) < s.minPokeTime
      then "RightShort" else "RightPoke") ≠ "RightPoke"
    rw [if_pos h2]; decide

/-! ## Lick sensing -/

theorem and_one_shiftLeft_ne_zero (x i : Nat) : x &&& (1 <<< i) ≠ 0 ↔ x.testBit i = true := by
  rw [Nat.one_shiftLeft]
  constructor
  · intro h
    obtain ⟨j, hj⟩ := Nat.ne_zero_implies_bit_true h
    rw [Nat.testBit_and, Nat.testBit_two_pow] at hj
    simp only [Bool.and_eq_true, decide_eq_true_eq] at hj
    rw [hj.2]; exact hj.1
  · intro h h0
    have h1 : (x &&& 2 ^ i).testBit i = true := by
      rw [Nat.testBit_and, Nat.testBit_two_pow_self, h]; rfl
    rw [h0] at h1
    simp at h1

theorem rise_testBit (b l i : Nat) (hi : i < 16) :
    (((b % 65536) &&& (65535 ^^^ l)) % 65536).testBit i = (b.testBit i && !l.testBit i) := by
  have e1 : (65536 : Nat) = 2 ^ 16 := by norm_num
  have e2 : (65535 : Nat) = 2 ^ 16 - 1 := by norm_num
  rw [e1, e2]
  simp only [Nat.testBit_mod_two_pow, Nat.testBit_and, Nat.testBit_xor,
    Nat.testBit_two_pow_sub_one, hi, decide_True, Bool.true_and]
  cases b.testBit i <;> cases l.testBit i <;> rfl

/-- The test of `serviceLicks` for a rise on bit `i`: set in the bitmask read, clear in the
one remembered. -/
theorem rise_iff (b l i : Nat) (hi : i < 16) :
    ((b % 65536) &&& (65535 ^^^ l)) % 65536 &&& (1 <<< i) ≠ 0 ↔
      (b.testBit i = true ∧ l.testBit i = false) := by
  rw [and_one_shiftLeft_ne_zero, rise_testBit b l i hi]
  cases b.testBit i <;> cases l.testBit i <;> simp

theorem lickRises_congr (bit : Nat) (p q : Nat) (h : p.testBit bit = q.testBit bit)
    (bs : List Nat) : lickRises bit p bs = lickRises bit q bs := by
  cases bs with
  | nil => rfl
  | cons b bs => simp only [lickRises, h]

theorem testBit_mod_65536 (b i : Nat) (hi : i < 16) : (b % 65536).testBit i = b.testBit i := by
  have e1 : (65536 : Nat) = 2 ^ 16 := by norm_num
  rw [e1, Nat.testBit_mod_two_pow]; simp [hi]

theorem countEvent_append (k : String) (a b : List Record) :
    countEvent k (a ++ b) = countEvent k a + countEvent k b := by
  simp [countEvent, List.filter_append]

theorem countEvent_logdataFields (k : String) (s : FED3) (env : LogEnv) :
    countEvent k [logdataFields s env] = if s.Event = k then 1 else 0 := by
  unfold countEvent
  simp only [List.filter_cons, List.filter_nil, logdataFields_event]
  by_cases h : s.Event = k
  · subst h; simp
  · have : (some (Value.text s.Event) == some (Value.text k)) = false := by
      simp [h]
    simp [this, h]

/-- One poll of `serviceLicks`: what it logs and how it moves the lick counters. -/
theorem serviceLicks_poll (s : FED3) (b : Nat) (eL eR : LogEnv) :
    (serviceLicks s b eL eR).lastLick = b % 65536 ∧
    (serviceLicks s b eL eR).LeftLickCount =
      (if b.testBit 0 = true ∧ s.lastLick.testBit 0 = false then u32 (s.LeftLickCount + 1)
       else s.LeftLickCount) ∧
    (serviceLicks s b eL eR).RightLickCount =
      (if b.testBit 1 = true ∧ s.lastLick.testBit 1 = false then u32 (s.RightLickCount + 1)
       else s.RightLickCount) ∧
    ∃ new, (serviceLicks s b eL eR).log = s.log ++ new ∧
      countEvent "LeftLick" new =
        (if b.testBit 0 = true ∧ s.lastLick.testBit 0 = false then 1 else 0) ∧
      countEvent "RightLick" new =
        (if b.testBit 1 = true ∧ s.lastLick.testBit 1 = false then 1 else 0) ∧
      (∀ r ∈ new, r.field Column.event = some (Value.text "LeftLick") ∨
        r.field Column.event = some (Value.text "RightLick")) := by
  have hl := rise_iff b s.lastLick 0 (by norm_num)
  have hr := rise_iff b s.lastLick 1 (by norm_num)
  unfold serviceLicks
  simp only [LEFT_LICK, RIGHT_LICK, hl, hr]
  by_cases cl : (b.testBit 0 = true ∧ s.lastLick.testBit 0 = false) <;>
  by_cases cr : (b.testBit 1 = true ∧ s.lastLick.testBit 1 = false)
  · simp only [if_pos cl, if_pos cr, logLeftLick, logRightLick, logdata]
    refine ⟨trivial, trivial, trivial, _, List.append_assoc _ _ _, ?_, ?_, ?_⟩
    · rw [countEvent_append, countEvent_logdataFields, countEvent_logdataFields]
      simp
    · rw [countEvent_append, countEvent_logdataFields, countEvent_logdataFields]
      simp
    · intro r hr
      simp only [List.mem_append, List.mem_singleton] at hr
      rcases hr with h | h
      · left; rw [h]; exact logdataFields_event _ _
      · right; rw [h]; exact logdataFields_event _ _
  · simp only [if_pos cl, if_neg cr, logLeftLick, logdata]
    refine ⟨trivial, trivial, trivial, [_], rfl, ?_, ?_, ?_⟩
    · rw [countEvent_logdataFields]; simp
    · rw [countEvent_logdataFields]; simp
    · intro r hr
      simp only [List.mem_singleton] at hr
      left; rw [hr]; exact logdataFields_event _ _
  · simp only [if_neg cl, if_pos cr, logRightLick, logdata]
    refine ⟨trivial, trivial, trivial, [_], rfl, ?_, ?_, ?_⟩
    · rw [countEvent_logdataFields]; simp
    · rw [countEvent_logdataFields]; simp
    · intro r hr
      simp only [List.mem_singleton] at hr
      right; rw [hr]; exact logdataFields_event _ _
  · simp only [if_neg cl, if_neg cr]
    refine ⟨trivial, trivial, trivial, [], by simp, rfl, rfl, ?_⟩
    intro r hr; simp at hr

theorem serviceLicks_no_rise (s : FED3) (b : Nat) (eL eR : LogEnv)
    (cl : ¬ (b.testBit 0 = true ∧ s.lastLick.testBit 0 = false))
    (cr : ¬ (b.testBit 1 = true ∧ s.lastLick.testBit 1 = false)) :
    serviceLicks s b eL eR = { s with lastLick := b % 65536, lickIRQ := false } := by
  have hl := rise_iff b s.lastLick 0 (by norm_num)
  have hr := rise_iff b s.lastLick 1 (by norm_num)
  unfold serviceLicks
  simp only [LEFT_LICK, RIGHT_LICK, hl, hr, if_neg cl, if_neg cr]

theorem u32_range (x : Int) : 0 ≤ u32 x ∧ u32 x < 4294967296 := by
  unfold u32; omega

theorem serviceLicksAll_counts (polls : List LickPoll) :
    ∀ s : FED3, 0 ≤ s.LeftLickCount → s.LeftLickCount < 4294967296 →
      0 ≤ s.RightLickCount → s.RightLickCount < 4294967296 →
      ∃ new, (serviceLicksAll s polls).log = s.log ++ new ∧
        countEvent "LeftLick" new = lickRises 0 s.lastLick (polls.map LickPoll.touched) ∧
        countEvent "RightLick" new = lickRises 1 s.lastLick (polls.map LickPoll.touched) ∧
        (∀ r ∈ new, r.field Column.event = some (Value.text "LeftLick") ∨
          r.field Column.event = some (Value.text "RightLick")) ∧
        (serviceLicksAll s polls).LeftLickCount =
          u32 (s.LeftLickCount + lickRises 0 s.lastLick (polls.map LickPoll.touched)) ∧
        (serviceLicksAll s polls).RightLickCount =
          u32 (s.RightLickCount + lickRises 1 s.lastLick (polls.map LickPoll.touched)) := by
  induction polls with
  | nil =>
    intro s l0 l1 r0 r1
    refine ⟨[], by simp [serviceLicksAll], rfl, rfl, by simp, ?_, ?_⟩
    · simp only [serviceLicksAll, List.foldl_nil, List.map_nil, lickRises, u32]; omega
    · simp only [serviceLicksAll, List.foldl_nil, List.map_nil, lickRises, u32]; omega
  | cons p ps ih =>
    intro s l0 l1 r0 r1
    obtain ⟨hlast, hL, hR, new1, hlog1, cL1, cR1, ev1⟩ :=
      serviceLicks_poll s p.touched p.envL p.envR
    have hL' : 0 ≤ (serviceLicks s p.touched p.envL p.envR).LeftLickCount ∧
        (serviceLicks s p.touched p.envL p.envR).LeftLickCount < 4294967296 := by
      rw [hL]; split_ifs
      · exact u32_range _
      · exact ⟨l0, l1⟩
    have hR' : 0 ≤ (serviceLicks s p.touched p.envL p.envR).RightLickCount ∧
        (serviceLicks s p.touched p.envL p.envR).RightLickCount < 4294967296 := by
      rw [hR]; split_ifs
      · exact u32_range _
      · exact ⟨r0, r1⟩
    obtain ⟨new2, hlog2, cL2, cR2, ev2, nL2, nR2⟩ :=
      ih (serviceLicks s p.touched p.envL p.envR) hL'.1 hL'.2 hR'.1 hR'.2
    have e0 : lickRises 0 (p.touched % 65536) (ps.map LickPoll.touched)
        = lickRises 0 p.touched (ps.map LickPoll.touched) :=
      lickRises_congr 0 _ _ (testBit_mod_65536 _ 0 (by norm_num)) _
    have e1 : lickRises 1 (p.touched % 65536) (ps.map LickPoll.touched)
        = lickRises 1 p.touched (ps.map LickPoll.touched) :=
      lickRises_congr 1 _ _ (testBit_mod_65536 _ 1 (by norm_num)) _
    rw [hlast, e0] at cL2 nL2
    rw [hlast, e1] at cR2 nR2
    have hfold : serviceLicksAll s (p :: ps)
        = serviceLicksAll (serviceLicks s p.touched p.envL p.envR) ps := rfl
    rw [hfold]
    refine ⟨new1 ++ new2, ?_, ?_, ?_, ?_, ?_, ?_⟩
    · rw [hlog2, hlog1, List.append_assoc]
    · rw [countEvent_append, cL1, cL2]; simp only [List.map_cons, lickRises]
    · rw [countEvent_append, cR1, cR2]; simp only [List.map_cons, lickRises]
    · intro r hr
      rcases List.mem_append.1 hr with h | h
      · exact ev1 r h
      · exact ev2 r h
    · rw [nL2, hL]; simp only [List.map_cons, lickRises]
      split_ifs <;> simp only [u32] <;> push_cast <;> omega
    · rw [nR2, hR]; simp only [List.map_cons, lickRises]
      split_ifs <;> simp only [u32] <;> push_cast <;> omega

theorem length_eq_countEvent_add (new : List Record)
    (ev : ∀ r ∈ new, r.field Column.event = some (Value.text "LeftLick") ∨
      r.field Column.event = some (Value.text "RightLick")) :
    new.length = countEvent "LeftLick" new + countEvent "RightLick" new := by
  induction new with
  | nil => rfl
  | cons r rs ih =>
    have ih' := ih (fun x hx => ev x (List.mem_cons_of_mem _ hx))
    have e : ∀ k, countEvent k (r :: rs) = countEvent k [r] + countEvent k rs :=
      fun k => countEvent_append k [r] rs
    rw [e, e, List.length_cons, ih']
    rcases ev r (List.mem_cons_self _ _) with h | h
    · have a : countEvent "LeftLick" [r] = 1 := by simp +decide [countEvent, h]
      have b : countEvent "RightLick" [r] = 0 := by simp +decide [countEvent, h]
      omega
    · have a : countEvent "LeftLick" [r] = 0 := by simp +decide [countEvent, h]
      have b : countEvent "RightLick" [r] = 1 := by simp +decide [countEvent, h]
      omega

/-- C3. For every series of `serviceLicks` polls, from any state whose lick counters are
`uint32_t` values: the lines the polls add to the log hold as many `"LeftLick"` lines as there
are polls whose bitmask has bit `LEFT_LICK` set while the remembered bitmask before it (at
first `lastLick`, which starts at 0) has it clear, and `LeftLickCount` has grown by that number
(in `uint32_t` arithmetic, so exactly when the sum stays below `2^32`); likewise for bit
`RIGHT_LICK`, `"RightLick"` and `RightLickCount`. Every added line is one of these two kinds,
so no other bit of the bitmask produces an event. -/
theorem serviceLicks_counts_rises (s : FED3) (polls : List LickPoll)
    (hL0 : 0 ≤ s.LeftLickCount) (hL1 : s.LeftLickCount < 4294967296)
    (hR0 : 0 ≤ s.RightLickCount) (hR1 : s.RightLickCount < 4294967296) :
    ∃ new, (serviceLicksAll s polls).log = s.log ++ new ∧
      countEvent "LeftLick" new = lickRises LEFT_LICK s.lastLick (polls.map LickPoll.touched) ∧
      countEvent "RightLick" new = lickRises RIGHT_LICK s.lastLick (polls.map LickPoll.touched) ∧
      (∀ r ∈ new, r.field Column.event = some (Value.text "LeftLick") ∨
        r.field Column.event = some (Value.text "RightLick")) ∧
      new.length = lickRises LEFT_LICK s.lastLick (polls.map LickPoll.touched)
        + lickRises RIGHT_LICK s.lastLick (polls.map LickPoll.touched) ∧
      (serviceLicksAll s polls).LeftLickCount =
        u32 (s.LeftLickCount + lickRises LEFT_LICK s.lastLick (polls.map LickPoll.touched)) ∧
      (serviceLicksAll s polls).RightLickCount =
        u32 (s.RightLickCount + lickRises RIGHT_LICK s.lastLick (polls.map LickPoll.touched)) ∧
      (s.LeftLickCount + lickRises LEFT_LICK s.lastLick (polls.map LickPoll.touched)
          < 4294967296 →
        (serviceLicksAll s polls).LeftLickCount - s.LeftLickCount =
          lickRises LEFT_LICK s.lastLick (polls.map LickPoll.touched)) ∧
      (s.RightLickCount + lickRises RIGHT_LICK s.lastLick (polls.map LickPoll.touched)
          < 4294967296 →
        (serviceLicksAll s polls).RightLickCount - s.RightLickCount =
          lickRises RIGHT_LICK s.lastLick (polls.map LickPoll.touched)) := by
  obtain ⟨new, hlog, cL, cR, ev, nL, nR⟩ := serviceLicksAll_counts polls s hL0 hL1 hR0 hR1
  refine ⟨new, hlog, cL, cR, ev, ?_, nL, nR, ?_, ?_⟩
  · rw [length_eq_countEvent_add new ev, cL, cR]; rfl
  · intro h; rw [nL]; simp only [LEFT_LICK, u32] at h ⊢; omega
  · intro h; rw [nR]; simp only [RIGHT_LICK, u32] at h ⊢; omega

/-- Witness of C3: from the initial state the bitmasks `1, 1, 0, 3, 2, 1` show three rises of
bit 0 and one rise of bit 1. -/
theorem serviceLicks_counts_rises_witness :
    lickRises LEFT_LICK 0 [1, 1, 0, 3, 2, 1] = 3 ∧ lickRises RIGHT_LICK 0 [1, 1, 0, 3, 2, 1] = 1 ∧
    ∃ new, (serviceLicksAll {} ([1, 1, 0, 3, 2, 1].map
        (fun b => LickPoll.mk b ⟨0, 0, 0, 0, 0⟩ ⟨0, 0, 0, 0, 0⟩))).log = [] ++ new ∧
      new.length = 3 + 1 := by
  refine ⟨by decide, by decide, ?_⟩
  obtain ⟨new, h1, _, _, _, h5, _⟩ := serviceLicks_counts_rises {}
    ([1, 1, 0, 3, 2, 1].map (fun b => LickPoll.mk b ⟨0, 0, 0, 0, 0⟩ ⟨0, 0, 0, 0, 0⟩))
    (by decide) (by decide) (by decide) (by decide)
  exact ⟨new, h1, h5⟩

/-- C4. Polling `serviceLicks` a second time with the bitmask `b` it has just read logs no line
and leaves `LeftLickCount`, `RightLickCount`, `LeftDropAvailable` and `RightDropAvailable` as
they were, for every bitmask and every state before the first poll. -/
theorem serviceLicks_repoll_idempotent (s : FED3) (b : Nat) (e1 e2 e3 e4 : LogEnv) :
    (serviceLicks (serviceLicks s b e1 e2) b e3 e4).log = (serviceLicks s b e1 e2).log ∧
    (serviceLicks (serviceLicks s b e1 e2) b e3 e4).LeftLickCount
      = (serviceLicks s b e1 e2).LeftLickCount ∧
    (serviceLicks (serviceLicks s b e1 e2) b e3 e4).RightLickCount
      = (serviceLicks s b e1 e2).RightLickCount ∧
    (serviceLicks (serviceLicks s b e1 e2) b e3 e4).LeftDropAvailable
      = (serviceLicks s b e1 e2).LeftDropAvailable ∧
    (serviceLicks (serviceLicks s b e1 e2) b e3 e4).RightDropAvailable
      = (serviceLicks s b e1 e2).RightDropAvailable := by
  have hlast := (serviceLicks_poll s b e1 e2).1
  have c0 : ¬ (b.testBit 0 = true ∧ (serviceLicks s b e1 e2).lastLick.testBit 0 = false) := by
    rw [hlast, testBit_mod_65536 b 0 (by norm_num)]; cases b.testBit 0 <;> simp
  have c1 : ¬ (b.testBit 1 = true ∧ (serviceLicks s b e1 e2).lastLick.testBit 1 = false) := by
    rw [hlast, testBit_mod_65536 b 1 (by norm_num)]; cases b.testBit 1 <;> simp
  rw [serviceLicks_no_rise _ b e3 e4 c0 c1]
  exact ⟨rfl, rfl, rfl, rfl, rfl⟩

/-! ## Delivery gate -/

/-- C5 (evaluation at the failing input). After a left delivery `LeftDropAvailable` is true;
a call of `logLeftPoke` that reads `LEFT_POKE` as `LOW` then returns at its pin test: it
counts the poke, logs no line and leaves `LeftDropAvailable` true. -/
theorem logLeftPoke_held_keeps_LeftDropAvailable :
    (FeedLeft {} 0 0 true 1000 1000 ⟨0, 1000, 0, 0, 0⟩).LeftDropAvailable = true ∧
    (logLeftPoke (FeedLeft {} 0 0 true 1000 1000 ⟨0, 1000, 0, 0, 0⟩) 2000 Level.LOW 2000
      ⟨0, 2000, 0, 0, 0⟩).LeftDropAvailable = true ∧
    (logLeftPoke (FeedLeft {} 0 0 true 1000 1000 ⟨0, 1000, 0, 0, 0⟩) 2000 Level.LOW 2000
      ⟨0, 2000, 0, 0, 0⟩).LeftCount = 1 ∧
    (logLeftPoke (FeedLeft {} 0 0 true 1000 1000 ⟨0, 1000, 0, 0, 0⟩) 2000 Level.LOW 2000
      ⟨0, 2000, 0, 0, 0⟩).log = (FeedLeft {} 0 0 true 1000 1000 ⟨0, 1000, 0, 0, 0⟩).log := by
  refine ⟨rfl, rfl, by decide, rfl⟩

/-! ## Log record encoder -/

theorem Column.title_no_comma (c : Column) : ',' ∉ c.title.toList := by
  cases c <;> decide

theorem commas_append (a b : String) : commas (a ++ b) = commas a + commas b := by
  simp [commas, String.toList]

theorem digitChar_ne_comma : ∀ m < 10, Nat.digitChar m ≠ ',' := by
  decide

theorem toDigitsCore_no_comma (fuel : Nat) :
    ∀ (n : Nat) (ds : List Char), ds.count ',' = 0 →
      (Nat.toDigitsCore 10 fuel n ds).count ',' = 0 := by
  induction fuel with
  | zero => intro n ds h; simpa [Nat.toDigitsCore] using h
  | succ f ih =>
    intro n ds h
    have hd : (Nat.digitChar (n % 10) :: ds).count ',' = 0 := by
      rw [List.count_cons, h]
      simp [digitChar_ne_comma (n % 10) (Nat.mod_lt _ (by norm_num))]
    rw [Nat.toDigitsCore]
    split_ifs
    · exact hd
    · exact ih _ _ hd

theorem commas_toString_nat (n : Nat) : commas (toString n) = 0 := by
  show (Nat.repr n).toList.count ',' = 0
  unfold Nat.repr Nat.toDigits
  exact toDigitsCore_no_comma _ _ _ rfl

theorem commas_toString_int (i : Int) : commas (toString i) = 0 := by
  cases i with
  | ofNat n => exact commas_toString_nat n
  | negSucc n =>
    show commas ("-" ++ toString (n + 1)) = 0
    rw [commas_append, commas_toString_nat]; decide

theorem commas_intercalate_go (acc : String) (l : List String) :
    commas (String.intercalate.go acc "," l) = commas acc + l.length + (l.map commas).sum := by
  induction l generalizing acc with
  | nil => simp [String.intercalate.go]
  | cons a as ih =>
    rw [String.intercalate.go, ih, commas_append, commas_append]
    have : commas "," = 1 := by decide
    simp [this]; ring

theorem commas_intercalate (a : String) (l : List String) :
    commas (String.intercalate "," (a :: l)) = l.length + ((a :: l).map commas).sum := by
  rw [String.intercalate, commas_intercalate_go]
  simp; ring

theorem commas_printFloat (negative : Bool) (h : Nat) : commas (printFloat negative h) = 0 := by
  unfold printFloat
  simp only [commas_append, commas_toString_nat]
  cases negative <;> decide

theorem commas_pad2 (x : Int) : commas (pad2 x) = 0 := by
  unfold pad2
  rw [commas_append, commas_toString_int]
  split_ifs <;> decide

theorem commas_pad3 (x : Int) : commas (pad3 x) = 0 := by
  unfold pad3
  rw [commas_append, commas_append, commas_toString_int]
  split_ifs <;> decide

/-- Only a string can bring a comma into the text of a value. -/
theorem commas_print (v : Value) :
    commas v.print = (match v with | Value.text s => commas s | _ => 0) := by
  cases v with
  | dateTime t ms =>
    simp only [Value.print, commas_append, commas_toString_int, commas_pad2, commas_pad3]
    decide
  | reading raw => exact commas_printFloat _ _
  | voltage adc => exact commas_printFloat _ _
  | int i => exact commas_toString_int i
  | text s => rfl
  | seconds ms => exact commas_printFloat _ _
  | nan => decide

/-- The commas of a printed line: one between every two fields, and those inside
`sessiontype` and `Event`. -/
theorem commas_logdataFields (s : FED3) (env : LogEnv) :
    commas (logdataFields s env).print
      = (logdataFields s env).length - 1 + commas s.sessiontype + commas s.Event := by
  have hV : commas VER = 0 := by decide
  have h1 : commas "Left" = 0 := by decide
  have h2 : commas "Right" = 0 := by decide
  have h3 : commas "nan" = 0 := by decide
  have h4 : commas "Timed_out" = 0 := by decide
  have h5 : commas "Error" = 0 := by decide
  unfold Record.print logdataFields
  cases hb : isBandit s <;> cases ht : s.tempSensor <;> cases hd : isDeliver s <;>
    simp only [Bool.not_true, Bool.not_false, Bool.false_eq_true, if_true, if_false,
      List.nil_append, List.cons_append, List.map_cons, List.map_nil, commas_intercalate,
      List.sum_cons, List.sum_nil, List.length_cons, List.length_nil, commas_print,
      Bool.false_or, Bool.true_or, beq_self_eq_true, beq_iff_eq, eq_self_iff_true,
      List.append_nil, hV, reduceCtorEq] <;>
    split_ifs <;> simp only [commas_print, h1, h2, h3, h4, h5] <;> omega

theorem commas_intercalate_nonempty (l : List String) (h : l ≠ []) :
    commas (String.intercalate "," l) = l.length - 1 + (l.map commas).sum := by
  cases l with
  | nil => exact absurd rfl h
  | cons a as => rw [commas_intercalate]; simp

theorem titles_eq_writeHeader (s : FED3) (env : LogEnv) :
    String.intercalate "," ((logdataFields s env).map (fun c => c.col.title))
      = writeHeader s := by
  unfold logdataFields writeHeader
  cases hb : isBandit s <;> cases ht : s.tempSensor <;> cases hd : isDeliver s <;>
    simp [String.intercalate, String.intercalate.go, Column.title]

theorem logdataFields_length (s : FED3) (env : LogEnv) :
    (logdataFields s env).length
      = (if isBandit s then 22 else 20) + (if s.tempSensor then 2 else 0) := by
  unfold logdataFields
  cases hb : isBandit s <;> cases ht : s.tempSensor <;> cases hd : isDeliver s <;> rfl

theorem commas_writeHeader (s : FED3) (env : LogEnv) :
    commas (writeHeader s) = (logdataFields s env).length - 1 := by
  have hne : (logdataFields s env).map (fun c => c.col.title) ≠ [] := by
    intro h
    have := congrArg List.length h
    rw [List.length_map, logdataFields_length] at this
    simp only [List.length_nil] at this
    split_ifs at this <;> omega
  rw [← titles_eq_writeHeader s env, commas_intercalate_nonempty _ hne, List.length_map]
  have hz : (((logdataFields s env).map (fun c => c.col.title)).map commas).sum = 0 := by
    apply List.sum_eq_zero
    intro x hx
    simp only [List.mem_map] at hx
    obtain ⟨t, ⟨c, -, rfl⟩, rfl⟩ := hx
    exact List.count_eq_zero.mpr (Column.title_no_comma c.col)
  rw [hz]; rfl

/-- Counterexample to C6: with the session type "FR1,test" and no temperature sensor, the
line that `logdata` prints has 20 commas, so 21 comma-separated fields, under a header of 20
columns. -/
theorem logdata_comma_in_sessiontype :
    (logdataFields commaSession logEnvExample).print
      = "11/14/2023 22:13:20:250,1.17.0,FR1,test,0,3.30,nan,nan,1,None,Left,0,0,0,0,0,0,0,nan,nan,nan" ∧
    commas (logdataFields commaSession logEnvExample).print = 20 ∧
    commas (writeHeader commaSession) = 19 := by
  refine ⟨by decide, ?_, ?_⟩
  · rw [commas_logdataFields, logdataFields_length]; decide
  · rw [commas_writeHeader commaSession logEnvExample, logdataFields_length]; decide

/-- C6 (amended). In each of the four variants (temperature sensor present or not, session
type one of `"Bandit"`, `"Bandit80"`, `"Bandit100"` or not) the values that `logdata` prints
stand, one for one and in the same order, under the columns that `writeHeader` prints: the
titles of the values, joined by commas, are the header line, for every event and every state,
and there are 20 values in a ratio session and 22 in a bandit session, plus 2 with the sensor.
The printed line has the commas of the header and, besides, the commas that `sessiontype` and
`Event` hold, both being printed as they are. So a state whose `sessiontype` and `Event` hold
no comma gives a line with as many comma-separated fields as the header has columns. -/
theorem logdata_fields_match_header (s : FED3) (env : LogEnv) :
    String.intercalate "," ((logdataFields s env).map (fun c => c.col.title)) = writeHeader s ∧
    (∀ c : Column, ',' ∉ c.title.toList) ∧
    (logdataFields s env).length
      = (if isBandit s then 22 else 20) + (if s.tempSensor then 2 else 0) ∧
    (logdata s env).log = s.log ++ [logdataFields s env] ∧
    commas (logdataFields s env).print
      = commas (writeHeader s) + commas s.sessiontype + commas s.Event ∧
    commas (writeHeader s) + 1
      = (if isBandit s then 22 else 20) + (if s.tempSensor then 2 else 0) ∧
    (commas s.sessiontype = 0 → commas s.Event = 0 →
      commas (logdataFields s env).print = commas (writeHeader s)) := by
  have hc := commas_logdataFields s env
  have hh := commas_writeHeader s env
  have hl := logdataFields_length s env
  refine ⟨titles_eq_writeHeader s env, Column.title_no_comma, hl, rfl, ?_, ?_, ?_⟩
  · rw [hc, hh]
  · rw [hh, hl]; split_ifs <;> rfl
  · intro h1 h2
    rw [hc, hh, h1, h2]; rfl

/-- Witness of C6: the line of the first delivery of the example session, printed at
14 November 2023, 22:13:20, has the 19 commas of its header. -/
theorem logdata_fields_match_header_witness :
    (logdataFields afterFeedLeft logEnvExample).print
      = "11/14/2023 22:13:20:250,1.17.0,undef,0,3.30,1,1,1,LeftDeliver,Left,2,0,0,0,1,0,0,0.00,nan,nan" ∧
    commas (logdataFields afterFeedLeft logEnvExample).print
      = commas (writeHeader afterFeedLeft) :=
  ⟨by decide,
    (logdata_fields_match_header afterFeedLeft logEnvExample).2.2.2.2.2.2 (by decide)
      (by decide)⟩

/-- C7. When `Event` is neither `"LeftDeliver"` nor `"RightDeliver"`, the line that `logdata`
prints has the not-a-number sentinel in `Left_Motor_Turns`, `Right_Motor_Turns` and
`Retrieval_Time`, whatever `numMotorTurnsLeft`, `numMotorTurnsRight` and `retInterval` are. -/
theorem logdata_nonDeliver_nan (s : FED3) (env : LogEnv)
    (hl : s.Event ≠ "LeftDeliver") (hr : s.Event ≠ "RightDeliver") :
    (logdata s env).log = s.log ++ [logdataFields s env] ∧
    (logdataFields s env).field Column.leftMotorTurns = some Value.nan ∧
    (logdataFields s env).field Column.rightMotorTurns = some Value.nan ∧
    (logdataFields s env).field Column.retrievalTime = some Value.nan := by
  have hd : isDeliver s = false := by simp [isDeliver, hl, hr]
  refine ⟨rfl, ?_, ?_, ?_⟩ <;>
  · unfold logdataFields Record.field
    rw [hd]
    cases s.tempSensor <;> cases isBandit s <;> rfl

/-- Witness of C7: a left lick line with motor turns and a retrieval interval in the state. -/
theorem logdata_nonDeliver_nan_witness :
    (logdataFields lickState ⟨0, 0, 0, 0, 0⟩).field Column.leftMotorTurns = some Value.nan ∧
    (logdataFields lickState ⟨0, 0, 0, 0, 0⟩).field Column.rightMotorTurns = some Value.nan ∧
    (logdataFields lickState ⟨0, 0, 0, 0, 0⟩).field Column.retrievalTime = some Value.nan :=
  (logdata_nonDeliver_nan lickState ⟨0, 0, 0, 0, 0⟩ (by decide) (by decide)).2

/-! ## Scenario: short poke, poke, delivery, lick -/

/-- C8. From a fresh session with `minPokeTime = 200`: a left poke with measured hold 50 ms is
logged as `"LeftShort"` with `LeftCount = 1` and no delivery counted; the next left poke, with
measured hold 300 ms, is logged as `"LeftPoke"` with `LeftCount = 2`; the following `FeedLeft`
leaves `LeftDropAvailable = true` and `TotalDeliverCount = 1`; the following left lick rise is
logged as `"LeftLick"` with `LeftLickCount = 1` and leaves `LeftDropAvailable = false`. -/
theorem scenario_short_poke_delivery_lick :
    (afterShortPoke.leftInterval = 50 ∧ afterShortPoke.Event = "LeftShort" ∧
      lastField afterShortPoke Column.event = some (Value.text "LeftShort") ∧
      afterShortPoke.LeftCount = 1 ∧
      lastField afterShortPoke Column.leftPokeCount = some (Value.int 1) ∧
      afterShortPoke.TotalDeliverCount = 0 ∧ afterShortPoke.LeftDeliverCount = 0 ∧
      afterShortPoke.log.length = 1) ∧
    (afterLongPoke.leftInterval = 300 ∧ afterLongPoke.Event = "LeftPoke" ∧
      lastField afterLongPoke Column.event = some (Value.text "LeftPoke") ∧
      afterLongPoke.LeftCount = 2 ∧
      lastField afterLongPoke Column.leftPokeCount = some (Value.int 2) ∧
      afterLongPoke.log.length = 2) ∧
    (afterFeedLeft.LeftDropAvailable = true ∧ afterFeedLeft.TotalDeliverCount = 1 ∧
      afterFeedLeft.LeftDeliverCount = 1 ∧
      lastField afterFeedLeft Column.event = some (Value.text "LeftDeliver") ∧
      afterFeedLeft.log.length = 3) ∧
    (afterLeftLick.Event = "LeftLick" ∧
      lastField afterLeftLick Column.event = some (Value.text "LeftLick") ∧
      afterLeftLick.LeftLickCount = 1 ∧
      lastField afterLeftLick Column.leftLickCount = some (Value.int 1) ∧
      afterLeftLick.LeftDropAvailable = false ∧
      afterLeftLick.log.length = 4) := by
  decide

/-! ## Device number -/

theorem SetDeviceNumber.adjust_FED_eq (s : FED3) (p : DeviceNumberPoll) :
    (SetDeviceNumber.adjust s p).FED =
      (if p.left = Level.LOW then
        (if wrapInt32 ((if p.right = Level.LOW then
              (if wrapInt32 (s.FED + 1) > 700 then 700 else wrapInt32 (s.FED + 1))
            else s.FED) - 1) < 1 then 0
         else wrapInt32 ((if p.right = Level.LOW then
              (if wrapInt32 (s.FED + 1) > 700 then 700 else wrapInt32 (s.FED + 1))
            else s.FED) - 1))
       else (if p.right = Level.LOW then
              (if wrapInt32 (s.FED + 1) > 700 then 700 else wrapInt32 (s.FED + 1))
            else s.FED)) := by
  unfold SetDeviceNumber.adjust SetDeviceNumber.capFED SetDeviceNumber.floorFED
  by_cases hr : p.right = Level.LOW <;> by_cases hl : p.left = Level.LOW <;>
    simp only [hr, hl, if_true, if_false] <;>
    split_ifs <;> rfl

theorem SetDeviceNumber.adjust_FED (s : FED3) (p : DeviceNumberPoll)
    (h0 : 0 ≤ s.FED) (h1 : s.FED ≤ 700) :
    (0 ≤ (SetDeviceNumber.adjust s p).FED ∧ (SetDeviceNumber.adjust s p).FED ≤ 700) ∧
    (p.right = Level.LOW → p.left = Level.HIGH →
      (SetDeviceNumber.adjust s p).FED = min (s.FED + 1) 700) ∧
    (p.right = Level.HIGH → p.left = Level.LOW →
      (SetDeviceNumber.adjust s p).FED = max (s.FED - 1) 0) := by
  rw [SetDeviceNumber.adjust_FED_eq]
  unfold wrapInt32
  refine ⟨?_, ?_, ?_⟩
  · split_ifs <;> omega
  · intro hr hl; rw [hr, hl]; simp only [reduceCtorEq, if_true, if_false]
    split_ifs <;> omega
  · intro hr hl; rw [hr, hl]; simp only [reduceCtorEq, if_true, if_false]
    split_ifs <;> omega

theorem SetDeviceNumber.numberPhase_FED (polls : List DeviceNumberPoll) :
    ∀ s : FED3, 0 ≤ s.FED → s.FED ≤ 700 →
      0 ≤ (SetDeviceNumber.numberPhase s polls).FED ∧
      (SetDeviceNumber.numberPhase s polls).FED ≤ 700 := by
  induction polls with
  | nil => intro s h0 h1; exact ⟨h0, h1⟩
  | cons p ps ih =>
    intro s h0 h1
    have ha := (SetDeviceNumber.adjust_FED s p h0 h1).1
    rw [SetDeviceNumber.numberPhase]
    by_cases hS : s.SetFED = true
    · by_cases hC : u32 (u32 p.tCheck - u32 (SetDeviceNumber.adjust s p).EndTime) > 3000
      · simp only [hS, hC, if_true]; exact ha
      · simp only [hS, hC, if_true, if_false]; exact ih _ ha.1 ha.2
    · simp only [hS, if_false]; exact ⟨h0, h1⟩
/-- C9. In the device-number loop of `SetDeviceNumber`, from a device number `FED` in
`[0, 700]`: after any series of passes, whatever the poke levels, `FED` is in `[0, 700]`; a
pass with only the right poke pressed gives `min(FED + 1, 700)` and a pass with only the left
poke pressed gives `max(FED - 1, 0)`. From `FED = 5`, four passes with the right poke pressed
give 9, and 9 is the number confirmed after 3 s without a press. -/
theorem SetDeviceNumber_FED_clamped (s : FED3) (h0 : 0 ≤ s.FED) (h1 : s.FED ≤ 700) :
    (∀ polls : List DeviceNumberPoll,
      0 ≤ (SetDeviceNumber.numberPhase s polls).FED ∧
      (SetDeviceNumber.numberPhase s polls).FED ≤ 700) ∧
    (∀ p : DeviceNumberPoll,
      0 ≤ (SetDeviceNumber.adjust s p).FED ∧ (SetDeviceNumber.adjust s p).FED ≤ 700) ∧
    (∀ p : DeviceNumberPoll, p.right = Level.LOW → p.left = Level.HIGH →
      (SetDeviceNumber.adjust s p).FED = min (s.FED + 1) 700) ∧
    (∀ p : DeviceNumberPoll, p.right = Level.HIGH → p.left = Level.LOW →
      (SetDeviceNumber.adjust s p).FED = max (s.FED - 1) 0) ∧
    (SetDeviceNumber.numberPhase deviceFive (fourRightPresses.take 4)).FED = 9 ∧
    (SetDeviceNumber.numberPhase deviceFive (fourRightPresses.take 4)).SetFED = true ∧
    (SetDeviceNumber.numberPhase deviceFive fourRightPresses).FED = 9 ∧
    (SetDeviceNumber.numberPhase deviceFive fourRightPresses).SetFED = false :=
  ⟨fun polls => SetDeviceNumber.numberPhase_FED polls s h0 h1,
   fun p => (SetDeviceNumber.adjust_FED s p h0 h1).1,
   fun p => (SetDeviceNumber.adjust_FED s p h0 h1).2.1,
   fun p => (SetDeviceNumber.adjust_FED s p h0 h1).2.2,
   by decide, by decide, by decide, by decide⟩

/-- Witness of C9: from `FED = 700` a right press stays at 700, and from `FED = 5` the passes
of `fourRightPresses` stay in range. -/
theorem SetDeviceNumber_FED_clamped_witness :
    (SetDeviceNumber.adjust { FED := 700 } ⟨Level.LOW, 10, Level.HIGH, 0, 10⟩).FED
      = min (700 + 1) 700 ∧
    (0 ≤ (SetDeviceNumber.numberPhase deviceFive fourRightPresses).FED ∧
      (SetDeviceNumber.numberPhase deviceFive fourRightPresses).FED ≤ 700) :=
  ⟨(SetDeviceNumber_FED_clamped { FED := 700 } (by decide) (by decide)).2.2.1
      ⟨Level.LOW, 10, Level.HIGH, 0, 10⟩ rfl rfl,
   (SetDeviceNumber_FED_clamped deviceFive (by decide) (by decide)).1 fourRightPresses⟩

/-! ## Both-poke hold detector -/

theorem DisplayMouse.poll_cases (s : FED3) (p : MousePoll) :
    (DisplayMouse.poll s p).2 = MouseExit.selectMode ∨
    ((p.left = Level.LOW ∧ p.right = Level.LOW) ∧
      (DisplayMouse.poll s p).2 = MouseExit.setDeviceNumber ∧
      (DisplayMouse.poll s p).1.bothLowSince
        = (if s.bothLowSince = 0 then u32 p.tStart else s.bothLowSince) ∧
      u32 (u32 p.tCheck - (if s.bothLowSince = 0 then u32 p.tStart else s.bothLowSince))
        > 1500) ∨
    ((p.left = Level.LOW ∧ p.right = Level.LOW) ∧
      (DisplayMouse.poll s p).2 = MouseExit.none ∧
      (DisplayMouse.poll s p).1.bothLowSince
        = (if s.bothLowSince = 0 then u32 p.tStart else s.bothLowSince)) ∨
    (¬ (p.left = Level.LOW ∧ p.right = Level.LOW) ∧
      (DisplayMouse.poll s p).2 = MouseExit.none ∧
      (DisplayMouse.poll s p).1.bothLowSince = 0) := by
  unfold DisplayMouse.poll
  by_cases hm : ((s.FED3Menu == true || s.ClassicFED3 == true || s.psygene)
      && (p.menuLeft == Level.LOW || p.menuRight == Level.LOW)) = true
  · left; simp only [hm, if_true]
  · right
    by_cases hb : p.left = Level.LOW ∧ p.right = Level.LOW
    · by_cases hz : s.bothLowSince = 0
      · by_cases he : u32 (u32 p.tCheck - u32 p.tStart) > 1500
        · left; simp only [hm, hb, hz, he, if_true, if_false, and_self]; simp
        · right; left; simp only [hm, hb, hz, he, if_true, if_false, and_self]; simp
      · by_cases he : u32 (u32 p.tCheck - s.bothLowSince) > 1500
        · left; simp only [hm, hb, hz, he, if_true, if_false, and_self]; simp
        · right; left; simp only [hm, hb, hz, he, if_true, if_false, and_self]; simp
    · right; right; simp only [hm, hb, if_false]; simp

theorem DisplayMouse.loop_cons_none (s : FED3) (p : MousePoll) (ps : List MousePoll)
    (h : (DisplayMouse.poll s p).2 = MouseExit.none) :
    DisplayMouse.loop s (p :: ps) =
      ((DisplayMouse.loop (DisplayMouse.poll s p).1 ps).1,
       (DisplayMouse.loop (DisplayMouse.poll s p).1 ps).2.1,
       (DisplayMouse.loop (DisplayMouse.poll s p).1 ps).2.2 + 1) := by
  rw [DisplayMouse.loop]
  generalize DisplayMouse.poll s p = r at h
  obtain ⟨s1, e⟩ := r
  simp only at h
  subst h
  rfl

theorem DisplayMouse.loop_cons_exit (s : FED3) (p : MousePoll) (ps : List MousePoll)
    (h : (DisplayMouse.poll s p).2 ≠ MouseExit.none) :
    DisplayMouse.loop s (p :: ps) = ((DisplayMouse.poll s p).1, (DisplayMouse.poll s p).2, 1) := by
  rw [DisplayMouse.loop]
  generalize DisplayMouse.poll s p = r at h
  obtain ⟨s1, e⟩ := r
  cases e
  · exact absurd rfl h
  · rfl
  · rfl

/-- Entry into `SetDeviceNumber` at the last of `n` passes: either the timer was running
before the first pass and both pokes read `LOW` at every pass, or the passes split into a
part after which the timer is not started and a hold that starts the timer. -/
theorem DisplayMouse.loop_enter (polls : List MousePoll) :
    ∀ (s s' : FED3) (n : Nat),
      DisplayMouse.loop s polls = (s', MouseExit.setDeviceNumber, n) →
      (s.bothLowSince ≠ 0 ∧
        (∀ p ∈ polls.take n, p.left = Level.LOW ∧ p.right = Level.LOW) ∧
        s'.bothLowSince = s.bothLowSince ∧
        ∃ last, (polls.take n).getLast? = some last ∧
          u32 (u32 last.tCheck - s.bothLowSince) > 1500) ∨
      (∃ pre first mid last sPre,
        polls.take n = pre ++ first :: mid ∧
        (first :: mid).getLast? = some last ∧
        DisplayMouse.loop s pre = (sPre, MouseExit.none, pre.length) ∧
        sPre.bothLowSince = 0 ∧
        (∀ p ∈ first :: mid, p.left = Level.LOW ∧ p.right = Level.LOW) ∧
        s'.bothLowSince = u32 first.tStart ∧
        u32 (u32 last.tCheck - u32 first.tStart) > 1500) := by
  induction polls with
  | nil =>
    intro s s' n h
    simp [DisplayMouse.loop] at h
  | cons p ps ih =>
    intro s s' n h
    rcases DisplayMouse.poll_cases s p with hsel | ⟨hb, hex, hset, hel⟩ | ⟨hb, hex, hst⟩ |
      ⟨hnb, hex, hst⟩
    · rw [DisplayMouse.loop_cons_exit s p ps (by rw [hsel]; decide), hsel] at h
      simp at h
    · rw [DisplayMouse.loop_cons_exit s p ps (by rw [hex]; decide)] at h
      have hn : n = 1 := by
        have := congrArg (fun r => r.2.2) h
        simpa using this.symm
      have hs' : s' = (DisplayMouse.poll s p).1 := (congrArg (fun r => r.1) h).symm
      subst hn
      by_cases hz : s.bothLowSince = 0
      · right
        refine ⟨[], p, [], p, s, by simp, rfl, rfl, hz, ?_, ?_, ?_⟩
        · intro q hq; simp only [List.mem_singleton] at hq; rw [hq]; exact hb
        · rw [hs', hset, if_pos hz]
        · simpa [hz] using hel
      · left
        refine ⟨hz, ?_, ?_, p, by simp, ?_⟩
        · intro q hq
          simp only [List.take_succ_cons, List.take_zero, List.mem_singleton] at hq
          rw [hq]; exact hb
        · rw [hs', hset, if_neg hz]
        · simpa [hz] using hel
    · rw [DisplayMouse.loop_cons_none s p ps hex] at h
      obtain ⟨m, rfl⟩ : ∃ m, n = m + 1 := by
        have := congrArg (fun r => r.2.2) h
        exact ⟨_, by simpa using this.symm⟩
      have hloop : DisplayMouse.loop (DisplayMouse.poll s p).1 ps
          = (s', MouseExit.setDeviceNumber, m) := by
        have a := congrArg (fun r => r.1) h
        have b := congrArg (fun r => r.2.1) h
        have c := congrArg (fun r => r.2.2) h
        simp only [Nat.add_right_cancel_iff] at a b c
        exact Prod.ext a (Prod.ext b c)
      rcases ih _ s' m hloop with ⟨hnz, hall, hkeep, last, hlast, hel⟩ |
        ⟨pre, first, mid, last, sPre, htake, hlast, hpre, hz', hall, hkeep, hel⟩
      · by_cases hz : s.bothLowSince = 0
        · right
          refine ⟨[], p, ps.take m, last, s, by simp, ?_, rfl, hz, ?_, ?_, ?_⟩
          · rw [List.getLast?_cons, hlast]; rfl
          · intro q hq
            rcases List.mem_cons.1 hq with h1 | h1
            · rw [h1]; exact hb
            · exact hall q h1
          · rw [hkeep, hst, if_pos hz]
          · rw [hst, if_pos hz] at hel; exact hel
        · left
          refine ⟨hz, ?_, ?_, last, ?_, ?_⟩
          · intro q hq
            rw [List.take_succ_cons] at hq
            rcases List.mem_cons.1 hq with h1 | h1
            · rw [h1]; exact hb
            · exact hall q h1
          · rw [hkeep, hst, if_neg hz]
          · rw [List.take_succ_cons, List.getLast?_cons, hlast]; rfl
          · rw [hst, if_neg hz] at hel; exact hel
      · right
        refine ⟨p :: pre, first, mid, last, sPre, ?_, hlast, ?_, hz', hall, hkeep, hel⟩
        · rw [List.take_succ_cons, htake]; rfl
        · rw [DisplayMouse.loop_cons_none s p pre hex, hpre]; rfl
    · rw [DisplayMouse.loop_cons_none s p ps hex] at h
      obtain ⟨m, rfl⟩ : ∃ m, n = m + 1 := by
        have := congrArg (fun r => r.2.2) h
        exact ⟨_, by simpa using this.symm⟩
      have hloop : DisplayMouse.loop (DisplayMouse.poll s p).1 ps
          = (s', MouseExit.setDeviceNumber, m) := by
        have a := congrArg (fun r => r.1) h
        have b := congrArg (fun r => r.2.1) h
        have c := congrArg (fun r => r.2.2) h
        simp only [Nat.add_right_cancel_iff] at a b c
        exact Prod.ext a (Prod.ext b c)
      rcases ih _ s' m hloop with ⟨hnz, -⟩ |
        ⟨pre, first, mid, last, sPre, htake, hlast, hpre, hz', hall, hkeep, hel⟩
      · exact absurd hst hnz
      · right
        refine ⟨p :: pre, first, mid, last, sPre, ?_, hlast, ?_, hz', hall, hkeep, hel⟩
        · rw [List.take_succ_cons, htake]; rfl
        · rw [DisplayMouse.loop_cons_none s p pre hex, hpre]; rfl

/-- C10. The both-poke hold detector of `DisplayMouse`, with the timer `bothLowSince` not
started at first. (1) If `SetDeviceNumber` is entered at pass `n`, the passes up to `n` end in
a hold `first, ..., last` before which the timer is not started, so that `first` starts it:
both pokes read `LOW` at every pass of the hold, the timer still holds the time read at `first`
when `last` enters, and more than 1500 ms have elapsed from that time to the time read at
`last`. (2) A pass at which either poke reads released never enters and leaves the timer not
started. (3) With passes 250 ms apart, a hold of 1.0 s, a release and a hold of 2.0 s enter at
pass 14, 1750 ms into the second hold; the first hold and the release end with the timer not
started and without entry. -/
theorem DisplayMouse_hold_detector :
    (∀ (s s' : FED3) (polls : List MousePoll) (n : Nat), s.bothLowSince = 0 →
      DisplayMouse.loop s polls = (s', MouseExit.setDeviceNumber, n) →
      ∃ pre first mid last sPre,
        polls.take n = pre ++ first :: mid ∧
        (first :: mid).getLast? = some last ∧
        DisplayMouse.loop s pre = (sPre, MouseExit.none, pre.length) ∧
        sPre.bothLowSince = 0 ∧
        (∀ p ∈ first :: mid, p.left = Level.LOW ∧ p.right = Level.LOW) ∧
        s'.bothLowSince = u32 first.tStart ∧
        u32 (u32 last.tCheck - u32 first.tStart) > 1500) ∧
    (∀ (s : FED3) (p : MousePoll), ¬ (p.left = Level.LOW ∧ p.right = Level.LOW) →
      (DisplayMouse.poll s p).2 ≠ MouseExit.setDeviceNumber ∧
      ((DisplayMouse.poll s p).2 = MouseExit.none →
        (DisplayMouse.poll s p).1.bothLowSince = 0)) ∧
    ((DisplayMouse {} holdReleaseHold).2 = (MouseExit.setDeviceNumber, 14) ∧
      (DisplayMouse {} holdReleaseHold).1.bothLowSince = 1750 ∧
      (DisplayMouse {} (holdReleaseHold.take 6)).2 = (MouseExit.none, 6) ∧
      (DisplayMouse {} (holdReleaseHold.take 6)).1.bothLowSince = 0 ∧
      (DisplayMouse {} (holdReleaseHold.take 13)).2 = (MouseExit.none, 13)) := by
  refine ⟨?_, ?_, by decide⟩
  · intro s s' polls n hz h
    rcases DisplayMouse.loop_enter polls s s' n h with ⟨hnz, -⟩ | h2
    · exact absurd hz hnz
    · exact h2
  · intro s p hnb
    rcases DisplayMouse.poll_cases s p with hsel | ⟨hb, -⟩ | ⟨hb, -⟩ | ⟨-, hex, hst⟩
    · rw [hsel]; exact ⟨by decide, fun h => absurd h (by decide)⟩
    · exact absurd hb hnb
    · exact absurd hb hnb
    · rw [hex]; exact ⟨by decide, fun _ => hst⟩

/-- Witness of C10: the entry at pass 14 of `holdReleaseHold` comes with a hold that starts
after a part of the passes that leaves the timer not started. -/
theorem DisplayMouse_hold_detector_witness :
    ∃ pre first mid last sPre,
      holdReleaseHold.take 14 = pre ++ first :: mid ∧
      (first :: mid).getLast? = some last ∧
      DisplayMouse.loop {} pre = (sPre, MouseExit.none, pre.length) ∧
      sPre.bothLowSince = 0 ∧
      (∀ p ∈ first :: mid, p.left = Level.LOW ∧ p.right = Level.LOW) ∧
      (DisplayMouse.loop {} holdReleaseHold).1.bothLowSince = u32 first.tStart ∧
      u32 (u32 last.tCheck - u32 first.tStart) > 1500 :=
  DisplayMouse_hold_detector.1 {} (DisplayMouse.loop {} holdReleaseHold).1 holdReleaseHold 14
    rfl (Prod.ext rfl (by decide))

/-! ## Forced flip of the active side -/

/-- C11. For every `max`, every state and every draw: if a call of `randomizeActivePoke(max)`
leaves `activePoke` different from what it was, `consecutive` is 0 after the call; and when the
call forces a flip (the counter after the counting step has reached `max`), `activePoke` is the
complement of the drawn side and `consecutive` is 0. Without a forced flip `activePoke` is the
drawn side. -/
theorem randomizeActivePoke_change_resets (s : FED3) (max draw : Int) :
    ((randomizeActivePoke s max draw).activePoke ≠ s.activePoke →
      (randomizeActivePoke s max draw).consecutive = 0) ∧
    (randomizeActivePoke.counted s draw ≥ max →
      (randomizeActivePoke s max draw).activePoke = (!decide (draw ≠ 0)) ∧
      (randomizeActivePoke s max draw).consecutive = 0) ∧
    (¬ randomizeActivePoke.counted s draw ≥ max →
      (randomizeActivePoke s max draw).activePoke = decide (draw ≠ 0) ∧
      (randomizeActivePoke s max draw).consecutive = randomizeActivePoke.counted s draw) := by
  unfold randomizeActivePoke randomizeActivePoke.counted
  cases hA : s.activePoke <;> by_cases hd : draw = 0 <;> simp [hA, hd] <;> split_ifs <;>
    simp <;> omega

/-- Witness of C11: with `max = 2`, from the initial state (left active), the draw 0
changes the side to right with `consecutive = 0`; two draws of 1 force a flip to right with
`consecutive = 0`. -/
theorem randomizeActivePoke_change_resets_witness :
    ((randomizeActivePoke {} 2 0).activePoke = false ∧
      (randomizeActivePoke {} 2 0).consecutive = 0) ∧
    (randomizeActivePoke.counted (randomizeActivePoke {} 2 1) 1 ≥ 2 ∧
      (randomizeActivePoke (randomizeActivePoke {} 2 1) 2 1).activePoke = false ∧
      (randomizeActivePoke (randomizeActivePoke {} 2 1) 2 1).consecutive = 0) :=
  ⟨⟨by decide, (randomizeActivePoke_change_resets {} 2 0).1 (by decide)⟩,
   by decide, (randomizeActivePoke_change_resets (randomizeActivePoke {} 2 1) 2 1).2.1
     (by decide)⟩

/-! ## Mode selection -/

theorem SelectMode.step_left (s : FED3) (p : SelectPoll)
    (h1 : ¬ (p.left1 = Level.LOW ∧ p.right1 = Level.LOW)) (h2 : p.left2 = Level.LOW) :
    SelectMode.step s p =
      (SelectMode.doubleCheck (SelectMode.wrapBelow
        { s with EndTime := wrapInt32 p.t, FEDmode := (s.FEDmode + 255) % 256 }), false) := by
  unfold SelectMode.step
  rw [if_neg h1, if_pos h2]

theorem SelectMode.step_right (s : FED3) (p : SelectPoll)
    (h1 : ¬ (p.left1 = Level.LOW ∧ p.right1 = Level.LOW)) (h2 : ¬ p.left2 = Level.LOW)
    (h3 : p.right2 = Level.LOW) :
    SelectMode.step s p =
      (SelectMode.doubleCheck (SelectMode.wrapAbove
        { s with EndTime := wrapInt32 p.t, FEDmode := (s.FEDmode + 1) % 256 }), false) := by
  unfold SelectMode.step
  rw [if_neg h1, if_neg h2, if_pos h3]

theorem SelectMode.wrapBelow_FEDmode (s : FED3) :
    (SelectMode.wrapBelow s).FEDmode = s.FEDmode ∧
    (SelectMode.wrapBelow s).psygene = s.psygene := by
  unfold SelectMode.wrapBelow
  have h : ¬ ((s.FEDmode : Int) = -1) := by omega
  simp only [h, if_false, ite_self, and_self]

theorem SelectMode.wrapAbove_FEDmode (s : FED3) :
    (SelectMode.wrapAbove s).FEDmode =
      (if s.psygene = true then (if s.FEDmode = 4 then 0 else s.FEDmode)
       else (if s.FEDmode = 12 then 0 else s.FEDmode)) ∧
    (SelectMode.wrapAbove s).psygene = s.psygene := by
  unfold SelectMode.wrapAbove
  split_ifs <;> exact ⟨rfl, rfl⟩

theorem SelectMode.doubleCheck_FEDmode (s : FED3) :
    (SelectMode.doubleCheck s).FEDmode =
      (if s.psygene = true then (if s.FEDmode > 3 then 3 else s.FEDmode)
       else (if s.FEDmode > 11 then 11 else s.FEDmode)) := by
  have hf : SelectMode.floorMode s = s := by
    unfold SelectMode.floorMode
    have h : ¬ ((s.FEDmode : Int) < 0) := by omega
    rw [if_neg h]
  unfold SelectMode.doubleCheck SelectMode.capMode
  rw [hf]
  split_ifs <;> rfl

/-- C12. In one `SelectMode` step, with the mode index `FEDmode` (a `byte`) in `[0, N-1]`,
`N` being 4 with `psygene` and 12 otherwise: with only the left poke pressed the new index is
`(FEDmode - 1) mod N`, so 0 wraps to `N-1`; with only the right poke pressed it is
`(FEDmode + 1) mod N`, so `N-1` wraps to 0. Neither step enters the device-number flow. -/
theorem SelectMode_step_wraps (s : FED3) (p : SelectPoll) (hm : s.FEDmode < modeCount s) :
    (p.left1 = Level.LOW → p.right1 = Level.HIGH → p.left2 = Level.LOW →
      ((SelectMode.step s p).1.FEDmode : Int) = ((s.FEDmode : Int) - 1) % (modeCount s : Int) ∧
      (SelectMode.step s p).2 = false) ∧
    (p.left1 = Level.HIGH → p.left2 = Level.HIGH → p.right2 = Level.LOW →
      ((SelectMode.step s p).1.FEDmode : Int) = ((s.FEDmode : Int) + 1) % (modeCount s : Int) ∧
      (SelectMode.step s p).2 = false) := by
  constructor
  · intro hl1 hr1 hl2
    rw [SelectMode.step_left s p (by rw [hr1]; simp) hl2]
    refine ⟨?_, rfl⟩
    show ((SelectMode.doubleCheck _).FEDmode : Int) = _
    rw [SelectMode.doubleCheck_FEDmode, (SelectMode.wrapBelow_FEDmode _).1,
      (SelectMode.wrapBelow_FEDmode _).2]
    show ((if s.psygene = true then (if (s.FEDmode + 255) % 256 > 3 then 3
        else (s.FEDmode + 255) % 256)
      else (if (s.FEDmode + 255) % 256 > 11 then 11 else (s.FEDmode + 255) % 256) : Nat) : Int)
      = _
    unfold modeCount at hm ⊢
    cases hp : s.psygene <;> simp only [hp, if_true, if_false, Bool.false_eq_true] at hm ⊢ <;>
      split_ifs <;> omega
  · intro hl1 hl2 hr2
    rw [SelectMode.step_right s p (by rw [hl1]; simp) (by rw [hl2]; simp) hr2]
    refine ⟨?_, rfl⟩
    show ((SelectMode.doubleCheck _).FEDmode : Int) = _
    rw [SelectMode.doubleCheck_FEDmode, (SelectMode.wrapAbove_FEDmode _).1,
      (SelectMode.wrapAbove_FEDmode _).2]
    show ((if s.psygene = true then
        (if (if s.psygene = true then (if (s.FEDmode + 1) % 256 = 4 then 0
            else (s.FEDmode + 1) % 256)
          else (if (s.FEDmode + 1) % 256 = 12 then 0 else (s.FEDmode + 1) % 256)) > 3 then 3
        else (if s.psygene = true then (if (s.FEDmode + 1) % 256 = 4 then 0
            else (s.FEDmode + 1) % 256)
          else (if (s.FEDmode + 1) % 256 = 12 then 0 else (s.FEDmode + 1) % 256)))
      else
        (if (if s.psygene = true then (if (s.FEDmode + 1) % 256 = 4 then 0
            else (s.FEDmode + 1) % 256)
          else (if (s.FEDmode + 1) % 256 = 12 then 0 else (s.FEDmode + 1) % 256)) > 11 then 11
        else (if s.psygene = true then (if (s.FEDmode + 1) % 256 = 4 then 0
            else (s.FEDmode + 1) % 256)
          else (if (s.FEDmode + 1) % 256 = 12 then 0 else (s.FEDmode + 1) % 256))) : Nat) : Int)
      = _
    unfold modeCount at hm ⊢
    cases hp : s.psygene <;> simp only [hp, if_true, if_false, Bool.false_eq_true] at hm ⊢ <;>
      split_ifs <;> omega

/-- Witness of C12: with 12 modes, a left press at mode 0 gives mode 11 and a right press at
mode 11 gives mode 0. -/
theorem SelectMode_step_wraps_witness :
    ((SelectMode.step (modeState 0) (selectLeftPress 100)).1.FEDmode = 11 ∧
      (SelectMode.step (modeState 11) (selectRightPress 100)).1.FEDmode = 0) ∧
    (((SelectMode.step (modeState 0) (selectLeftPress 100)).1.FEDmode : Int)
        = (((modeState 0).FEDmode : Int) - 1) % (modeCount (modeState 0) : Int) ∧
      ((SelectMode.step (modeState 11) (selectRightPress 100)).1.FEDmode : Int)
        = (((modeState 11).FEDmode : Int) + 1) % (modeCount (modeState 11) : Int)) :=
  ⟨by decide,
   ((SelectMode_step_wraps (modeState 0) (selectLeftPress 100) (by decide)).1 rfl rfl rfl).1,
   ((SelectMode_step_wraps (modeState 11) (selectRightPress 100) (by decide)).2 rfl rfl rfl).1⟩

/-! ## Timed feeding window -/

theorem SetDeviceNumber.timedLeft_hours (s : FED3) (t : Int) :
    (SetDeviceNumber.timedLeft s t).timedStart =
      (if wrapInt32 (s.timedStart + 1) > 24 then 0 else wrapInt32 (s.timedStart + 1)) ∧
    (SetDeviceNumber.timedLeft s t).timedEnd =
      (if (if wrapInt32 (s.timedStart + 1) > 24 then 0 else wrapInt32 (s.timedStart + 1))
          > s.timedEnd then
        wrapInt32 ((if wrapInt32 (s.timedStart + 1) > 24 then 0
          else wrapInt32 (s.timedStart + 1)) + 1)
       else s.timedEnd) := by
  unfold SetDeviceNumber.timedLeft SetDeviceNumber.pushEnd SetDeviceNumber.wrapStart
  simp only []
  split_ifs <;> exact ⟨rfl, rfl⟩

theorem SetDeviceNumber.timedRight_hours (s : FED3) (t : Int) :
    (SetDeviceNumber.timedRight s t).timedEnd =
      (if wrapInt32 (s.timedEnd + 1) > 24 then 0 else wrapInt32 (s.timedEnd + 1)) ∧
    (SetDeviceNumber.timedRight s t).timedStart =
      (if s.timedStart >
          (if wrapInt32 (s.timedEnd + 1) > 24 then 0 else wrapInt32 (s.timedEnd + 1)) then
        wrapInt32 ((if wrapInt32 (s.timedEnd + 1) > 24 then 0
          else wrapInt32 (s.timedEnd + 1)) - 1)
       else s.timedStart) := by
  unfold SetDeviceNumber.timedRight SetDeviceNumber.pushStart SetDeviceNumber.wrapEnd
  simp only []
  split_ifs <;> exact ⟨rfl, rfl⟩

/-- After the left block of the timed-window loop the start hour is at most the end hour, and
an end hour that can be incremented without overflow stays so. -/
theorem SetDeviceNumber.timedLeft_ordered (s : FED3) (t : Int) :
    (SetDeviceNumber.timedLeft s t).timedStart ≤ (SetDeviceNumber.timedLeft s t).timedEnd ∧
    (-2147483648 ≤ s.timedEnd → s.timedEnd < 2147483647 →
      -2147483648 ≤ (SetDeviceNumber.timedLeft s t).timedEnd ∧
      (SetDeviceNumber.timedLeft s t).timedEnd < 2147483647) := by
  obtain ⟨h1, h2⟩ := SetDeviceNumber.timedLeft_hours s t
  rw [h1, h2]
  unfold wrapInt32
  constructor
  · split_ifs <;> omega
  · intro a b; split_ifs <;> omega

/-- After the right block of the timed-window loop the start hour is at most the end hour,
when the end hour can be incremented without overflow. -/
theorem SetDeviceNumber.timedRight_ordered (s : FED3) (t : Int)
    (h0 : -2147483648 ≤ s.timedEnd) (h1 : s.timedEnd < 2147483647) :
    (SetDeviceNumber.timedRight s t).timedStart ≤ (SetDeviceNumber.timedRight s t).timedEnd := by
  obtain ⟨e1, e2⟩ := SetDeviceNumber.timedRight_hours s t
  rw [e1, e2]
  unfold wrapInt32
  split_ifs <;> omega

/-- C13 (amended). In the timed-window loop of `SetDeviceNumber`, after a pass in which at
least one poke is pressed, `timedStart <= timedEnd`, whatever `timedStart` was: for every
`int` value of `timedEnd` when the right poke is not pressed, and for every value of
`timedEnd` below `INT_MAX` (every value that `timedEnd += 1` can increment) when it is. -/
theorem SetDeviceNumber_timed_start_le_end (s : FED3) (p : TimedPoll)
    (hpress : p.left = Level.LOW ∨ p.right = Level.LOW)
    (h0 : -2147483648 ≤ s.timedEnd) (h1 : s.timedEnd < 2147483647 ∨ p.right ≠ Level.LOW) :
    (SetDeviceNumber.timedAdjust s p).timedStart ≤ (SetDeviceNumber.timedAdjust s p).timedEnd := by
  unfold SetDeviceNumber.timedAdjust
  by_cases hl : p.left = Level.LOW
  · by_cases hr : p.right = Level.LOW
    · have h2 : s.timedEnd < 2147483647 := h1.resolve_right (fun h => h hr)
      simp only [hl, hr, if_true]
      obtain ⟨-, hrange⟩ := SetDeviceNumber.timedLeft_ordered s p.tLeft
      exact SetDeviceNumber.timedRight_ordered _ _ (hrange h0 h2).1 (hrange h0 h2).2
    · simp only [hl, hr, if_true, if_false]
      exact (SetDeviceNumber.timedLeft_ordered s p.tLeft).1
  · have hr : p.right = Level.LOW := hpress.resolve_left hl
    have h2 : s.timedEnd < 2147483647 := h1.resolve_right (fun h => h hr)
    simp only [hl, hr, if_true, if_false]
    exact SetDeviceNumber.timedRight_ordered s p.tRight h0 h2

/-- Witness of C13: from start hour 9 and end hour 9 a left press gives 10 and 11; from start
hour 5 and end hour 24 a right press wraps the end hour to 0 and pushes the start hour
below it; from start hour 5 and the end hour at `INT_MAX` a left press keeps the order. -/
theorem SetDeviceNumber_timed_start_le_end_witness :
    ((SetDeviceNumber.timedAdjust (timedState 9 9) (timedLeftPress 100)).timedStart = 10 ∧
      (SetDeviceNumber.timedAdjust (timedState 9 9) (timedLeftPress 100)).timedEnd = 11) ∧
    (SetDeviceNumber.timedAdjust (timedState 5 24) (timedRightPress 100)).timedStart
      ≤ (SetDeviceNumber.timedAdjust (timedState 5 24) (timedRightPress 100)).timedEnd ∧
    (SetDeviceNumber.timedAdjust (timedState 5 2147483647) (timedLeftPress 100)).timedStart
      ≤ (SetDeviceNumber.timedAdjust (timedState 5 2147483647) (timedLeftPress 100)).timedEnd :=
  ⟨by decide,
   SetDeviceNumber_timed_start_le_end (timedState 5 24) (timedRightPress 100)
     (Or.inr rfl) (by decide) (Or.inl (by decide)),
   SetDeviceNumber_timed_start_le_end (timedState 5 2147483647) (timedLeftPress 100)
     (Or.inl rfl) (by decide) (Or.inr (by decide))⟩

/-- Counterexample to C13: from start hour 5 and the end hour at `INT_MAX`, a value that
`stop.csv` can hold, a right press makes `timedEnd += 1` wrap to `INT_MIN`, and
`timedStart = timedEnd - 1` wrap to `INT_MAX`: the start hour is above the end hour after the
pass. The same with both pokes pressed. -/
theorem SetDeviceNumber_timed_end_at_int_max :
    (SetDeviceNumber.timedAdjust (timedState 5 2147483647) (timedRightPress 100)).timedStart
      = 2147483647 ∧
    (SetDeviceNumber.timedAdjust (timedState 5 2147483647) (timedRightPress 100)).timedEnd
      = -2147483648 ∧
    ¬ ((SetDeviceNumber.timedAdjust (timedState 5 2147483647) (timedRightPress 100)).timedStart
      ≤ (SetDeviceNumber.timedAdjust (timedState 5 2147483647) (timedRightPress 100)).timedEnd) ∧
    ¬ ((SetDeviceNumber.timedAdjust (timedState 5 2147483647) (timedBothPress 100)).timedStart
      ≤ (SetDeviceNumber.timedAdjust (timedState 5 2147483647) (timedBothPress 100)).timedEnd) := by
  decide

/-- C14 (evaluation at the failing inputs). From start hour 23 and end hour 23, both in
`[0, 23]`, one left press gives start hour 24 and end hour 25. From start hour 5 and end hour
23, two right presses give end hour 0 and start hour -1. -/
theorem SetDeviceNumber_timed_hours_leave_range :
    ((SetDeviceNumber.timedAdjust (timedState 23 23) (timedLeftPress 100)).timedStart = 24 ∧
      (SetDeviceNumber.timedAdjust (timedState 23 23) (timedLeftPress 100)).timedEnd = 25) ∧
    ((SetDeviceNumber.timedPhase (timedState 5 23)
        [timedRightPress 100, timedRightPress 300]).timedStart = -1 ∧
      (SetDeviceNumber.timedPhase (timedState 5 23)
        [timedRightPress 100, timedRightPress 300]).timedEnd = 0) := by
  decide

/-! ## Inter-delivery interval -/

theorem FeedLeft_eq (s : FED3) (steps pulse : Int) (pixelsoff : Bool) (t0 t1 : Int)
    (env : LogEnv) :
    FeedLeft s steps pulse pixelsoff t0 t1 env =
      logdata { s with
        numMotorTurnsLeft := 0
        LeftDropTime := u32 t0
        retInterval := wrapInt32 (u32 (u32 t1 - u32 t0))
        LeftDeliverCount := wrapInt32 (s.LeftDeliverCount + 1)
        TotalDeliverCount := wrapInt32 (s.TotalDeliverCount + 1)
        Event := "LeftDeliver"
        LeftDropAvailable := true } env := rfl

theorem FeedRight_eq (s : FED3) (steps pulse : Int) (pixelsoff : Bool) (t0 t1 nowTime : Int)
    (env : LogEnv) :
    FeedRight s steps pulse pixelsoff t0 t1 nowTime env =
      { logdata { s with
          numMotorTurnsRight := 0
          RightDropTime := u32 t0
          retInterval := wrapInt32 (u32 (u32 t1 - u32 t0))
          RightDeliverCount := wrapInt32 (s.RightDeliverCount + 1)
          TotalDeliverCount := wrapInt32 (s.TotalDeliverCount + 1)
          Event := "RightDeliver"
          interPelletInterval := wrapInt32 (nowTime - s.lastPellet)
          lastPellet := u32 nowTime } env
        with RightDropAvailable := true } := rfl

/-- C15 (the two delivery paths side by side). `FeedRight` sets `interPelletInterval` to
`now - lastPellet`, with `lastPellet` from before the call, and then `lastPellet` to `now`;
`FeedLeft` reads no `now()` and leaves `interPelletInterval` and `lastPellet` as they were,
while it counts the delivery and logs it as `"LeftDeliver"`. -/
theorem FeedLeft_keeps_interPelletInterval (s : FED3) (steps pulse : Int) (pixelsoff : Bool)
    (t0 t1 nowTime : Int) (env : LogEnv) :
    ((FeedRight s steps pulse pixelsoff t0 t1 nowTime env).interPelletInterval
        = wrapInt32 (nowTime - s.lastPellet) ∧
      (FeedRight s steps pulse pixelsoff t0 t1 nowTime env).lastPellet = u32 nowTime) ∧
    ((FeedLeft s steps pulse pixelsoff t0 t1 env).interPelletInterval = s.interPelletInterval ∧
      (FeedLeft s steps pulse pixelsoff t0 t1 env).lastPellet = s.lastPellet ∧
      (FeedLeft s steps pulse pixelsoff t0 t1 env).TotalDeliverCount
        = wrapInt32 (s.TotalDeliverCount + 1) ∧
      (FeedLeft s steps pulse pixelsoff t0 t1 env).Event = "LeftDeliver") :=
  ⟨⟨rfl, rfl⟩, rfl, rfl, rfl, rfl⟩

/-! ## Poke calls that return at the pin test -/

/-- C20 (evaluation at the failing input). A call of `logLeftPoke` that reads `LEFT_POKE` as
`LOW` returns at its pin test: it logs no line and leaves `Event` as it was, so no event of
kind `"LeftShort"` or `"LeftPoke"` is produced, while `LeftCount` is incremented; the same
holds for `logRightPoke` and `RIGHT_POKE`. -/
theorem logPoke_returns_at_pin_test (s : FED3) (t0 t1 : Int) (env : LogEnv) :
    ((logLeftPoke s t0 Level.LOW t1 env).log = s.log ∧
      (logLeftPoke s t0 Level.LOW t1 env).Event = s.Event ∧
      (logLeftPoke s t0 Level.LOW t1 env).LeftCount = wrapInt32 (s.LeftCount + 1)) ∧
    ((logRightPoke s t0 Level.LOW t1 env).log = s.log ∧
      (logRightPoke s t0 Level.LOW t1 env).Event = s.Event ∧
      (logRightPoke s t0 Level.LOW t1 env).RightCount = wrapInt32 (s.RightCount + 1)) :=
  ⟨⟨rfl, rfl, rfl⟩, rfl, rfl, rfl⟩

/-! ## Pokes during a timeout -/

theorem Timeout.wait_eq (n : Nat) (s : FED3) : Timeout.wait n s = s := by
  induction n with
  | zero => rfl
  | succ n ih => rw [Timeout.wait, ih]

theorem wrapInt32_range (x : Int) :
    -2147483648 ≤ wrapInt32 x ∧ wrapInt32 x ≤ 2147483647 := by
  unfold wrapInt32; omega

theorem wrapInt32_add_wrap (a b : Int) : wrapInt32 (wrapInt32 a + b) = wrapInt32 (a + b) := by
  unfold wrapInt32; omega

theorem countEvent_single (k k' : String) (rec : Record)
    (h : rec.field Column.event = some (Value.text k')) :
    countEvent k [rec] = if k' = k then 1 else 0 := by
  unfold countEvent
  simp only [List.filter_cons, List.filter_nil, h]
  by_cases e : k' = k
  · subst e; simp
  · have : (some (Value.text k') == some (Value.text k)) = false := by simp [e]
    simp [this, e]

theorem Timeout.leftPoke_record (s : FED3) (reset : Bool) (ts : Int) (p : TimeoutPass) :
    (∃ rec, (Timeout.leftPoke s reset ts p).1.log = s.log ++ [rec] ∧
      rec.field Column.event = some (Value.text "LeftinTimeOut")) ∧
    (Timeout.leftPoke s reset ts p).1.countAllPokes = s.countAllPokes ∧
    (Timeout.leftPoke s reset ts p).1.LeftCount
      = (if s.countAllPokes = true then wrapInt32 (s.LeftCount + 1) else s.LeftCount) ∧
    (Timeout.leftPoke s reset ts p).1.RightCount = s.RightCount := by
  by_cases h : s.countAllPokes = true
  · simp only [Timeout.leftPoke, Timeout.countLeft, Timeout.wait_eq, if_pos h]
    exact ⟨⟨_, logdata_log _ _, logdataFields_event _ _⟩, rfl, rfl, rfl⟩
  · simp only [Timeout.leftPoke, Timeout.countLeft, Timeout.wait_eq, if_neg h]
    exact ⟨⟨_, logdata_log _ _, logdataFields_event _ _⟩, rfl, rfl, rfl⟩

theorem Timeout.rightPoke_record (s : FED3) (reset : Bool) (ts : Int) (p : TimeoutPass) :
    (∃ rec, (Timeout.rightPoke s reset ts p).1.log = s.log ++ [rec] ∧
      rec.field Column.event = some (Value.text "RightinTimeout")) ∧
    (Timeout.rightPoke s reset ts p).1.countAllPokes = s.countAllPokes ∧
    (Timeout.rightPoke s reset ts p).1.LeftCount = s.LeftCount ∧
    (Timeout.rightPoke s reset ts p).1.RightCount
      = (if s.countAllPokes = true then wrapInt32 (s.RightCount + 1) else s.RightCount) := by
  by_cases h : s.countAllPokes = true
  · simp only [Timeout.rightPoke, Timeout.countRight, Timeout.wait_eq, if_pos h]
    exact ⟨⟨_, logdata_log _ _, logdataFields_event _ _⟩, rfl, rfl, rfl⟩
  · simp only [Timeout.rightPoke, Timeout.countRight, Timeout.wait_eq, if_neg h]
    exact ⟨⟨_, logdata_log _ _, logdataFields_event _ _⟩, rfl, rfl, rfl⟩

theorem Timeout.accounts_refl (a : FED3) (hL : -2147483648 ≤ a.LeftCount ∧ a.LeftCount ≤ 2147483647)
    (hR : -2147483648 ≤ a.RightCount ∧ a.RightCount ≤ 2147483647) :
    a.log = a.log ++ ([] : List Record) ∧
    (∀ rec ∈ ([] : List Record), rec.field Column.event = some (Value.text "LeftinTimeOut") ∨
      rec.field Column.event = some (Value.text "RightinTimeout")) ∧
    a.countAllPokes = a.countAllPokes ∧
    a.LeftCount = (if a.countAllPokes = true then
      wrapInt32 (a.LeftCount + countEvent "LeftinTimeOut" ([] : List Record)) else a.LeftCount) ∧
    a.RightCount = (if a.countAllPokes = true then
      wrapInt32 (a.RightCount + countEvent "RightinTimeout" ([] : List Record)) else a.RightCount) := by
  refine ⟨by simp, by simp, rfl, ?_, ?_⟩
  · simp [countEvent, wrapInt32_of_range _ hL.1 hL.2]
  · simp [countEvent, wrapInt32_of_range _ hR.1 hR.2]

theorem Timeout.accounts_trans (a b c : FED3) (x y : List Record)
    (hab : b.log = a.log ++ x ∧
      (∀ rec ∈ x, rec.field Column.event = some (Value.text "LeftinTimeOut") ∨
        rec.field Column.event = some (Value.text "RightinTimeout")) ∧
      b.countAllPokes = a.countAllPokes ∧
      b.LeftCount = (if a.countAllPokes = true then
        wrapInt32 (a.LeftCount + countEvent "LeftinTimeOut" x) else a.LeftCount) ∧
      b.RightCount = (if a.countAllPokes = true then
        wrapInt32 (a.RightCount + countEvent "RightinTimeout" x) else a.RightCount))
    (hbc : c.log = b.log ++ y ∧
      (∀ rec ∈ y, rec.field Column.event = some (Value.text "LeftinTimeOut") ∨
        rec.field Column.event = some (Value.text "RightinTimeout")) ∧
      c.countAllPokes = b.countAllPokes ∧
      c.LeftCount = (if b.countAllPokes = true then
        wrapInt32 (b.LeftCount + countEvent "LeftinTimeOut" y) else b.LeftCount) ∧
      c.RightCount = (if b.countAllPokes = true then
        wrapInt32 (b.RightCount + countEvent "RightinTimeout" y) else b.RightCount)) :
    c.log = a.log ++ (x ++ y) ∧
    (∀ rec ∈ (x ++ y), rec.field Column.event = some (Value.text "LeftinTimeOut") ∨
      rec.field Column.event = some (Value.text "RightinTimeout")) ∧
    c.countAllPokes = a.countAllPokes ∧
    c.LeftCount = (if a.countAllPokes = true then
      wrapInt32 (a.LeftCount + countEvent "LeftinTimeOut" (x ++ y)) else a.LeftCount) ∧
    c.RightCount = (if a.countAllPokes = true then
      wrapInt32 (a.RightCount + countEvent "RightinTimeout" (x ++ y)) else a.RightCount) := by
  obtain ⟨h1, h2, h3, h4, h5⟩ := hab
  obtain ⟨k1, k2, k3, k4, k5⟩ := hbc
  refine ⟨by rw [k1, h1, List.append_assoc], ?_, k3.trans h3, ?_, ?_⟩
  · intro rec hrec
    rcases List.mem_append.mp hrec with h | h
    · exact h2 rec h
    · exact k2 rec h
  · rw [k4, h3, h4, countEvent_append]
    split_ifs
    · rw [wrapInt32_add_wrap]; congr 1; push_cast; ring
    · rfl
  · rw [k5, h3, h5, countEvent_append]
    split_ifs
    · rw [wrapInt32_add_wrap]; congr 1; push_cast; ring
    · rfl

theorem Timeout.accounts_range (a b : FED3) (x : List Record)
    (hL : -2147483648 ≤ a.LeftCount ∧ a.LeftCount ≤ 2147483647)
    (hR : -2147483648 ≤ a.RightCount ∧ a.RightCount ≤ 2147483647)
    (hab : b.log = a.log ++ x ∧
      (∀ rec ∈ x, rec.field Column.event = some (Value.text "LeftinTimeOut") ∨
        rec.field Column.event = some (Value.text "RightinTimeout")) ∧
      b.countAllPokes = a.countAllPokes ∧
      b.LeftCount = (if a.countAllPokes = true then
        wrapInt32 (a.LeftCount + countEvent "LeftinTimeOut" x) else a.LeftCount) ∧
      b.RightCount = (if a.countAllPokes = true then
        wrapInt32 (a.RightCount + countEvent "RightinTimeout" x) else a.RightCount)) :
    (-2147483648 ≤ b.LeftCount ∧ b.LeftCount ≤ 2147483647) ∧
    (-2147483648 ≤ b.RightCount ∧ b.RightCount ≤ 2147483647) := by
  obtain ⟨_, _, _, h4, h5⟩ := hab
  rw [h4, h5]
  constructor
  · split_ifs
    · exact wrapInt32_range _
    · exact hL
  · split_ifs
    · exact wrapInt32_range _
    · exact hR

theorem Timeout.leftPoke_accounts (s : FED3) (reset : Bool) (ts : Int) (p : TimeoutPass)
    (hR : -2147483648 ≤ s.RightCount ∧ s.RightCount ≤ 2147483647) :
    ∃ added, (Timeout.leftPoke s reset ts p).1.log = s.log ++ added ∧
      (∀ rec ∈ added, rec.field Column.event = some (Value.text "LeftinTimeOut") ∨
        rec.field Column.event = some (Value.text "RightinTimeout")) ∧
      (Timeout.leftPoke s reset ts p).1.countAllPokes = s.countAllPokes ∧
      (Timeout.leftPoke s reset ts p).1.LeftCount = (if s.countAllPokes = true then
        wrapInt32 (s.LeftCount + countEvent "LeftinTimeOut" added) else s.LeftCount) ∧
      (Timeout.leftPoke s reset ts p).1.RightCount = (if s.countAllPokes = true then
        wrapInt32 (s.RightCount + countEvent "RightinTimeout" added) else s.RightCount) := by
  obtain ⟨⟨rec, h1, h2⟩, h3, h4, h5⟩ := Timeout.leftPoke_record s reset ts p
  refine ⟨[rec], h1, ?_, h3, ?_, ?_⟩
  · intro r hr
    rw [List.mem_singleton] at hr
    rw [hr]; exact Or.inl h2
  · rw [h4, countEvent_single _ _ _ h2]; simp
  · rw [h5, countEvent_single _ _ _ h2]
    simp +decide [wrapInt32_of_range _ hR.1 hR.2]

theorem Timeout.rightPoke_accounts (s : FED3) (reset : Bool) (ts : Int) (p : TimeoutPass)
    (hL : -2147483648 ≤ s.LeftCount ∧ s.LeftCount ≤ 2147483647) :
    ∃ added, (Timeout.rightPoke s reset ts p).1.log = s.log ++ added ∧
      (∀ rec ∈ added, rec.field Column.event = some (Value.text "LeftinTimeOut") ∨
        rec.field Column.event = some (Value.text "RightinTimeout")) ∧
      (Timeout.rightPoke s reset ts p).1.countAllPokes = s.countAllPokes ∧
      (Timeout.rightPoke s reset ts p).1.LeftCount = (if s.countAllPokes = true then
        wrapInt32 (s.LeftCount + countEvent "LeftinTimeOut" added) else s.LeftCount) ∧
      (Timeout.rightPoke s reset ts p).1.RightCount = (if s.countAllPokes = true then
        wrapInt32 (s.RightCount + countEvent "RightinTimeout" added) else s.RightCount) := by
  obtain ⟨⟨rec, h1, h2⟩, h3, h4, h5⟩ := Timeout.rightPoke_record s reset ts p
  refine ⟨[rec], h1, ?_, h3, ?_, ?_⟩
  · intro r hr
    rw [List.mem_singleton] at hr
    rw [hr]; exact Or.inr h2
  · rw [h4, countEvent_single _ _ _ h2]
    simp +decide [wrapInt32_of_range _ hL.1 hL.2]
  · rw [h5, countEvent_single _ _ _ h2]; simp

theorem Timeout.pass_accounts (reset : Bool) (r : FED3 × Int) (p : TimeoutPass)
    (hL : -2147483648 ≤ r.1.LeftCount ∧ r.1.LeftCount ≤ 2147483647)
    (hR : -2147483648 ≤ r.1.RightCount ∧ r.1.RightCount ≤ 2147483647) :
    ∃ added, (Timeout.pass reset r p).1.log = r.1.log ++ added ∧
      (∀ rec ∈ added, rec.field Column.event = some (Value.text "LeftinTimeOut") ∨
        rec.field Column.event = some (Value.text "RightinTimeout")) ∧
      (Timeout.pass reset r p).1.countAllPokes = r.1.countAllPokes ∧
      (Timeout.pass reset r p).1.LeftCount = (if r.1.countAllPokes = true then
        wrapInt32 (r.1.LeftCount + countEvent "LeftinTimeOut" added) else r.1.LeftCount) ∧
      (Timeout.pass reset r p).1.RightCount = (if r.1.countAllPokes = true then
        wrapInt32 (r.1.RightCount + countEvent "RightinTimeout" added) else r.1.RightCount) := by
  unfold Timeout.pass
  simp only []
  by_cases hl : p.left = Level.LOW
  · rw [if_pos hl]
    obtain ⟨x, hx⟩ := Timeout.leftPoke_accounts r.1 reset r.2 p hR
    by_cases hr : p.right = Level.LOW
    · rw [if_pos hr]
      obtain ⟨m1, _⟩ := Timeout.accounts_range _ _ _ hL hR hx
      obtain ⟨y, hy⟩ := Timeout.rightPoke_accounts (Timeout.leftPoke r.1 reset r.2 p).1 reset
        (Timeout.leftPoke r.1 reset r.2 p).2 p m1
      exact ⟨x ++ y, Timeout.accounts_trans _ _ _ _ _ hx hy⟩
    · rw [if_neg hr]; exact ⟨x, hx⟩
  · rw [if_neg hl]
    by_cases hr : p.right = Level.LOW
    · rw [if_pos hr]; exact Timeout.rightPoke_accounts r.1 reset r.2 p hL
    · rw [if_neg hr]; exact ⟨[], Timeout.accounts_refl r.1 hL hR⟩

theorem Timeout.loop_accounts (seconds : Int) (reset : Bool) (passes : List TimeoutPass) :
    ∀ r : FED3 × Int, (-2147483648 ≤ r.1.LeftCount ∧ r.1.LeftCount ≤ 2147483647) →
      (-2147483648 ≤ r.1.RightCount ∧ r.1.RightCount ≤ 2147483647) →
      ∃ added, (Timeout.loop seconds reset r passes).1.log = r.1.log ++ added ∧
        (∀ rec ∈ added, rec.field Column.event = some (Value.text "LeftinTimeOut") ∨
          rec.field Column.event = some (Value.text "RightinTimeout")) ∧
        (Timeout.loop seconds reset r passes).1.countAllPokes = r.1.countAllPokes ∧
        (Timeout.loop seconds reset r passes).1.LeftCount = (if r.1.countAllPokes = true then
          wrapInt32 (r.1.LeftCount + countEvent "LeftinTimeOut" added) else r.1.LeftCount) ∧
        (Timeout.loop seconds reset r passes).1.RightCount = (if r.1.countAllPokes = true then
          wrapInt32 (r.1.RightCount + countEvent "RightinTimeout" added) else r.1.RightCount) := by
  induction passes with
  | nil => intro r hL hR; exact ⟨[], Timeout.accounts_refl r.1 hL hR⟩
  | cons p ps ih =>
    intro r hL hR
    rw [Timeout.loop]
    by_cases hc : u32 (u32 p.tLoop - u32 r.2) < u32 (u32 seconds * 1000)
    · rw [if_pos hc]
      obtain ⟨x, hx⟩ := Timeout.pass_accounts reset r p hL hR
      obtain ⟨m1, m2⟩ := Timeout.accounts_range _ _ _ hL hR hx
      obtain ⟨y, hy⟩ := ih (Timeout.pass reset r p) m1 m2
      exact ⟨x ++ y, Timeout.accounts_trans _ _ _ _ _ hx hy⟩
    · rw [if_neg hc]; exact ⟨[], Timeout.accounts_refl r.1 hL hR⟩

/-- C18 (what holds of the code, and the failing input). Every execution of a poke branch of
`Timeout` logs with a timeout event kind and counts only under `countAllPokes`: the left
branch appends exactly one record, whose event is "LeftinTimeOut", and the right branch one
record whose event is "RightinTimeout"; the count of the side grows by one when
`countAllPokes` is set (exactly `+ 1` below the largest `int`) and keeps its value when it is
clear, and the count of the other side keeps its value. Over a whole call every appended
record has one of the two timeout kinds, and each count has grown by the number of records of
its kind when `countAllPokes` is set and is unchanged when it is clear. The count is one per
execution of the branch, not one per poke: the right branch does not wait for the right poke
to be released, so one hold of the right poke from 100 ms to 400 ms, the left poke released,
met by three passes of the loop, leaves `RightCount` at 3 and three "RightinTimeout" records,
under `countAllPokes`. -/
theorem Timeout_pokes_logged_as_timeout (s : FED3) (seconds : Int) (reset whitenoise : Bool)
    (t0 ts : Int) (p : TimeoutPass) (passes : List TimeoutPass)
    (hL : -2147483648 ≤ s.LeftCount ∧ s.LeftCount ≤ 2147483647)
    (hR : -2147483648 ≤ s.RightCount ∧ s.RightCount ≤ 2147483647) :
    ((∃ rec, (Timeout.leftPoke s reset ts p).1.log = s.log ++ [rec] ∧
        rec.field Column.event = some (Value.text "LeftinTimeOut")) ∧
      (s.countAllPokes = true → s.LeftCount < 2147483647 →
        (Timeout.leftPoke s reset ts p).1.LeftCount = s.LeftCount + 1) ∧
      (s.countAllPokes = false → (Timeout.leftPoke s reset ts p).1.LeftCount = s.LeftCount) ∧
      (Timeout.leftPoke s reset ts p).1.RightCount = s.RightCount) ∧
    ((∃ rec, (Timeout.rightPoke s reset ts p).1.log = s.log ++ [rec] ∧
        rec.field Column.event = some (Value.text "RightinTimeout")) ∧
      (s.countAllPokes = true → s.RightCount < 2147483647 →
        (Timeout.rightPoke s reset ts p).1.RightCount = s.RightCount + 1) ∧
      (s.countAllPokes = false → (Timeout.rightPoke s reset ts p).1.RightCount = s.RightCount) ∧
      (Timeout.rightPoke s reset ts p).1.LeftCount = s.LeftCount) ∧
    (∃ added, (Timeout s seconds reset whitenoise t0 passes).log = s.log ++ added ∧
      (∀ rec ∈ added, rec.field Column.event = some (Value.text "LeftinTimeOut") ∨
        rec.field Column.event = some (Value.text "RightinTimeout")) ∧
      (Timeout s seconds reset whitenoise t0 passes).LeftCount = (if s.countAllPokes = true then
        wrapInt32 (s.LeftCount + countEvent "LeftinTimeOut" added) else s.LeftCount) ∧
      (Timeout s seconds reset whitenoise t0 passes).RightCount = (if s.countAllPokes = true then
        wrapInt32 (s.RightCount + countEvent "RightinTimeout" added) else s.RightCount)) ∧
    ((Timeout countingStart 1 false false 0 rightHoldPasses).RightCount = 3 ∧
      countEvent "RightinTimeout" (Timeout countingStart 1 false false 0 rightHoldPasses).log
        = 3) := by
  obtain ⟨a1, _, a3, a4⟩ := Timeout.leftPoke_record s reset ts p
  obtain ⟨b1, _, b3, b4⟩ := Timeout.rightPoke_record s reset ts p
  refine ⟨⟨a1, ?_, ?_, a4⟩, ⟨b1, ?_, ?_, b3⟩, ?_, by decide, by decide⟩
  · intro hc hlt
    rw [a3, if_pos hc, wrapInt32_of_range _ (by omega) (by omega)]
  · intro hc
    rw [a3, hc]; rfl
  · intro hc hlt
    rw [b4, if_pos hc, wrapInt32_of_range _ (by omega) (by omega)]
  · intro hc
    rw [b4, hc]; rfl
  · obtain ⟨added, h1, h2, _, h4, h5⟩ :=
      Timeout.loop_accounts seconds reset passes (s, wrapInt32 t0) hL hR
    exact ⟨added, h1, h2, h4, h5⟩

/-- Witness of C18: with `countAllPokes` set and both counts at zero, a one-second timeout
whose first pass detects a left poke and then a right poke logs the two timeout records and
counts one poke on each side. -/
theorem Timeout_pokes_logged_as_timeout_witness :
    (Timeout countingStart 1 false false 0 [bothPokesPass]).LeftCount = 1 ∧
    (Timeout countingStart 1 false false 0 [bothPokesPass]).RightCount = 1 ∧
    ((Timeout countingStart 1 false false 0 [bothPokesPass]).log.map
      (fun rec => rec.field Column.event)) =
      [some (Value.text "LeftinTimeOut"), some (Value.text "RightinTimeout")] ∧
    (∃ added, (Timeout countingStart 1 false false 0 [bothPokesPass]).log
      = countingStart.log ++ added ∧
      ∀ rec ∈ added, rec.field Column.event = some (Value.text "LeftinTimeOut") ∨
        rec.field Column.event = some (Value.text "RightinTimeout")) :=
  ⟨by decide, by decide, by decide,
    (Timeout_pokes_logged_as_timeout countingStart 1 false false 0 0 bothPokesPass
      [bothPokesPass] (by decide) (by decide)).2.2.1.imp (fun _ h => ⟨h.1, h.2.1⟩)⟩

/-! ## First delivery of a session -/

theorem logdataFields_interPelletInterval (s : FED3) (env : LogEnv) :
    (logdataFields s env).field Column.interPelletInterval =
      some (if (!isDeliver s || decide (s.TotalDeliverCount < 2)) = true then Value.nan
        else Value.int s.interPelletInterval) := by
  unfold logdataFields Record.field
  cases s.tempSensor <;> cases isBandit s <;> cases isDeliver s <;> rfl

theorem lastField_logdata (s : FED3) (env : LogEnv) (c : Column) :
    lastField (logdata s env) c = (logdataFields s env).field c := by
  simp [lastField, logdata]

theorem logLeftPoke_TotalDeliverCount (s : FED3) (t0 : Int) (pin : Level) (t1 : Int)
    (env : LogEnv) : (logLeftPoke s t0 pin t1 env).TotalDeliverCount = s.TotalDeliverCount := by
  unfold logLeftPoke logLeftPoke.classify logdata
  cases pin
  · rfl
  · simp only [reduceCtorEq, if_false]; split_ifs <;> rfl

theorem logRightPoke_TotalDeliverCount (s : FED3) (t0 : Int) (pin : Level) (t1 : Int)
    (env : LogEnv) : (logRightPoke s t0 pin t1 env).TotalDeliverCount = s.TotalDeliverCount := by
  unfold logRightPoke logRightPoke.classify logdata
  cases pin
  · rfl
  · simp only [reduceCtorEq, if_false]; split_ifs <;> rfl

theorem serviceLicks_TotalDeliverCount (s : FED3) (b : Nat) (eL eR : LogEnv) :
    (serviceLicks s b eL eR).TotalDeliverCount = s.TotalDeliverCount := by
  unfold serviceLicks logLeftLick logRightLick logdata
  simp only []
  split_ifs <;> rfl

theorem Timeout.pass_TotalDeliverCount (reset : Bool) (r : FED3 × Int) (p : TimeoutPass) :
    (Timeout.pass reset r p).1.TotalDeliverCount = r.1.TotalDeliverCount := by
  unfold Timeout.pass Timeout.leftPoke Timeout.rightPoke Timeout.countLeft Timeout.countRight
    logdata
  simp only [Timeout.wait_eq]
  split_ifs <;> rfl

theorem Timeout.loop_TotalDeliverCount (seconds : Int) (reset : Bool)
    (passes : List TimeoutPass) :
    ∀ r : FED3 × Int,
      (Timeout.loop seconds reset r passes).1.TotalDeliverCount = r.1.TotalDeliverCount := by
  induction passes with
  | nil => intro r; rfl
  | cons p ps ih =>
    intro r
    rw [Timeout.loop]
    split_ifs
    · rw [ih, Timeout.pass_TotalDeliverCount]
    · rfl

theorem Timeout_TotalDeliverCount (s : FED3) (seconds : Int) (reset whitenoise : Bool)
    (t0 : Int) (passes : List TimeoutPass) :
    (Timeout s seconds reset whitenoise t0 passes).TotalDeliverCount = s.TotalDeliverCount :=
  Timeout.loop_TotalDeliverCount seconds reset passes (s, wrapInt32 t0)

theorem randomizeActivePoke_TotalDeliverCount (s : FED3) (max draw : Int) :
    (randomizeActivePoke s max draw).TotalDeliverCount = s.TotalDeliverCount := by
  unfold randomizeActivePoke
  simp only []
  split_ifs <;> rfl

theorem run_TotalDeliverCount (s : FED3) (r : RunPoll) :
    (run s r).TotalDeliverCount = s.TotalDeliverCount := by
  have h1 : ∀ (x : FED3) (pin : Level),
      (run.releaseLeft x pin).TotalDeliverCount = x.TotalDeliverCount := by
    intro x pin; unfold run.releaseLeft; split_ifs <;> rfl
  have h2 : ∀ (x : FED3) (pin : Level),
      (run.releaseRight x pin).TotalDeliverCount = x.TotalDeliverCount := by
    intro x pin; unfold run.releaseRight; split_ifs <;> rfl
  show (run.releaseRight (run.releaseLeft _ r.left) r.right).TotalDeliverCount = _
  rw [h2, h1]
  split_ifs
  · exact serviceLicks_TotalDeliverCount _ _ _ _
  · rfl

theorem leftTrigger_TotalDeliverCount (s : FED3) (pin : Level) :
    (leftTrigger s pin).TotalDeliverCount = s.TotalDeliverCount := by
  unfold leftTrigger; split_ifs <;> rfl

theorem rightTrigger_TotalDeliverCount (s : FED3) (pin : Level) :
    (rightTrigger s pin).TotalDeliverCount = s.TotalDeliverCount := by
  unfold rightTrigger; split_ifs <;> rfl

theorem Op.apply_TotalDeliverCount (s : FED3) (o : Op) (h : o.isDelivery = false) :
    (Op.apply s o).TotalDeliverCount = s.TotalDeliverCount := by
  cases o with
  | logLeftPoke t0 pin t1 env => exact logLeftPoke_TotalDeliverCount s t0 pin t1 env
  | logRightPoke t0 pin t1 env => exact logRightPoke_TotalDeliverCount s t0 pin t1 env
  | serviceLicks b eL eR => exact serviceLicks_TotalDeliverCount s b eL eR
  | Timeout sec reset wn t0 passes => exact Timeout_TotalDeliverCount s sec reset wn t0 passes
  | randomizeActivePoke max draw => exact randomizeActivePoke_TotalDeliverCount s max draw
  | run r => exact run_TotalDeliverCount s r
  | leftTrigger pin => exact leftTrigger_TotalDeliverCount s pin
  | rightTrigger pin => exact rightTrigger_TotalDeliverCount s pin
  | FeedLeft _ _ _ _ _ _ => simp [Op.isDelivery] at h
  | FeedRight _ _ _ _ _ _ _ => simp [Op.isDelivery] at h
  | logdata env => rfl
  | logLeftLick env => rfl
  | logRightLick env => rfl

theorem Op.applyAll_TotalDeliverCount (ops : List Op) :
    ∀ s : FED3, (∀ o ∈ ops, o.isDelivery = false) →
      (Op.applyAll s ops).TotalDeliverCount = s.TotalDeliverCount := by
  induction ops with
  | nil => intro s _; rfl
  | cons o os ih =>
    intro s h
    have e : Op.applyAll s (o :: os) = Op.applyAll (Op.apply s o) os := rfl
    rw [e, ih _ (fun x hx => h x (List.mem_cons_of_mem _ hx)),
      Op.apply_TotalDeliverCount s o (h o (List.mem_cons_self _ _))]

/-- A delivery from a state with `TotalDeliverCount = 0` logs one line, whose
`InterPelletInterval` is the not-a-number sentinel. -/
theorem delivery_from_zero (s : FED3) (h0 : s.TotalDeliverCount = 0) (d : Op)
    (hd : d.isDelivery = true) :
    lastField (Op.apply s d) Column.interPelletInterval = some Value.nan ∧
    (∃ r, (Op.apply s d).log = s.log ++ [r]) := by
  cases d with
  | FeedLeft steps pulse pixelsoff t0 t1 env =>
    show lastField (FeedLeft s steps pulse pixelsoff t0 t1 env) _ = _ ∧
      ∃ r, (FeedLeft s steps pulse pixelsoff t0 t1 env).log = _
    rw [FeedLeft_eq, lastField_logdata, logdataFields_interPelletInterval]
    refine ⟨?_, _, rfl⟩
    have : wrapInt32 (s.TotalDeliverCount + 1) < 2 := by rw [h0]; decide
    simp [this]
  | FeedRight steps pulse pixelsoff t0 t1 nowTime env =>
    show lastField (FeedRight s steps pulse pixelsoff t0 t1 nowTime env) _ = _ ∧
      ∃ r, (FeedRight s steps pulse pixelsoff t0 t1 nowTime env).log = _
    rw [FeedRight_eq]
    refine ⟨?_, _, rfl⟩
    show lastField (logdata _ env) _ = _
    rw [lastField_logdata, logdataFields_interPelletInterval]
    have : wrapInt32 (s.TotalDeliverCount + 1) < 2 := by rw [h0]; decide
    simp [this]
  | logLeftPoke _ _ _ _ => simp [Op.isDelivery] at hd
  | logRightPoke _ _ _ _ => simp [Op.isDelivery] at hd
  | serviceLicks _ _ _ => simp [Op.isDelivery] at hd
  | Timeout _ _ _ _ _ => simp [Op.isDelivery] at hd
  | randomizeActivePoke _ _ => simp [Op.isDelivery] at hd
  | run _ => simp [Op.isDelivery] at hd
  | leftTrigger _ => simp [Op.isDelivery] at hd
  | rightTrigger _ => simp [Op.isDelivery] at hd
  | logdata _ => simp [Op.isDelivery] at hd
  | logLeftLick _ => simp [Op.isDelivery] at hd
  | logRightLick _ => simp [Op.isDelivery] at hd

/-- C16. In a session that starts with `TotalDeliverCount = 0`, after any series of
operations that are no deliveries, the first delivery (`FeedLeft` or `FeedRight`) logs one
line, and that line has the not-a-number sentinel in `InterPelletInterval`. In general the
`InterPelletInterval` field that `logdata` prints is the sentinel, unless the event is a
delivery and `TotalDeliverCount >= 2`, in which case it is the number `interPelletInterval`. -/
theorem first_delivery_interval_nan (s : FED3) (h0 : s.TotalDeliverCount = 0) (ops : List Op)
    (hops : ∀ o ∈ ops, o.isDelivery = false) (d : Op) (hd : d.isDelivery = true) :
    lastField (Op.apply (Op.applyAll s ops) d) Column.interPelletInterval = some Value.nan ∧
    (∃ r, (Op.apply (Op.applyAll s ops) d).log = (Op.applyAll s ops).log ++ [r]) ∧
    (∀ (x : FED3) (env : LogEnv),
      (logdataFields x env).field Column.interPelletInterval = some Value.nan ∨
      (isDeliver x = true ∧ 2 ≤ x.TotalDeliverCount ∧
        (logdataFields x env).field Column.interPelletInterval
          = some (Value.int x.interPelletInterval))) := by
  have hz : (Op.applyAll s ops).TotalDeliverCount = 0 := by
    rw [Op.applyAll_TotalDeliverCount ops s hops, h0]
  obtain ⟨a, b⟩ := delivery_from_zero (Op.applyAll s ops) hz d hd
  refine ⟨a, b, ?_⟩
  intro x env
  rw [logdataFields_interPelletInterval]
  by_cases hc : (!isDeliver x || decide (x.TotalDeliverCount < 2)) = true
  · left; rw [if_pos hc]
  · right
    rw [if_neg hc]
    simp only [Bool.or_eq_true, Bool.not_eq_true', decide_eq_true_eq, not_or,
      Bool.not_eq_false, not_lt] at hc
    exact ⟨hc.1, hc.2, rfl⟩

/-- Witness of C16: after a short left poke and a left lick, the first delivery of the
session, a `FeedLeft`, logs the sentinel. -/
theorem first_delivery_interval_nan_witness :
    lastField (Op.apply (Op.applyAll sessionStart pokeThenLick) firstFeedLeft)
      Column.interPelletInterval = some Value.nan :=
  (first_delivery_interval_nan sessionStart rfl pokeThenLick (by decide) firstFeedLeft rfl).1

/-! ## Poke edge detector -/

theorem SetClock_time (s : FED3) (c : Clock) (p : ClockPoll) :
    (SetClock s c p).2.time = u32 (c.time + p.tick0) + p.tick1 + p.tick2 + p.tick3
      + (if p.left = Level.LOW then -60 else 0) + (if p.right = Level.LOW then 60 else 0) ∧
    (SetClock s c p).2.rtc = (SetClock s c p).2.time := by
  unfold SetClock
  cases p.left <;> cases p.right <;> simp <;> ring

theorem u32_of_range (x : Int) (h0 : 0 ≤ x) (h1 : x < 4294967296) : u32 x = x := by
  unfold u32; omega

theorem SetClock.calls_rightOnly (polls : List ClockPoll) :
    ∀ r : FED3 × Clock, 0 ≤ r.2.time →
      (∀ p ∈ polls, p.left = Level.HIGH ∧ p.right = Level.LOW) →
      (∀ p ∈ polls, 0 ≤ p.tick0 ∧ 0 ≤ p.tick1 ∧ 0 ≤ p.tick2 ∧ 0 ≤ p.tick3) →
      r.2.time + totalElapsed polls + 60 * polls.length < 4294967296 →
      (SetClock.calls r polls).2.time = r.2.time + totalElapsed polls + 60 * polls.length := by
  induction polls with
  | nil => intro r _ _ _ _; simp [SetClock.calls, totalElapsed]
  | cons p ps ih =>
    intro r h0 hside hticks hlt
    obtain ⟨hl, hr⟩ := hside p (List.mem_cons_self _ _)
    obtain ⟨k0, k1, k2, k3⟩ := hticks p (List.mem_cons_self _ _)
    have hps : ∀ q ∈ ps, 0 ≤ q.tick0 ∧ 0 ≤ q.tick1 ∧ 0 ≤ q.tick2 ∧ 0 ≤ q.tick3 :=
      fun q hq => hticks q (List.mem_cons_of_mem _ hq)
    have hsum : ∀ qs : List ClockPoll,
        (∀ q ∈ qs, 0 ≤ q.tick0 ∧ 0 ≤ q.tick1 ∧ 0 ≤ q.tick2 ∧ 0 ≤ q.tick3) →
        0 ≤ totalElapsed qs := by
      intro qs
      induction qs with
      | nil => intro _; simp [totalElapsed]
      | cons q qs ihq =>
        intro hq
        have a := hq q (List.mem_cons_self _ _)
        have b := ihq (fun x hx => hq x (List.mem_cons_of_mem _ hx))
        simp only [totalElapsed, List.map_cons, List.sum_cons, ClockPoll.elapsed] at b ⊢
        omega
    have hrest := hsum ps hps
    have he : totalElapsed (p :: ps) = p.elapsed + totalElapsed ps := by
      simp [totalElapsed]
    have hlen : (((p :: ps).length : Nat) : Int) = (ps.length : Int) + 1 := by simp
    rw [he, hlen] at hlt
    have e1 : (SetClock r.1 r.2 p).2.time = r.2.time + p.elapsed + 60 := by
      rw [(SetClock_time r.1 r.2 p).1, hl, hr,
        u32_of_range _ (by omega) (by unfold ClockPoll.elapsed at hlt; omega)]
      simp [ClockPoll.elapsed]; ring
    rw [SetClock.calls, ih (SetClock r.1 r.2 p)
      (by rw [e1]; unfold ClockPoll.elapsed; omega)
      (fun q hq => hside q (List.mem_cons_of_mem _ hq)) hps (by rw [e1]; omega), e1, he, hlen]
    ring

/-- C19: one call of `SetClock` with only the left poke pressed leaves the clock 60 s behind
the unadjusted clock, with only the right poke pressed 60 s ahead of it, and with neither
pressed equal to it; the value is also written to the hardware clock. The nudges compound: a
series of calls with only the right poke pressed leaves the clock `60 * k` seconds ahead of
the unadjusted clock, `k` the number of calls. The clock value is assumed to fit the 32-bit
`unixtime` and not to run backwards between readings. -/
theorem SetClock_nudges_compound (s : FED3) (c : Clock) (p : ClockPoll)
    (polls : List ClockPoll)
    (h0 : 0 ≤ c.time + p.tick0) (h1 : c.time + p.tick0 < 4294967296)
    (hc : 0 ≤ c.time)
    (hright : ∀ q ∈ polls, q.left = Level.HIGH ∧ q.right = Level.LOW)
    (hticks : ∀ q ∈ polls, 0 ≤ q.tick0 ∧ 0 ≤ q.tick1 ∧ 0 ≤ q.tick2 ∧ 0 ≤ q.tick3)
    (hfit : c.time + totalElapsed polls + 60 * polls.length < 4294967296) :
    (p.left = Level.LOW → p.right = Level.HIGH →
      (SetClock s c p).2.time = c.time + p.elapsed - 60) ∧
    (p.left = Level.HIGH → p.right = Level.LOW →
      (SetClock s c p).2.time = c.time + p.elapsed + 60) ∧
    (p.left = Level.HIGH → p.right = Level.HIGH →
      (SetClock s c p).2.time = c.time + p.elapsed) ∧
    (SetClock s c p).2.rtc = (SetClock s c p).2.time ∧
    (SetClock.calls (s, c) polls).2.time
      = c.time + totalElapsed polls + 60 * polls.length := by
  have e := (SetClock_time s c p).1
  rw [u32_of_range _ h0 h1] at e
  refine ⟨?_, ?_, ?_, (SetClock_time s c p).2,
    SetClock.calls_rightOnly polls (s, c) hc hright hticks hfit⟩
  · intro hl hr; rw [e, hl, hr]; simp [ClockPoll.elapsed]; ring
  · intro hl hr; rw [e, hl, hr]; simp [ClockPoll.elapsed]; ring
  · intro hl hr; rw [e, hl, hr]; simp [ClockPoll.elapsed]; ring

/-- Witness of C19: from a clock at 1 700 000 000 s, a call one second later with the left
poke pressed gives 1 699 999 941 s, and three calls one second apart with the right poke
pressed give 1 700 000 183 s, 180 s ahead of the unadjusted clock. -/
theorem SetClock_nudges_compound_witness :
    (SetClock sessionStart clockStart leftNudge).2.time = 1699999941 ∧
    (SetClock.calls (sessionStart, clockStart) [rightNudge, rightNudge, rightNudge]).2.time
      = 1700000183 :=
  ⟨((SetClock_nudges_compound sessionStart clockStart leftNudge
      [rightNudge, rightNudge, rightNudge] (by decide) (by decide) (by decide) (by decide)
      (by decide) (by decide)).1 rfl rfl).trans (by decide),
    (SetClock_nudges_compound sessionStart clockStart leftNudge
      [rightNudge, rightNudge, rightNudge] (by decide) (by decide) (by decide) (by decide)
      (by decide) (by decide)).2.2.2.2.trans (by decide)⟩

/-! ## Mode index after a call of mode selection -/

theorem SelectMode.doubleCheck_lt (s : FED3) :
    (SelectMode.doubleCheck s).FEDmode < modeCount s := by
  rw [SelectMode.doubleCheck_FEDmode]
  unfold modeCount
  split_ifs <;> omega

theorem SelectMode.doubleCheck_psygene (s : FED3) :
    (SelectMode.doubleCheck s).psygene = s.psygene := by
  unfold SelectMode.doubleCheck SelectMode.capMode SelectMode.floorMode
  split_ifs <;> rfl

theorem SelectMode.step_enters_iff (s : FED3) (p : SelectPoll) :
    (SelectMode.step s p).2 = true ↔ (p.left1 = Level.LOW ∧ p.right1 = Level.LOW) := by
  unfold SelectMode.step
  split_ifs <;> simp [*]

/-- C30. After a call of `SelectMode` that does not enter the device-number flow, the mode
index is below the number of modes (4 with `psygene`, 12 otherwise), whatever the value of
`FEDmode` before the call and whatever the poke levels read; `psygene` is not changed. -/
theorem SelectMode_step_mode_in_range (s : FED3) (p : SelectPoll)
    (h : (SelectMode.step s p).2 = false) :
    (SelectMode.step s p).1.FEDmode < modeCount s ∧
    (SelectMode.step s p).1.psygene = s.psygene := by
  have hb : ¬ (p.left1 = Level.LOW ∧ p.right1 = Level.LOW) := by
    intro hc
    rw [(SelectMode.step_enters_iff s p).mpr hc] at h
    exact absurd h (by decide)
  have key : ∀ x : FED3, x.psygene = s.psygene →
      (SelectMode.doubleCheck x).FEDmode < modeCount s ∧
      (SelectMode.doubleCheck x).psygene = s.psygene := by
    intro x hx
    have e : modeCount x = modeCount s := by unfold modeCount; rw [hx]
    exact ⟨e ▸ SelectMode.doubleCheck_lt x, (SelectMode.doubleCheck_psygene x).trans hx⟩
  by_cases h2 : p.left2 = Level.LOW
  · rw [SelectMode.step_left s p hb h2]
    exact key _ (SelectMode.wrapBelow_FEDmode _).2
  · by_cases h3 : p.right2 = Level.LOW
    · rw [SelectMode.step_right s p hb h2 h3]
      exact key _ (SelectMode.wrapAbove_FEDmode _).2
    · have e : SelectMode.step s p = (SelectMode.doubleCheck s, false) := by
        unfold SelectMode.step
        rw [if_neg hb, if_neg h2, if_neg h3]
      rw [e]
      exact key s rfl

/-- Witness of C30: from the out-of-range mode index 200 a call that reads no poke pressed
leaves the index at 11, and with `psygene` a right press at index 3 leaves it at 0. -/
theorem SelectMode_step_mode_in_range_witness :
    (SelectMode.step (modeState 200) (selectNoPress 100)).1.FEDmode = 11 ∧
    (SelectMode.step (modeState 200) (selectNoPress 100)).1.FEDmode
      < modeCount (modeState 200) :=
  ⟨by decide, (SelectMode_step_mode_in_range (modeState 200) (selectNoPress 100) rfl).1⟩

/-! ## Entry into the device-number flow -/

/-- Counterexample to C23: on the start screen of a device with the `psygene` menu, the
first pass that reads both pokes pressed, at 100 ms, calls `SelectMode`, and that call of
`SelectMode`, reading both pokes pressed at 100 ms, enters `SetDeviceNumber`: no time has
passed with the pokes pressed. -/
theorem SelectMode_enters_without_hold :
    (DisplayMouse psygeneStart [mousePollAt Level.LOW Level.LOW 100]).2
      = (MouseExit.selectMode, 1) ∧
    (SelectMode.step psygeneStart (selectBothPress 100)).2 = true ∧
    (SelectMode.step psygeneStart (selectBothPress 100)).1.SetFED = true := by
  decide

/-- C23 (amended). `DisplayMouse` enters `SetDeviceNumber` from its own both-poke test only
at the end of a hold: passes that all read both pokes pressed, the first of which starts the
timer, with more than 1500 ms between that start and the entering pass. `SelectMode` enters
`SetDeviceNumber` exactly when its first two readings find both pokes pressed, whatever the
time; and with a menu enabled (`FED3Menu`, `ClassicFED3` or `psygene`) a pass of
`DisplayMouse` that reads a poke pressed calls `SelectMode` before its both-poke test. -/
theorem SetDeviceNumber_entry_paths :
    (∀ (s s' : FED3) (polls : List MousePoll) (n : Nat), s.bothLowSince = 0 →
      DisplayMouse.loop s polls = (s', MouseExit.setDeviceNumber, n) →
      ∃ pre first mid last,
        polls.take n = pre ++ first :: mid ∧
        (first :: mid).getLast? = some last ∧
        (∀ p ∈ first :: mid, p.left = Level.LOW ∧ p.right = Level.LOW) ∧
        u32 (u32 last.tCheck - u32 first.tStart) > 1500) ∧
    (∀ (s : FED3) (p : SelectPoll),
      (SelectMode.step s p).2 = true ↔ (p.left1 = Level.LOW ∧ p.right1 = Level.LOW)) ∧
    (∀ (s : FED3) (p : MousePoll),
      (s.FED3Menu = true ∨ s.ClassicFED3 = true ∨ s.psygene = true) →
      (p.menuLeft = Level.LOW ∨ p.menuRight = Level.LOW) →
      (DisplayMouse.poll s p).2 = MouseExit.selectMode) := by
  refine ⟨?_, SelectMode.step_enters_iff, ?_⟩
  · intro s s' polls n hz h
    rcases DisplayMouse.loop_enter polls s s' n h with ⟨hnz, -⟩ | h2
    · exact absurd hz hnz
    · obtain ⟨pre, first, mid, last, _, h1, h2, -, -, h5, -, h7⟩ := h2
      exact ⟨pre, first, mid, last, h1, h2, h5, h7⟩
  · intro s p hm hp
    unfold DisplayMouse.poll
    have hc : ((s.FED3Menu == true || s.ClassicFED3 == true || s.psygene)
        && (p.menuLeft == Level.LOW || p.menuRight == Level.LOW)) = true := by
      rcases hm with h | h | h <;> rcases hp with q | q <;> simp [h, q]
    simp only [hc, if_true]

/-! ## Clock window of the device-number flow -/

theorem SetClock_EndTime (s : FED3) (c : Clock) (p : ClockPoll) :
    (SetClock s c p).1.EndTime =
      (if p.right = Level.LOW then wrapInt32 p.tRight
       else if p.left = Level.LOW then wrapInt32 p.tLeft else s.EndTime) ∧
    (SetClock s c p).1.setTimed = s.setTimed := by
  unfold SetClock
  cases p.left <;> cases p.right <;> exact ⟨rfl, rfl⟩

theorem SetDeviceNumber.clockPhase_cons (r : FED3 × Clock) (p : ClockWindowPoll)
    (ps : List ClockWindowPoll) :
    SetDeviceNumber.clockPhase r (p :: ps) =
      (if u32 (u32 p.tCheck - u32 r.1.EndTime) < 3000 then
        ((SetDeviceNumber.clockPhase (SetClock r.1 r.2 p.clock) ps).1,
         (SetDeviceNumber.clockPhase (SetClock r.1 r.2 p.clock) ps).2 + 1)
       else (r, 0)) := by
  rw [SetDeviceNumber.clockPhase]

theorem SetDeviceNumber.clockPhase_idle (polls : List ClockWindowPoll) :
    ∀ r : FED3 × Clock,
      (∀ p ∈ polls, p.clock.left = Level.HIGH ∧ p.clock.right = Level.HIGH) →
      (SetDeviceNumber.clockPhase r polls).2 =
        (polls.takeWhile
          (fun p => decide (u32 (u32 p.tCheck - u32 r.1.EndTime) < 3000))).length ∧
      (SetDeviceNumber.clockPhase r polls).1.1.EndTime = r.1.EndTime := by
  induction polls with
  | nil => intro r _; exact ⟨rfl, rfl⟩
  | cons p ps ih =>
    intro r h
    obtain ⟨hl, hr⟩ := h p (List.mem_cons_self _ _)
    have he : (SetClock r.1 r.2 p.clock).1.EndTime = r.1.EndTime := by
      rw [(SetClock_EndTime r.1 r.2 p.clock).1, hl, hr]; rfl
    obtain ⟨a, b⟩ := ih (SetClock r.1 r.2 p.clock)
      (fun q hq => h q (List.mem_cons_of_mem _ hq))
    rw [SetDeviceNumber.clockPhase_cons]
    by_cases hc : u32 (u32 p.tCheck - u32 r.1.EndTime) < 3000
    · rw [if_pos hc, List.takeWhile_cons_of_pos (by simpa using hc)]
      refine ⟨?_, b.trans he⟩
      show (SetDeviceNumber.clockPhase (SetClock r.1 r.2 p.clock) ps).2 + 1 = _
      rw [a, he]; rfl
    · rw [if_neg hc, List.takeWhile_cons_of_neg (by simpa using hc)]
      exact ⟨rfl, rfl⟩

/-- Counterexample to C21: the clock-adjust loop is entered with `EndTime` = 0 ms. With a
right press read by the call of `SetClock` at 1000 ms, the loop still calls `SetClock` at the
test made 3500 ms after entry, and ends only at the test made at 4100 ms; without the press
it ends at the test made at 3500 ms. -/
theorem clockPhase_press_extends_window :
    (SetDeviceNumber.clockPhase ({}, clockStart)
      [clockRightPress 1000, clockIdle 3500, clockIdle 4100]).2 = 2 ∧
    (SetDeviceNumber.clockPhase ({}, clockStart)
      [clockIdle 1000, clockIdle 3500, clockIdle 4100]).2 = 1 := by
  decide

/-- C21 (amended). The clock-adjust loop of `SetDeviceNumber` goes on exactly while less
than 3000 ms have passed since `EndTime`. A call of `SetClock` that reads a poke pressed
stores the `millis()` of the press in `EndTime`, so a press restarts the 3000 ms; a call that
reads no poke pressed leaves `EndTime`. With no press during the window the loop calls
`SetClock` at the tests made less than 3000 ms after entry and ends at the first test made
later. -/
theorem clockPhase_window_from_last_press (r : FED3 × Clock) (p : ClockWindowPoll)
    (ps : List ClockWindowPoll) :
    (u32 (u32 p.tCheck - u32 r.1.EndTime) < 3000 →
      SetDeviceNumber.clockPhase r (p :: ps) =
        ((SetDeviceNumber.clockPhase (SetClock r.1 r.2 p.clock) ps).1,
         (SetDeviceNumber.clockPhase (SetClock r.1 r.2 p.clock) ps).2 + 1)) ∧
    (¬ u32 (u32 p.tCheck - u32 r.1.EndTime) < 3000 →
      SetDeviceNumber.clockPhase r (p :: ps) = (r, 0)) ∧
    (SetClock r.1 r.2 p.clock).1.EndTime =
      (if p.clock.right = Level.LOW then wrapInt32 p.clock.tRight
       else if p.clock.left = Level.LOW then wrapInt32 p.clock.tLeft else r.1.EndTime) ∧
    ((∀ q ∈ p :: ps, q.clock.left = Level.HIGH ∧ q.clock.right = Level.HIGH) →
      (SetDeviceNumber.clockPhase r (p :: ps)).2 =
        ((p :: ps).takeWhile
          (fun q => decide (u32 (u32 q.tCheck - u32 r.1.EndTime) < 3000))).length) := by
  refine ⟨?_, ?_, (SetClock_EndTime r.1 r.2 p.clock).1, ?_⟩
  · intro h; rw [SetDeviceNumber.clockPhase_cons, if_pos h]
  · intro h; rw [SetDeviceNumber.clockPhase_cons, if_neg h]
  · intro h; exact (SetDeviceNumber.clockPhase_idle (p :: ps) r h).1

/-! ## Timed window of the device-number flow -/

theorem SetDeviceNumber.clockPhase_setTimed (polls : List ClockWindowPoll) :
    ∀ r : FED3 × Clock, (SetDeviceNumber.clockPhase r polls).1.1.setTimed = r.1.setTimed := by
  induction polls with
  | nil => intro r; rfl
  | cons p ps ih =>
    intro r
    rw [SetDeviceNumber.clockPhase_cons]
    by_cases hc : u32 (u32 p.tCheck - u32 r.1.EndTime) < 3000
    · rw [if_pos hc]
      exact (ih _).trans (SetClock_EndTime r.1 r.2 p.clock).2
    · rw [if_neg hc]

theorem SetDeviceNumber.adjust_setTimed (s : FED3) (p : DeviceNumberPoll) :
    (SetDeviceNumber.adjust s p).setTimed = s.setTimed := by
  unfold SetDeviceNumber.adjust SetDeviceNumber.capFED SetDeviceNumber.floorFED
  simp only []
  split_ifs <;> rfl

theorem SetDeviceNumber.numberPhase_setTimed (polls : List DeviceNumberPoll) :
    ∀ s : FED3, (SetDeviceNumber.numberPhase s polls).setTimed = s.setTimed := by
  induction polls with
  | nil => intro s; rfl
  | cons p ps ih =>
    intro s
    rw [SetDeviceNumber.numberPhase]
    simp only []
    split_ifs
    · exact SetDeviceNumber.adjust_setTimed s p
    · exact (ih _).trans (SetDeviceNumber.adjust_setTimed s p)
    · rfl

theorem DisplayMouse.poll_setTimed (s : FED3) (p : MousePoll) :
    (DisplayMouse.poll s p).1.setTimed = s.setTimed := by
  unfold DisplayMouse.poll
  simp only []
  split_ifs <;> rfl

theorem SetDeviceNumber.timedPasses_pos (s : FED3) (p : TimedPoll) (ps : List TimedPoll)
    (h : s.setTimed = true) : 1 ≤ SetDeviceNumber.timedPasses s (p :: ps) := by
  rw [SetDeviceNumber.timedPasses, if_pos h]
  split_ifs <;> omega

theorem SetDeviceNumber.timedPhase_skipped (s : FED3) (polls : List TimedPoll)
    (h : s.setTimed = false) :
    SetDeviceNumber.timedPasses s polls = 0 ∧ SetDeviceNumber.timedPhase s polls = s := by
  have hn : ¬ s.setTimed = true := by rw [h]; decide
  cases polls with
  | nil => exact ⟨rfl, rfl⟩
  | cons p ps =>
    rw [SetDeviceNumber.timedPasses, SetDeviceNumber.timedPhase, if_neg hn, if_neg hn]
    exact ⟨rfl, rfl⟩

/-- Counterexample to C22: from the power-on state the both-poke hold on the start screen
enters `SetDeviceNumber` with `setTimed` false; after the device number is confirmed and the
clock window has elapsed, the loop `while (setTimed == true)` makes no pass, and a left press
offered to it leaves the start hour at 0. Entered from `SelectMode`, the same readings make
two passes and move the start hour to 1. -/
theorem timed_window_skipped_after_hold :
    entryByHold.SetFED = true ∧ entryByHold.setTimed = false ∧
    confirmedByHold.SetFED = false ∧
    SetDeviceNumber.timedPasses
      (SetDeviceNumber.clockWindow confirmedByHold clockStart 10000 [clockIdle 13100]).1
      [timedLeftPress 14000, timedIdle 19000] = 0 ∧
    (SetDeviceNumber.confirm confirmedByHold clockStart 10000 [clockIdle 13100]
      [timedLeftPress 14000, timedIdle 19000]).1.timedStart = 0 ∧
    SetDeviceNumber.timedPasses
      (SetDeviceNumber.clockWindow confirmedBySelectMode clockStart 10000 [clockIdle 13100]).1
      [timedLeftPress 14000, timedIdle 19000] = 2 ∧
    (SetDeviceNumber.confirm confirmedBySelectMode clockStart 10000 [clockIdle 13100]
      [timedLeftPress 14000, timedIdle 19000]).1.timedStart = 1 := by
  decide

/-- C22 (amended). After the device number is confirmed and the clock window has elapsed,
the loop `while (setTimed == true)` is entered exactly when `setTimed` was set on entry to
`SetDeviceNumber`: the device-number loop and the clock window do not change `setTimed`;
with `setTimed` set the timed loop makes at least one pass; with `setTimed` clear it makes
none and leaves the state as the clock window left it. `SelectMode` sets `setTimed` when it
enters the flow; `DisplayMouse` does not change it, and it is false at power-on. -/
theorem timed_window_entered_iff_setTimed (s : FED3) (c : Clock) (tEnd : Int)
    (numberPolls : List DeviceNumberPoll) (clockPolls : List ClockWindowPoll)
    (p : TimedPoll) (ps : List TimedPoll) (sp : SelectPoll) (mp : MousePoll) :
    (SetDeviceNumber.numberPhase s numberPolls).setTimed = s.setTimed ∧
    (SetDeviceNumber.clockWindow s c tEnd clockPolls).1.setTimed = s.setTimed ∧
    (s.setTimed = true →
      1 ≤ SetDeviceNumber.timedPasses
        (SetDeviceNumber.clockWindow s c tEnd clockPolls).1 (p :: ps)) ∧
    (s.setTimed = false →
      SetDeviceNumber.timedPasses
        (SetDeviceNumber.clockWindow s c tEnd clockPolls).1 (p :: ps) = 0 ∧
      SetDeviceNumber.confirm s c tEnd clockPolls (p :: ps) =
        SetDeviceNumber.clockWindow s c tEnd clockPolls) ∧
    ((SelectMode.step s sp).2 = true → (SelectMode.step s sp).1.setTimed = true) ∧
    (DisplayMouse.poll s mp).1.setTimed = s.setTimed ∧
    ({} : FED3).setTimed = false := by
  have hk : (SetDeviceNumber.clockWindow s c tEnd clockPolls).1.setTimed = s.setTimed :=
    SetDeviceNumber.clockPhase_setTimed clockPolls
      ({ s with SetFED := false, EndTime := wrapInt32 tEnd }, c)
  refine ⟨SetDeviceNumber.numberPhase_setTimed numberPolls s, hk, ?_, ?_, ?_,
    DisplayMouse.poll_setTimed s mp, rfl⟩
  · intro h
    exact SetDeviceNumber.timedPasses_pos _ p ps (hk.trans h)
  · intro h
    obtain ⟨a, b⟩ := SetDeviceNumber.timedPhase_skipped _ (p :: ps) (hk.trans h)
    refine ⟨a, ?_⟩
    unfold SetDeviceNumber.confirm
    simp only [b]
  · intro h
    have hb := (SelectMode.step_enters_iff s sp).mp h
    unfold SelectMode.step
    rw [if_pos hb]

/-! ## Logging when the data file does not open -/

theorem card_logdata_opened (s : FED3) (env : LogEnv) :
    Card.logdata true s env = logdata s env := rfl

theorem card_logdata_failed (s : FED3) (env : LogEnv) :
    Card.logdata false s env = { logdata s env with log := s.log } := rfl

theorem card_logLeftPoke_failed (s : FED3) (t0 : Int) (pin : Level) (t1 : Int)
    (env : LogEnv) :
    Card.logLeftPoke true s t0 pin t1 env = logLeftPoke s t0 pin t1 env ∧
    Card.logLeftPoke false s t0 pin t1 env
      = { logLeftPoke s t0 pin t1 env with log := s.log } := by
  unfold Card.logLeftPoke logLeftPoke logLeftPoke.classify
  cases pin
  · exact ⟨rfl, rfl⟩
  · simp only [reduceCtorEq, if_false]
    split_ifs <;> exact ⟨rfl, rfl⟩

theorem card_logRightPoke_failed (s : FED3) (t0 : Int) (pin : Level) (t1 : Int)
    (env : LogEnv) :
    Card.logRightPoke true s t0 pin t1 env = logRightPoke s t0 pin t1 env ∧
    Card.logRightPoke false s t0 pin t1 env
      = { logRightPoke s t0 pin t1 env with log := s.log } := by
  unfold Card.logRightPoke logRightPoke logRightPoke.classify
  cases pin
  · exact ⟨rfl, rfl⟩
  · simp only [reduceCtorEq, if_false]
    split_ifs <;> exact ⟨rfl, rfl⟩

theorem card_serviceLicks_failed (s : FED3) (b : Nat) (eL eR : LogEnv) :
    Card.serviceLicks true s b eL eR = serviceLicks s b eL eR ∧
    Card.serviceLicks false s b eL eR = { serviceLicks s b eL eR with log := s.log } := by
  unfold Card.serviceLicks serviceLicks
  simp only []
  split_ifs <;> exact ⟨rfl, rfl⟩

theorem card_FeedLeft_failed (s : FED3) (steps pulse : Int) (pixelsoff : Bool) (t0 t1 : Int)
    (env : LogEnv) :
    Card.FeedLeft true s steps pulse pixelsoff t0 t1 env
      = FeedLeft s steps pulse pixelsoff t0 t1 env ∧
    Card.FeedLeft false s steps pulse pixelsoff t0 t1 env
      = { FeedLeft s steps pulse pixelsoff t0 t1 env with log := s.log } :=
  ⟨rfl, rfl⟩

theorem card_FeedRight_failed (s : FED3) (steps pulse : Int) (pixelsoff : Bool)
    (t0 t1 nowTime : Int) (env : LogEnv) :
    Card.FeedRight true s steps pulse pixelsoff t0 t1 nowTime env
      = FeedRight s steps pulse pixelsoff t0 t1 nowTime env ∧
    Card.FeedRight false s steps pulse pixelsoff t0 t1 nowTime env
      = { FeedRight s steps pulse pixelsoff t0 t1 nowTime env with log := s.log } :=
  ⟨rfl, rfl⟩

theorem card_Timeout_pass_opened (reset : Bool) (r : FED3 × Int) (p : TimeoutPass) :
    Card.Timeout.pass true reset r p = Timeout.pass reset r p := by
  unfold Card.Timeout.pass Timeout.pass
  split_ifs <;> rfl

theorem card_Timeout_leftPoke_failed (reset : Bool) (x : FED3) (ts : Int) (l : List Record)
    (p : TimeoutPass) :
    Card.Timeout.leftPoke false { x with log := l } reset ts p
      = ({ (Timeout.leftPoke x reset ts p).1 with log := l },
         (Timeout.leftPoke x reset ts p).2) := by
  by_cases h : x.countAllPokes = true
  · simp only [Card.Timeout.leftPoke, Timeout.leftPoke, Timeout.countLeft, Timeout.wait_eq,
      if_pos h]
    rfl
  · simp only [Card.Timeout.leftPoke, Timeout.leftPoke, Timeout.countLeft, Timeout.wait_eq,
      if_neg h]
    rfl

theorem card_Timeout_rightPoke_failed (reset : Bool) (x : FED3) (ts : Int) (l : List Record)
    (p : TimeoutPass) :
    Card.Timeout.rightPoke false { x with log := l } reset ts p
      = ({ (Timeout.rightPoke x reset ts p).1 with log := l },
         (Timeout.rightPoke x reset ts p).2) := by
  by_cases h : x.countAllPokes = true
  · simp only [Card.Timeout.rightPoke, Timeout.rightPoke, Timeout.countRight, Timeout.wait_eq,
      if_pos h]
    rfl
  · simp only [Card.Timeout.rightPoke, Timeout.rightPoke, Timeout.countRight, Timeout.wait_eq,
      if_neg h]
    rfl

theorem card_Timeout_pass_failed (reset : Bool) (r : FED3 × Int) (l : List Record)
    (p : TimeoutPass) :
    Card.Timeout.pass false reset ({ r.1 with log := l }, r.2) p
      = ({ (Timeout.pass reset r p).1 with log := l }, (Timeout.pass reset r p).2) := by
  have hL := card_Timeout_leftPoke_failed reset r.1 r.2 l p
  have hR := card_Timeout_rightPoke_failed reset r.1 r.2 l p
  have hLR := card_Timeout_rightPoke_failed reset (Timeout.leftPoke r.1 reset r.2 p).1
    (Timeout.leftPoke r.1 reset r.2 p).2 l p
  unfold Card.Timeout.pass Timeout.pass
  by_cases hl : p.left = Level.LOW <;> by_cases hr : p.right = Level.LOW
  · simp only [if_pos hl, if_pos hr]
    rw [hL]
    exact hLR
  · simp only [if_pos hl, if_neg hr]
    exact hL
  · simp only [if_neg hl, if_pos hr]
    exact hR
  · simp only [if_neg hl, if_neg hr]

theorem card_Timeout_loop_opened (seconds : Int) (reset : Bool) (passes : List TimeoutPass) :
    ∀ r : FED3 × Int,
      Card.Timeout.loop true seconds reset r passes = Timeout.loop seconds reset r passes := by
  induction passes with
  | nil => intro r; rfl
  | cons p ps ih =>
    intro r
    rw [Card.Timeout.loop, Timeout.loop, card_Timeout_pass_opened, ih]

theorem card_Timeout_loop_failed (seconds : Int) (reset : Bool) (l : List Record)
    (passes : List TimeoutPass) :
    ∀ r : FED3 × Int,
      Card.Timeout.loop false seconds reset ({ r.1 with log := l }, r.2) passes
        = ({ (Timeout.loop seconds reset r passes).1 with log := l },
           (Timeout.loop seconds reset r passes).2) := by
  induction passes with
  | nil => intro r; rfl
  | cons p ps ih =>
    intro r
    rw [Card.Timeout.loop, Timeout.loop]
    by_cases hc : u32 (u32 p.tLoop - u32 r.2) < u32 (u32 seconds * 1000)
    · rw [if_pos hc, if_pos hc, card_Timeout_pass_failed]
      exact ih (Timeout.pass reset r p)
    · rw [if_neg hc, if_neg hc]

theorem card_Timeout_failed (s : FED3) (seconds : Int) (reset whitenoise : Bool) (t0 : Int)
    (passes : List TimeoutPass) :
    Card.Timeout true s seconds reset whitenoise t0 passes
      = Timeout s seconds reset whitenoise t0 passes ∧
    Card.Timeout false s seconds reset whitenoise t0 passes
      = { Timeout s seconds reset whitenoise t0 passes with log := s.log } := by
  constructor
  · unfold Card.Timeout Timeout
    rw [card_Timeout_loop_opened]
  · have h := card_Timeout_loop_failed seconds reset s.log passes (s, wrapInt32 t0)
    unfold Card.Timeout Timeout
    have e : (({ s with log := s.log } : FED3), wrapInt32 t0) = (s, wrapInt32 t0) := rfl
    rw [e] at h
    rw [h]

/-- C24. When the data file does not open, `logdata` adds no line and changes nothing else
than it changes otherwise. For each of `logLeftPoke`, `logRightPoke`, `serviceLicks`,
`FeedLeft`, `FeedRight` and `Timeout`, from every state and for every reading: with the file
open the operation is the one modelled before, and with the file not open the state after the
operation is the state after the operation with the file open, except that the log is the
log from before the operation. So the poke, lick and delivery counts, the `DropAvailable`
flags, `Event`, `activePoke` and `consecutive` are the same in both cases. `logdata` itself
leaves the counts, the flags, `Event`, `activePoke` and `consecutive` as they are, the file
open or not. -/
theorem log_failure_loses_only_the_record (s : FED3) (opened : Bool) (env envR : LogEnv)
    (t0 t1 nowTime steps pulse seconds : Int) (pin : Level) (touched : Nat)
    (pixelsoff reset whitenoise : Bool) (passes : List TimeoutPass) :
    (Card.logLeftPoke true s t0 pin t1 env = logLeftPoke s t0 pin t1 env ∧
      Card.logLeftPoke false s t0 pin t1 env
        = { logLeftPoke s t0 pin t1 env with log := s.log }) ∧
    (Card.logRightPoke true s t0 pin t1 env = logRightPoke s t0 pin t1 env ∧
      Card.logRightPoke false s t0 pin t1 env
        = { logRightPoke s t0 pin t1 env with log := s.log }) ∧
    (Card.serviceLicks true s touched env envR = serviceLicks s touched env envR ∧
      Card.serviceLicks false s touched env envR
        = { serviceLicks s touched env envR with log := s.log }) ∧
    (Card.FeedLeft true s steps pulse pixelsoff t0 t1 env
        = FeedLeft s steps pulse pixelsoff t0 t1 env ∧
      Card.FeedLeft false s steps pulse pixelsoff t0 t1 env
        = { FeedLeft s steps pulse pixelsoff t0 t1 env with log := s.log }) ∧
    (Card.FeedRight true s steps pulse pixelsoff t0 t1 nowTime env
        = FeedRight s steps pulse pixelsoff t0 t1 nowTime env ∧
      Card.FeedRight false s steps pulse pixelsoff t0 t1 nowTime env
        = { FeedRight s steps pulse pixelsoff t0 t1 nowTime env with log := s.log }) ∧
    (Card.Timeout true s seconds reset whitenoise t0 passes
        = Timeout s seconds reset whitenoise t0 passes ∧
      Card.Timeout false s seconds reset whitenoise t0 passes
        = { Timeout s seconds reset whitenoise t0 passes with log := s.log }) ∧
    ((∀ k : Counter, (Card.logdata opened s env).counter k = s.counter k) ∧
      (Card.logdata opened s env).LeftDropAvailable = s.LeftDropAvailable ∧
      (Card.logdata opened s env).RightDropAvailable = s.RightDropAvailable ∧
      (Card.logdata opened s env).Event = s.Event ∧
      (Card.logdata opened s env).activePoke = s.activePoke ∧
      (Card.logdata opened s env).consecutive = s.consecutive ∧
      (Card.logdata false s env).log = s.log) := by
  refine ⟨card_logLeftPoke_failed s t0 pin t1 env, card_logRightPoke_failed s t0 pin t1 env,
    card_serviceLicks_failed s touched env envR,
    card_FeedLeft_failed s steps pulse pixelsoff t0 t1 env,
    card_FeedRight_failed s steps pulse pixelsoff t0 t1 nowTime env,
    card_Timeout_failed s seconds reset whitenoise t0 passes, ?_⟩
  cases opened
  · exact ⟨fun k => by cases k <;> rfl, rfl, rfl, rfl, rfl, rfl, rfl⟩
  · exact ⟨fun k => by cases k <;> rfl, rfl, rfl, rfl, rfl, rfl, rfl⟩

/-! ## Event counters -/

theorem logdata_counter (s : FED3) (env : LogEnv) (k : Counter) :
    (logdata s env).counter k = s.counter k := by
  cases k <;> rfl

theorem logLeftLick_counter (s : FED3) (env : LogEnv) (k : Counter) :
    (logLeftLick s env).counter k = s.counter k := by
  cases k <;> rfl

theorem logRightLick_counter (s : FED3) (env : LogEnv) (k : Counter) :
    (logRightLick s env).counter k = s.counter k := by
  cases k <;> rfl

theorem leftTrigger_counter (s : FED3) (pin : Level) (k : Counter) :
    (leftTrigger s pin).counter k = s.counter k := by
  unfold leftTrigger
  split_ifs <;> cases k <;> rfl

theorem rightTrigger_counter (s : FED3) (pin : Level) (k : Counter) :
    (rightTrigger s pin).counter k = s.counter k := by
  unfold rightTrigger
  split_ifs <;> cases k <;> rfl

theorem randomizeActivePoke_counter (s : FED3) (max draw : Int) (k : Counter) :
    (randomizeActivePoke s max draw).counter k = s.counter k := by
  unfold randomizeActivePoke
  simp only []
  split_ifs <;> cases k <;> rfl

theorem logLeftPoke_counter (s : FED3) (t0 : Int) (pin : Level) (t1 : Int) (env : LogEnv)
    (k : Counter) :
    (logLeftPoke s t0 pin t1 env).counter k =
      (if k = Counter.LeftCount then wrapInt32 (s.counter k + 1) else s.counter k) := by
  unfold logLeftPoke logLeftPoke.classify logdata
  cases pin
  · cases k <;> rfl
  · simp only [reduceCtorEq, if_false]
    split_ifs <;> cases k <;> first | rfl | contradiction

theorem logRightPoke_counter (s : FED3) (t0 : Int) (pin : Level) (t1 : Int) (env : LogEnv)
    (k : Counter) :
    (logRightPoke s t0 pin t1 env).counter k =
      (if k = Counter.RightCount then wrapInt32 (s.counter k + 1) else s.counter k) := by
  unfold logRightPoke logRightPoke.classify logdata
  cases pin
  · cases k <;> rfl
  · simp only [reduceCtorEq, if_false]
    split_ifs <;> cases k <;> first | rfl | contradiction

theorem FeedLeft_counter (s : FED3) (steps pulse : Int) (pixelsoff : Bool) (t0 t1 : Int)
    (env : LogEnv) (k : Counter) :
    (FeedLeft s steps pulse pixelsoff t0 t1 env).counter k =
      (if k = Counter.LeftDeliverCount ∨ k = Counter.TotalDeliverCount then
        wrapInt32 (s.counter k + 1) else s.counter k) := by
  rw [FeedLeft_eq]
  cases k <;> rfl

theorem FeedRight_counter (s : FED3) (steps pulse : Int) (pixelsoff : Bool)
    (t0 t1 nowTime : Int) (env : LogEnv) (k : Counter) :
    (FeedRight s steps pulse pixelsoff t0 t1 nowTime env).counter k =
      (if k = Counter.RightDeliverCount ∨ k = Counter.TotalDeliverCount then
        wrapInt32 (s.counter k + 1) else s.counter k) := by
  rw [FeedRight_eq]
  cases k <;> rfl

theorem serviceLicks_counter (s : FED3) (b : Nat) (eL eR : LogEnv) (k : Counter) :
    (serviceLicks s b eL eR).counter k = s.counter k ∨
    ((k = Counter.LeftLickCount ∨ k = Counter.RightLickCount) ∧
      (serviceLicks s b eL eR).counter k = u32 (s.counter k + 1)) := by
  unfold serviceLicks logLeftLick logRightLick logdata
  simp only []
  split_ifs <;> cases k <;> first
    | (left; rfl)
    | (right; exact ⟨Or.inl rfl, rfl⟩)
    | (right; exact ⟨Or.inr rfl, rfl⟩)

theorem run_counter (s : FED3) (r : RunPoll) (k : Counter) :
    (run s r).counter k = s.counter k ∨
    ((k = Counter.LeftLickCount ∨ k = Counter.RightLickCount) ∧
      (run s r).counter k = u32 (s.counter k + 1)) := by
  have h1 : ∀ (x : FED3) (pin : Level), (run.releaseLeft x pin).counter k = x.counter k := by
    intro x pin; unfold run.releaseLeft; split_ifs <;> cases k <;> rfl
  have h2 : ∀ (x : FED3) (pin : Level), (run.releaseRight x pin).counter k = x.counter k := by
    intro x pin; unfold run.releaseRight; split_ifs <;> cases k <;> rfl
  have e : (run s r).counter k
      = (run.releaseRight (run.releaseLeft
          (if s.lickIRQ = true then serviceLicks s r.touched r.envL r.envR else s) r.left)
          r.right).counter k := by
    cases k <;> rfl
  rw [e, h2, h1]
  split_ifs
  · exact serviceLicks_counter s r.touched r.envL r.envR k
  · left; rfl

theorem Timeout.pass_counter (reset : Bool) (r : FED3 × Int) (p : TimeoutPass) (k : Counter) :
    (Timeout.pass reset r p).1.counter k = r.1.counter k ∨
    ((k = Counter.LeftCount ∨ k = Counter.RightCount) ∧
      (Timeout.pass reset r p).1.counter k = wrapInt32 (r.1.counter k + 1)) := by
  unfold Timeout.pass Timeout.leftPoke Timeout.rightPoke Timeout.countLeft Timeout.countRight
    logdata
  simp only [Timeout.wait_eq]
  split_ifs <;> cases k <;> first
    | (left; rfl)
    | (right; exact ⟨Or.inl rfl, rfl⟩)
    | (right; exact ⟨Or.inr rfl, rfl⟩)

theorem Timeout.loop_counter_frame (seconds : Int) (reset : Bool) (k : Counter)
    (hk : k ≠ Counter.LeftCount ∧ k ≠ Counter.RightCount) (passes : List TimeoutPass) :
    ∀ r : FED3 × Int, (Timeout.loop seconds reset r passes).1.counter k = r.1.counter k := by
  induction passes with
  | nil => intro r; rfl
  | cons p ps ih =>
    intro r
    rw [Timeout.loop]
    split_ifs
    · rw [ih]
      rcases Timeout.pass_counter reset r p k with h | ⟨h, -⟩
      · exact h
      · rcases h with h | h
        · exact absurd h hk.1
        · exact absurd h hk.2
    · rfl

theorem Timeout.loop_counter_le (seconds : Int) (reset : Bool) (k : Counter)
    (passes : List TimeoutPass) :
    ∀ r : FED3 × Int, 0 ≤ r.1.counter k →
      r.1.counter k + passes.length ≤ 2147483647 →
      r.1.counter k ≤ (Timeout.loop seconds reset r passes).1.counter k ∧
      (Timeout.loop seconds reset r passes).1.counter k ≤ r.1.counter k + passes.length := by
  induction passes with
  | nil => intro r _ _; simp [Timeout.loop]
  | cons p ps ih =>
    intro r h0 h1
    have hlen : (((p :: ps).length : Nat) : Int) = (ps.length : Int) + 1 := by simp
    rw [hlen] at h1 ⊢
    rw [Timeout.loop]
    by_cases hc : u32 (u32 p.tLoop - u32 r.2) < u32 (u32 seconds * 1000)
    · rw [if_pos hc]
      have hp : r.1.counter k ≤ (Timeout.pass reset r p).1.counter k ∧
          (Timeout.pass reset r p).1.counter k ≤ r.1.counter k + 1 := by
        rcases Timeout.pass_counter reset r p k with h | ⟨-, h⟩
        · rw [h]; omega
        · rw [h, wrapInt32_of_range _ (by omega) (by omega)]; omega
      obtain ⟨a, b⟩ := ih (Timeout.pass reset r p) (by omega) (by omega)
      exact ⟨by omega, by omega⟩
    · rw [if_neg hc]; omega

theorem Timeout_counter (s : FED3) (seconds : Int) (reset whitenoise : Bool) (t0 : Int)
    (passes : List TimeoutPass) (k : Counter) :
    (Timeout s seconds reset whitenoise t0 passes).counter k
      = (Timeout.loop seconds reset (s, wrapInt32 t0) passes).1.counter k := by
  cases k <;> rfl

theorem counter_step (c c' : Int) (h0 : 0 ≤ c) (h1 : c + 1 ≤ 2147483647)
    (h : c' = c ∨ c' = wrapInt32 (c + 1) ∨ c' = u32 (c + 1)) : c ≤ c' ∧ c' ≤ c + 1 := by
  rcases h with h | h | h
  · omega
  · rw [h, wrapInt32_of_range _ (by omega) (by omega)]; omega
  · rw [h]; unfold u32; omega

/-- With room for its increments below the largest `int`, an operation does not decrease a
counter and adds at most `Op.increments` to it. -/
theorem opApply_counter_le (s : FED3) (o : Op) (k : Counter) (h0 : 0 ≤ s.counter k)
    (h1 : s.counter k + o.increments ≤ 2147483647) :
    s.counter k ≤ (Op.apply s o).counter k ∧
    (Op.apply s o).counter k ≤ s.counter k + o.increments := by
  cases o with
  | logLeftPoke t0 pin t1 env =>
    refine counter_step _ _ h0 h1 ?_
    have e : (Op.apply s (Op.logLeftPoke t0 pin t1 env)).counter k = _ :=
      logLeftPoke_counter s t0 pin t1 env k
    by_cases hk : k = Counter.LeftCount
    · right; left; rw [e, if_pos hk]
    · left; rw [e, if_neg hk]
  | logRightPoke t0 pin t1 env =>
    refine counter_step _ _ h0 h1 ?_
    have e : (Op.apply s (Op.logRightPoke t0 pin t1 env)).counter k = _ :=
      logRightPoke_counter s t0 pin t1 env k
    by_cases hk : k = Counter.RightCount
    · right; left; rw [e, if_pos hk]
    · left; rw [e, if_neg hk]
  | serviceLicks b eL eR =>
    refine counter_step _ _ h0 h1 ?_
    rcases serviceLicks_counter s b eL eR k with h | ⟨-, h⟩
    · left; exact h
    · right; right; exact h
  | Timeout sec reset wn t0 passes =>
    show _ ≤ (Timeout s sec reset wn t0 passes).counter k ∧
      (Timeout s sec reset wn t0 passes).counter k ≤ _
    rw [Timeout_counter]
    exact Timeout.loop_counter_le sec reset k passes (s, wrapInt32 t0) h0 h1
  | randomizeActivePoke max draw =>
    exact counter_step _ _ h0 h1 (Or.inl (randomizeActivePoke_counter s max draw k))
  | run r =>
    refine counter_step _ _ h0 h1 ?_
    rcases run_counter s r k with h | ⟨-, h⟩
    · left; exact h
    · right; right; exact h
  | leftTrigger pin =>
    exact counter_step _ _ h0 h1 (Or.inl (leftTrigger_counter s pin k))
  | rightTrigger pin =>
    exact counter_step _ _ h0 h1 (Or.inl (rightTrigger_counter s pin k))
  | FeedLeft steps pulse pixelsoff t0 t1 env =>
    refine counter_step _ _ h0 h1 ?_
    have e : (Op.apply s (Op.FeedLeft steps pulse pixelsoff t0 t1 env)).counter k = _ :=
      FeedLeft_counter s steps pulse pixelsoff t0 t1 env k
    by_cases hk : k = Counter.LeftDeliverCount ∨ k = Counter.TotalDeliverCount
    · right; left; rw [e, if_pos hk]
    · left; rw [e, if_neg hk]
  | FeedRight steps pulse pixelsoff t0 t1 nowTime env =>
    refine counter_step _ _ h0 h1 ?_
    have e : (Op.apply s (Op.FeedRight steps pulse pixelsoff t0 t1 nowTime env)).counter k = _ :=
      FeedRight_counter s steps pulse pixelsoff t0 t1 nowTime env k
    by_cases hk : k = Counter.RightDeliverCount ∨ k = Counter.TotalDeliverCount
    · right; left; rw [e, if_pos hk]
    · left; rw [e, if_neg hk]
  | logdata env =>
    exact counter_step _ _ h0 h1 (Or.inl (logdata_counter s env k))
  | logLeftLick env =>
    exact counter_step _ _ h0 h1 (Or.inl (logLeftLick_counter s env k))
  | logRightLick env =>
    exact counter_step _ _ h0 h1 (Or.inl (logRightLick_counter s env k))

theorem opApplyAll_counter_le (k : Counter) (ops : List Op) :
    ∀ s : FED3, 0 ≤ s.counter k → s.counter k + Op.incrementsAll ops ≤ 2147483647 →
      s.counter k ≤ (Op.applyAll s ops).counter k ∧
      (Op.applyAll s ops).counter k ≤ s.counter k + Op.incrementsAll ops := by
  induction ops with
  | nil => intro s _ _; simp [Op.applyAll, Op.incrementsAll]
  | cons o os ih =>
    intro s h0 h1
    have e : Op.applyAll s (o :: os) = Op.applyAll (Op.apply s o) os := rfl
    have hs : ((Op.incrementsAll (o :: os) : Nat) : Int)
        = (o.increments : Int) + (Op.incrementsAll os : Int) := by
      simp [Op.incrementsAll]
    rw [hs] at h1 ⊢
    obtain ⟨a, b⟩ := opApply_counter_le s o k h0 (by omega)
    obtain ⟨c, d⟩ := ih (Op.apply s o) (by omega) (by omega)
    rw [e]
    exact ⟨by omega, by omega⟩

/-- Counterexample to C25: `LeftCount` is 2147483646, non-negative and below the largest
`int`, and `countAllPokes` is set. A `Timeout` that detects two left pokes leaves `LeftCount`
at -2147483648, and so do two calls of `logLeftPoke`. -/
theorem two_pokes_overflow_LeftCount :
    0 ≤ nearFull.LeftCount ∧ nearFull.LeftCount < 2147483647 ∧
    (Timeout nearFull 2 false false 0 [leftPokePass 100, leftPokePass 500]).LeftCount
      = -2147483648 ∧
    (Op.applyAll nearFull [leftPokeAt 1000, leftPokeAt 2000]).LeftCount = -2147483648 := by
  decide

/-- C25 (amended). Along a series of operations `a ++ b` (`logLeftPoke`, `logRightPoke`,
`serviceLicks`, `logLeftLick`, `logRightLick`, `FeedLeft`, `FeedRight`, `Timeout`,
`randomizeActivePoke`, `logdata`, `run` and the two poke interrupts), a counter that starts
non-negative with room below the largest `int` for the increments of the series (one per
operation, one per pass of the loop for `Timeout`) is non-negative after `a` and is not
smaller after `a ++ b` than after `a`. -/
theorem counters_monotone_with_room (s : FED3) (a b : List Op) (k : Counter)
    (h0 : 0 ≤ s.counter k)
    (h1 : s.counter k + Op.incrementsAll (a ++ b) ≤ 2147483647) :
    0 ≤ (Op.applyAll s a).counter k ∧
    (Op.applyAll s a).counter k ≤ (Op.applyAll s (a ++ b)).counter k := by
  have hs : ((Op.incrementsAll (a ++ b) : Nat) : Int)
      = (Op.incrementsAll a : Int) + (Op.incrementsAll b : Int) := by
    simp [Op.incrementsAll]
  rw [hs] at h1
  obtain ⟨p, q⟩ := opApplyAll_counter_le k a s h0 (by omega)
  obtain ⟨c, -⟩ := opApplyAll_counter_le k b (Op.applyAll s a) (by omega) (by omega)
  have e : Op.applyAll s (a ++ b) = Op.applyAll (Op.applyAll s a) b := by
    simp [Op.applyAll, List.foldl_append]
  rw [e]
  exact ⟨by omega, c⟩

/-- Witness of C25: over the short session from the start of a session, the left poke count
is 0 or more after the first three operations and not smaller at the end. -/
theorem counters_monotone_with_room_witness :
    0 ≤ (Op.applyAll sessionStart (shortSession.take 3)).counter Counter.LeftCount ∧
    (Op.applyAll sessionStart (shortSession.take 3)).counter Counter.LeftCount
      ≤ (Op.applyAll sessionStart (shortSession.take 3 ++ shortSession.drop 3)).counter
          Counter.LeftCount :=
  counters_monotone_with_room sessionStart (shortSession.take 3) (shortSession.drop 3)
    Counter.LeftCount (by decide) (by decide)

/-! ## Poke time in the log -/

theorem logdataFields_pokeTime (s : FED3) (env : LogEnv) :
    (logdataFields s env).field Column.pokeTime =
      some (if isDeliver s then Value.nan
        else if s.Event == "Left" || s.Event == "LeftShort" || s.Event == "LeftWithPellet"
            || s.Event == "LeftinTimeout" || s.Event == "LeftDuringDispense" then
          Value.seconds s.leftInterval
        else if s.Event == "Right" || s.Event == "RightShort" || s.Event == "RightWithPellet"
            || s.Event == "RightinTimeout" || s.Event == "RightDuringDispense" then
          Value.seconds s.rightInterval
        else Value.nan) := by
  unfold logdataFields Record.field
  cases s.tempSensor <;> cases isBandit s <;> cases isDeliver s <;> rfl

/-- C26 (the `Poke_Time` field for each poke event of the library). For the events
"LeftShort", "RightShort" and "RightinTimeout" the field is the hold interval of the side in
seconds; for "LeftPoke", "RightPoke" and "LeftinTimeOut" it is the not-a-number sentinel,
because `logdata` compares `Event` with "Left", "Right" and "LeftinTimeout". A left poke
held 300 ms and a left poke inside a timeout are logged with the sentinel. -/
theorem logdata_pokeTime_by_kind (s : FED3) (env : LogEnv) :
    (s.Event = "LeftShort" →
      (logdataFields s env).field Column.pokeTime = some (Value.seconds s.leftInterval)) ∧
    (s.Event = "RightShort" →
      (logdataFields s env).field Column.pokeTime = some (Value.seconds s.rightInterval)) ∧
    (s.Event = "RightinTimeout" →
      (logdataFields s env).field Column.pokeTime = some (Value.seconds s.rightInterval)) ∧
    (s.Event = "LeftPoke" →
      (logdataFields s env).field Column.pokeTime = some Value.nan) ∧
    (s.Event = "RightPoke" →
      (logdataFields s env).field Column.pokeTime = some Value.nan) ∧
    (s.Event = "LeftinTimeOut" →
      (logdataFields s env).field Column.pokeTime = some Value.nan) ∧
    (afterLongPoke.Event = "LeftPoke" ∧ afterLongPoke.leftInterval = 300 ∧
      lastField afterLongPoke Column.pokeTime = some Value.nan) ∧
    ((Timeout countingStart 1 false false 0 [bothPokesPass]).log.map
        (fun rec => (rec.field Column.event, rec.field Column.pokeTime))
      = [(some (Value.text "LeftinTimeOut"), some Value.nan),
         (some (Value.text "RightinTimeout"), some (Value.seconds 300))]) := by
  rw [logdataFields_pokeTime]
  refine ⟨?_, ?_, ?_, ?_, ?_, ?_, by decide, by decide⟩ <;> intro h <;>
    simp +decide [isDeliver, h]

/-! ## Data file name -/

theorem getFilename_device_chars (s : FED3) (month day year : Int) (i : Nat)
    (filename : List Nat) (hlen : 6 ≤ filename.length) :
    (getFilename s month day year i filename)[3]? = some (toChar (s.FED.tdiv 100 + 48)) ∧
    (getFilename s month day year i filename)[4]? = some (toChar (s.FED.tdiv 10 + 48)) ∧
    (getFilename s month day year i filename)[5]? = some (toChar (s.FED.tmod 10 + 48)) := by
  unfold getFilename
  simp only [List.getElem?_set, List.length_set]
  refine ⟨?_, ?_, ?_⟩ <;> simp <;> omega

theorem toChar_small (n : Int) (h0 : 0 ≤ n) (h1 : n ≤ 99) :
    toChar (n.tdiv 100 + 48) = 48 ∧
    toChar (n.tdiv 10 + 48) = 48 + (n / 10).toNat ∧
    toChar (n.tmod 10 + 48) = 48 + (n % 10).toNat ∧
    isDigit (48 + (n / 10).toNat) = true ∧ isDigit (48 + (n % 10).toNat) = true := by
  have e1 : n.tdiv 100 = 0 := by
    rw [Int.tdiv_eq_ediv h0 (by norm_num)]; omega
  have e2 : n.tdiv 10 = n / 10 := Int.tdiv_eq_ediv h0 (by norm_num)
  have e3 : n.tmod 10 = n % 10 := Int.tmod_eq_emod h0 (by norm_num)
  rw [e1, e2, e3]
  unfold toChar isDigit
  refine ⟨by omega, by omega, by omega, ?_, ?_⟩
  · simp; omega
  · simp; omega

theorem toChar_tens (n : Int) (h0 : 100 ≤ n) (h1 : n ≤ 700) :
    isDigit (toChar (n.tdiv 10 + 48)) = false ∧
    (toChar (n.tdiv 10 + 48) : Int) = 48 + n / 10 := by
  have e2 : n.tdiv 10 = n / 10 := Int.tdiv_eq_ediv (by omega) (by norm_num)
  rw [e2]
  unfold toChar isDigit
  refine ⟨?_, by omega⟩
  simp; omega

/-- C27 (the device-number characters of the file name). `getFilename` writes
`FED / 100 + '0'`, `FED / 10 + '0'` and `FED % 10 + '0'` to `filename[3]`, `filename[4]` and
`filename[5]`. For `FED` in `[0, 99]` the three are the decimal digits of `FED`; for `FED` in
`[100, 700]` the character `filename[4]` is `'0' + FED / 10`, above `'9'`. With `FED = 123`
the three characters are `'1'`, `'<'` (code 60) and `'3'`. -/
theorem getFilename_tens_not_digit (s : FED3) (month day year : Int) (i : Nat)
    (filename : List Nat) (hlen : 6 ≤ filename.length) :
    (0 ≤ s.FED → s.FED ≤ 99 →
      (getFilename s month day year i filename)[3]? = some 48 ∧
      (getFilename s month day year i filename)[4]? = some (48 + (s.FED / 10).toNat) ∧
      (getFilename s month day year i filename)[5]? = some (48 + (s.FED % 10).toNat) ∧
      isDigit (48 + (s.FED / 10).toNat) = true ∧ isDigit (48 + (s.FED % 10).toNat) = true) ∧
    (100 ≤ s.FED → s.FED ≤ 700 →
      ∃ c, (getFilename s month day year i filename)[4]? = some c ∧ isDigit c = false ∧
        (c : Int) = 48 + s.FED / 10) ∧
    (((getFilename (deviceNumbered 123) 10 30 2026 0 placeholderName).take 6).drop 3
      = [49, 60, 51]) := by
  obtain ⟨h3, h4, h5⟩ := getFilename_device_chars s month day year i filename hlen
  refine ⟨?_, ?_, by decide⟩
  · intro h0 h1
    obtain ⟨a, b, c, d, e⟩ := toChar_small s.FED h0 h1
    rw [h3, h4, h5, a, b, c]
    exact ⟨rfl, rfl, rfl, d, e⟩
  · intro h0 h1
    obtain ⟨a, b⟩ := toChar_tens s.FED h0 h1
    exact ⟨_, h4, a, b⟩

/-- Witness of C27 at the largest device number, 700: `filename[4]` is `'0' + 70`, the
letter `'v'` (code 118). -/
theorem getFilename_tens_not_digit_witness :
    ∃ c, (getFilename (deviceNumbered 700) 10 30 2026 0 placeholderName)[4]? = some c ∧
      isDigit c = false ∧ (c : Int) = 48 + (deviceNumbered 700).FED / 10 :=
  (getFilename_tens_not_digit (deviceNumbered 700) 10 30 2026 0 placeholderName
    (by decide)).2.1 (by decide) (by decide)

/-! ## A held poke inside a timeout -/

/-- C28 (the right branch of `Timeout` does not wait for the right poke). A pass of the loop
that reads the left poke released and the right poke pressed appends one "RightinTimeout"
record and counts the poke, whatever the state: nothing marks the hold as already logged, and
the wait loop of the right branch reads `LEFT_POKE`. One hold of the right poke from 100 ms to
400 ms, the left poke released, seen by three passes of the loop, is logged three times with
a hold interval of 0 ms and counted three times. -/
theorem Timeout_right_hold_logged_each_pass (reset : Bool) (r : FED3 × Int)
    (p : TimeoutPass) :
    (p.left = Level.HIGH → p.right = Level.LOW →
      (∃ rec, (Timeout.pass reset r p).1.log = r.1.log ++ [rec] ∧
        rec.field Column.event = some (Value.text "RightinTimeout")) ∧
      (Timeout.pass reset r p).1.RightCount
        = (if r.1.countAllPokes = true then wrapInt32 (r.1.RightCount + 1)
           else r.1.RightCount)) ∧
    ((Timeout countingStart 1 false false 0 rightHoldPasses).log.map
        (fun rec => (rec.field Column.event, rec.field Column.pokeTime))
      = [(some (Value.text "RightinTimeout"), some (Value.seconds 0)),
         (some (Value.text "RightinTimeout"), some (Value.seconds 0)),
         (some (Value.text "RightinTimeout"), some (Value.seconds 0))]) ∧
    (Timeout countingStart 1 false false 0 rightHoldPasses).RightCount = 3 := by
  refine ⟨?_, by decide, by decide⟩
  intro hl hr
  have e : Timeout.pass reset r p = Timeout.rightPoke r.1 reset r.2 p := by
    unfold Timeout.pass
    simp only [hl, hr, if_true]
    rfl
  rw [e]
  obtain ⟨h1, _, _, h4⟩ := Timeout.rightPoke_record r.1 reset r.2 p
  exact ⟨h1, h4⟩

/-! ## Delivery counts -/

theorem opApply_deliver_frame (s : FED3) (o : Op) (h : o.isDelivery = false) :
    (Op.apply s o).LeftDeliverCount = s.LeftDeliverCount ∧
    (Op.apply s o).RightDeliverCount = s.RightDeliverCount ∧
    (Op.apply s o).TotalDeliverCount = s.TotalDeliverCount := by
  have key : (∀ k : Counter, (k = Counter.LeftDeliverCount ∨ k = Counter.RightDeliverCount ∨
      k = Counter.TotalDeliverCount) → (Op.apply s o).counter k = s.counter k) →
      (Op.apply s o).LeftDeliverCount = s.LeftDeliverCount ∧
      (Op.apply s o).RightDeliverCount = s.RightDeliverCount ∧
      (Op.apply s o).TotalDeliverCount = s.TotalDeliverCount :=
    fun f => ⟨f Counter.LeftDeliverCount (Or.inl rfl),
      f Counter.RightDeliverCount (Or.inr (Or.inl rfl)),
      f Counter.TotalDeliverCount (Or.inr (Or.inr rfl))⟩
  apply key
  intro k hk
  have n1 : k ≠ Counter.LeftCount := by rcases hk with h | h | h <;> rw [h] <;> decide
  have n2 : k ≠ Counter.RightCount := by rcases hk with h | h | h <;> rw [h] <;> decide
  have n3 : ¬ (k = Counter.LeftLickCount ∨ k = Counter.RightLickCount) := by
    rcases hk with h | h | h <;> rw [h] <;> decide
  cases o with
  | logLeftPoke t0 pin t1 env =>
    exact (logLeftPoke_counter s t0 pin t1 env k).trans (if_neg n1)
  | logRightPoke t0 pin t1 env =>
    exact (logRightPoke_counter s t0 pin t1 env k).trans (if_neg n2)
  | serviceLicks b eL eR =>
    rcases serviceLicks_counter s b eL eR k with h | ⟨h, -⟩
    · exact h
    · exact absurd h n3
  | Timeout sec reset wn t0 passes =>
    exact (Timeout_counter s sec reset wn t0 passes k).trans
      (Timeout.loop_counter_frame sec reset k ⟨n1, n2⟩ passes (s, wrapInt32 t0))
  | randomizeActivePoke max draw => exact randomizeActivePoke_counter s max draw k
  | run r =>
    rcases run_counter s r k with h | ⟨h, -⟩
    · exact h
    · exact absurd h n3
  | leftTrigger pin => exact leftTrigger_counter s pin k
  | rightTrigger pin => exact rightTrigger_counter s pin k
  | FeedLeft _ _ _ _ _ _ => simp [Op.isDelivery] at h
  | FeedRight _ _ _ _ _ _ _ => simp [Op.isDelivery] at h
  | logdata env => exact logdata_counter s env k
  | logLeftLick env => exact logLeftLick_counter s env k
  | logRightLick env => exact logRightLick_counter s env k

theorem opApply_deliver_sum (s : FED3) (o : Op)
    (h : s.TotalDeliverCount = wrapInt32 (s.LeftDeliverCount + s.RightDeliverCount)) :
    (Op.apply s o).TotalDeliverCount
      = wrapInt32 ((Op.apply s o).LeftDeliverCount + (Op.apply s o).RightDeliverCount) := by
  cases hd : o.isDelivery with
  | false =>
    obtain ⟨a, b, c⟩ := opApply_deliver_frame s o hd
    rw [a, b, c, h]
  | true =>
    cases o with
    | FeedLeft steps pulse pixelsoff t0 t1 env =>
      show (FeedLeft s steps pulse pixelsoff t0 t1 env).TotalDeliverCount = wrapInt32
        ((FeedLeft s steps pulse pixelsoff t0 t1 env).LeftDeliverCount +
          (FeedLeft s steps pulse pixelsoff t0 t1 env).RightDeliverCount)
      rw [FeedLeft_eq]
      show wrapInt32 (s.TotalDeliverCount + 1)
        = wrapInt32 (wrapInt32 (s.LeftDeliverCount + 1) + s.RightDeliverCount)
      rw [h]
      unfold wrapInt32; omega
    | FeedRight steps pulse pixelsoff t0 t1 nowTime env =>
      show (FeedRight s steps pulse pixelsoff t0 t1 nowTime env).TotalDeliverCount = wrapInt32
        ((FeedRight s steps pulse pixelsoff t0 t1 nowTime env).LeftDeliverCount +
          (FeedRight s steps pulse pixelsoff t0 t1 nowTime env).RightDeliverCount)
      rw [FeedRight_eq]
      show wrapInt32 (s.TotalDeliverCount + 1)
        = wrapInt32 (s.LeftDeliverCount + wrapInt32 (s.RightDeliverCount + 1))
      rw [h]
      unfold wrapInt32; omega
    | logLeftPoke _ _ _ _ => simp [Op.isDelivery] at hd
    | logRightPoke _ _ _ _ => simp [Op.isDelivery] at hd
    | serviceLicks _ _ _ => simp [Op.isDelivery] at hd
    | Timeout _ _ _ _ _ => simp [Op.isDelivery] at hd
    | randomizeActivePoke _ _ => simp [Op.isDelivery] at hd
    | run _ => simp [Op.isDelivery] at hd
    | leftTrigger _ => simp [Op.isDelivery] at hd
    | rightTrigger _ => simp [Op.isDelivery] at hd
    | logdata _ => simp [Op.isDelivery] at hd
    | logLeftLick _ => simp [Op.isDelivery] at hd
    | logRightLick _ => simp [Op.isDelivery] at hd

theorem opApplyAll_deliver_sum (ops : List Op) :
    ∀ s : FED3, s.TotalDeliverCount = wrapInt32 (s.LeftDeliverCount + s.RightDeliverCount) →
      (Op.applyAll s ops).TotalDeliverCount = wrapInt32
        ((Op.applyAll s ops).LeftDeliverCount + (Op.applyAll s ops).RightDeliverCount) := by
  induction ops with
  | nil => intro s h; exact h
  | cons o os ih =>
    intro s h
    exact ih (Op.apply s o) (opApply_deliver_sum s o h)

theorem opApplyAll_deliver_exact (ops : List Op) :
    ∀ s : FED3, s.TotalDeliverCount = s.LeftDeliverCount + s.RightDeliverCount →
      0 ≤ s.LeftDeliverCount → 0 ≤ s.RightDeliverCount →
      s.TotalDeliverCount + Op.incrementsAll ops ≤ 2147483647 →
      (Op.applyAll s ops).TotalDeliverCount
        = (Op.applyAll s ops).LeftDeliverCount + (Op.applyAll s ops).RightDeliverCount ∧
      0 ≤ (Op.applyAll s ops).LeftDeliverCount ∧
      0 ≤ (Op.applyAll s ops).RightDeliverCount := by
  induction ops with
  | nil => intro s h hL hR _; exact ⟨h, hL, hR⟩
  | cons o os ih =>
    intro s h hL hR hroom
    have hs : ((Op.incrementsAll (o :: os) : Nat) : Int)
        = (o.increments : Int) + (Op.incrementsAll os : Int) := by
      simp [Op.incrementsAll]
    rw [hs] at hroom
    have e : Op.applyAll s (o :: os) = Op.applyAll (Op.apply s o) os := rfl
    rw [e]
    cases hd : o.isDelivery with
    | false =>
      obtain ⟨a, b, c⟩ := opApply_deliver_frame s o hd
      exact ih (Op.apply s o) (by rw [a, b, c]; exact h) (by rw [a]; exact hL)
        (by rw [b]; exact hR) (by rw [c]; omega)
    | true =>
      have hi : o.increments = 1 := by
        cases o <;> first | rfl | simp [Op.isDelivery] at hd
      rw [hi] at hroom
      have hT : (Op.apply s o).TotalDeliverCount = s.TotalDeliverCount + 1 ∧
          (((Op.apply s o).LeftDeliverCount = s.LeftDeliverCount + 1 ∧
            (Op.apply s o).RightDeliverCount = s.RightDeliverCount) ∨
           ((Op.apply s o).LeftDeliverCount = s.LeftDeliverCount ∧
            (Op.apply s o).RightDeliverCount = s.RightDeliverCount + 1)) := by
        have w1 := wrapInt32_of_range (s.TotalDeliverCount + 1) (by omega) (by omega)
        have w2 := wrapInt32_of_range (s.LeftDeliverCount + 1) (by omega) (by omega)
        have w3 := wrapInt32_of_range (s.RightDeliverCount + 1) (by omega) (by omega)
        cases o with
        | FeedLeft steps pulse pixelsoff t0 t1 env =>
          refine ⟨?_, Or.inl ⟨?_, ?_⟩⟩
          · exact ((FeedLeft_counter s steps pulse pixelsoff t0 t1 env
              Counter.TotalDeliverCount).trans (if_pos (Or.inr rfl))).trans w1
          · exact ((FeedLeft_counter s steps pulse pixelsoff t0 t1 env
              Counter.LeftDeliverCount).trans (if_pos (Or.inl rfl))).trans w2
          · exact (FeedLeft_counter s steps pulse pixelsoff t0 t1 env
              Counter.RightDeliverCount).trans (if_neg (by decide))
        | FeedRight steps pulse pixelsoff t0 t1 nowTime env =>
          refine ⟨?_, Or.inr ⟨?_, ?_⟩⟩
          · exact ((FeedRight_counter s steps pulse pixelsoff t0 t1 nowTime env
              Counter.TotalDeliverCount).trans (if_pos (Or.inr rfl))).trans w1
          · exact (FeedRight_counter s steps pulse pixelsoff t0 t1 nowTime env
              Counter.LeftDeliverCount).trans (if_neg (by decide))
          · exact ((FeedRight_counter s steps pulse pixelsoff t0 t1 nowTime env
              Counter.RightDeliverCount).trans (if_pos (Or.inl rfl))).trans w3
        | logLeftPoke _ _ _ _ => simp [Op.isDelivery] at hd
        | logRightPoke _ _ _ _ => simp [Op.isDelivery] at hd
        | serviceLicks _ _ _ => simp [Op.isDelivery] at hd
        | Timeout _ _ _ _ _ => simp [Op.isDelivery] at hd
        | randomizeActivePoke _ _ => simp [Op.isDelivery] at hd
        | run _ => simp [Op.isDelivery] at hd
        | leftTrigger _ => simp [Op.isDelivery] at hd
        | rightTrigger _ => simp [Op.isDelivery] at hd
        | logdata _ => simp [Op.isDelivery] at hd
        | logLeftLick _ => simp [Op.isDelivery] at hd
        | logRightLick _ => simp [Op.isDelivery] at hd
      obtain ⟨t, lr⟩ := hT
      rcases lr with ⟨l, r⟩ | ⟨l, r⟩
      · exact ih (Op.apply s o) (by rw [t, l, r]; omega) (by rw [l]; omega) (by rw [r]; exact hR)
          (by rw [t]; omega)
      · exact ih (Op.apply s o) (by rw [t, l, r]; omega) (by rw [l]; exact hL) (by rw [r]; omega)
          (by rw [t]; omega)

/-- C29. `TotalDeliverCount = LeftDeliverCount + RightDeliverCount` is an invariant of the
session. It holds in the power-on state (all three zero). `FeedLeft` adds one to
`LeftDeliverCount` and to `TotalDeliverCount`, `FeedRight` adds one to `RightDeliverCount` and
to `TotalDeliverCount`, and no other operation changes any of the three. After every series
of operations from a state in which it holds, the total is the sum of the two side counts as
`int` values (32-bit sum), and it is their sum as integers as long as the side counts are
non-negative and the total has room for one count per operation below the largest `int`. -/
theorem deliver_counts_sum_invariant (s : FED3) (ops : List Op)
    (h : s.TotalDeliverCount = s.LeftDeliverCount + s.RightDeliverCount)
    (hL : 0 ≤ s.LeftDeliverCount) (hR : 0 ≤ s.RightDeliverCount)
    (hroom : s.TotalDeliverCount + Op.incrementsAll ops ≤ 2147483647) :
    (({} : FED3).TotalDeliverCount = 0 ∧ ({} : FED3).LeftDeliverCount = 0 ∧
      ({} : FED3).RightDeliverCount = 0) ∧
    (∀ (x : FED3) (steps pulse : Int) (pixelsoff : Bool) (t0 t1 nowTime : Int) (env : LogEnv),
      (FeedLeft x steps pulse pixelsoff t0 t1 env).LeftDeliverCount
        = wrapInt32 (x.LeftDeliverCount + 1) ∧
      (FeedLeft x steps pulse pixelsoff t0 t1 env).RightDeliverCount = x.RightDeliverCount ∧
      (FeedLeft x steps pulse pixelsoff t0 t1 env).TotalDeliverCount
        = wrapInt32 (x.TotalDeliverCount + 1) ∧
      (FeedRight x steps pulse pixelsoff t0 t1 nowTime env).LeftDeliverCount
        = x.LeftDeliverCount ∧
      (FeedRight x steps pulse pixelsoff t0 t1 nowTime env).RightDeliverCount
        = wrapInt32 (x.RightDeliverCount + 1) ∧
      (FeedRight x steps pulse pixelsoff t0 t1 nowTime env).TotalDeliverCount
        = wrapInt32 (x.TotalDeliverCount + 1)) ∧
    (∀ (x : FED3) (o : Op), o.isDelivery = false →
      (Op.apply x o).LeftDeliverCount = x.LeftDeliverCount ∧
      (Op.apply x o).RightDeliverCount = x.RightDeliverCount ∧
      (Op.apply x o).TotalDeliverCount = x.TotalDeliverCount) ∧
    (Op.applyAll s ops).TotalDeliverCount = wrapInt32
      ((Op.applyAll s ops).LeftDeliverCount + (Op.applyAll s ops).RightDeliverCount) ∧
    (Op.applyAll s ops).TotalDeliverCount
      = (Op.applyAll s ops).LeftDeliverCount + (Op.applyAll s ops).RightDeliverCount := by
  have hw : s.TotalDeliverCount = wrapInt32 (s.LeftDeliverCount + s.RightDeliverCount) := by
    rw [← h, wrapInt32_of_range _ (by omega) (by omega)]
  refine ⟨⟨rfl, rfl, rfl⟩, ?_, opApply_deliver_frame, opApplyAll_deliver_sum ops s hw,
    (opApplyAll_deliver_exact ops s h hL hR hroom).1⟩
  intro x steps pulse pixelsoff t0 t1 nowTime env
  rw [FeedLeft_eq, FeedRight_eq]
  exact ⟨rfl, rfl, rfl, rfl, rfl, rfl⟩

/-- Witness of C29: over the short session from the start of a session, with two deliveries,
the total is 2 and the side counts are 1 and 1. -/
theorem deliver_counts_sum_invariant_witness :
    (Op.applyAll sessionStart shortSession).TotalDeliverCount
      = (Op.applyAll sessionStart shortSession).LeftDeliverCount
        + (Op.applyAll sessionStart shortSession).RightDeliverCount ∧
    (Op.applyAll sessionStart shortSession).TotalDeliverCount = 2 :=
  ⟨(deliver_counts_sum_invariant sessionStart shortSession (by decide) (by decide) (by decide)
      (by decide)).2.2.2.2, by decide⟩

end TwoBottle
